import Mathlib

/-!
# pt/scene.go : the path-tracing integrator

A shallow embedding of `src/pt/scene.go`.

* `float64` is an abstract carrier `F` with the operations scene.go applies to it
  (class `Float64`); theorems hold for every interpretation of them.  What a theorem needs
  from float64 arithmetic is a hypothesis that IEEE 754 arithmetic satisfies.  Two concrete
  interpretations evaluate the code on concrete inputs: `XFloat` (rationals, two infinities
  and NaN; `+ - * /` and `float64(i)` exact, `math.Sqrt` correctly rounded) and `RFloat` (the
  same values, every operation rounded to the nearest float64).
* `*rand.Rand` is an explicit generator state `G` passed through every call.
* `Vector`, `Material`, `*Tree`, `Ray.Bounce`, `NewTree` are declared outside scene.go:
  they are the fields of `Collab`.  A panic or divergence inside them is not modelled.
* `DirectLight`, `RecursiveSample` and `Sample` also return the list of calls they made
  (`Event`, tagged with the line of scene.go that makes the call).  The list is ghost
  state: it never influences a value.
-/

namespace pt

/-! ## float64 -/

/-- The operations on `float64` that scene.go uses. -/
class Float64 (F : Type) where
  /-- the constant `0` -/
  zero : F
  /-- the constant `1` -/
  one : F
  /-- `a + b` -/
  add : F → F → F
  /-- `a - b` -/
  sub : F → F → F
  /-- `a * b` -/
  mul : F → F → F
  /-- `a / b` -/
  div : F → F → F
  /-- `a < b` -/
  lt : F → F → Bool
  /-- `math.Max(a, b)` -/
  max : F → F → F
  /-- `math.Sqrt(a)` -/
  sqrt : F → F
  /-- `float64(i)` for an `int` -/
  ofInt : Int → F
  /-- `int(a)` -/
  toInt : F → Int

/-- Go `int` arithmetic is 64-bit two's complement: the value of an `int` expression whose
mathematical value is `x`. -/
def wrapInt64 (x : Int) : Int :=
  (x + 2 ^ 63) % 2 ^ 64 - 2 ^ 63

/-! ## Data model -/

/-- Modelled from the spec: the declaration of `Color` (color.go) is not part of scene.go.
Section 3 of the spec: an RGB triple that supports add, scale, component-wise multiply and
scalar divide. -/
structure Color (F : Type) where
  R : F
  G : F
  B : F
deriving DecidableEq

namespace Color

variable {F : Type} [Float64 F]

/-- The Go zero value `Color{}`. -/
def zero : Color F :=
  ⟨Float64.zero, Float64.zero, Float64.zero⟩

/-- `a.Add(b)` -/
def Add (a b : Color F) : Color F :=
  ⟨Float64.add a.R b.R, Float64.add a.G b.G, Float64.add a.B b.B⟩

/-- `a.Mul(b)`, scaling by a scalar -/
def Mul (a : Color F) (b : F) : Color F :=
  ⟨Float64.mul a.R b, Float64.mul a.G b, Float64.mul a.B b⟩

/-- `a.MulColor(b)`, the component-wise product -/
def MulColor (a b : Color F) : Color F :=
  ⟨Float64.mul a.R b.R, Float64.mul a.G b.G, Float64.mul a.B b.B⟩

/-- `a.Div(b)`, division by a scalar -/
def Div (a : Color F) (b : F) : Color F :=
  ⟨Float64.div a.R b, Float64.div a.G b, Float64.div a.B b⟩

end Color

/-- `Ray{Origin, Direction}` -/
structure Ray (V : Type) where
  Origin : V
  Direction : V
deriving DecidableEq

/-- The `Shape` interface, as the record of the methods scene.go calls on a shape.
`RandomPoint` takes the generator and returns it advanced. -/
structure Shape (F V G M : Type) where
  Color : V → Color F
  Material : V → M
  RandomPoint : G → V × G

/-- `Hit`: the fields scene.go reads. -/
structure Hit (F V G M : Type) where
  Shape : Shape F V G M
  Ray : Ray V
  T : F

/-- What scene.go uses and does not declare: the `Vector` methods, the `Tint` field of
`Material`, `rnd.Float64()`, `Ray.Bounce`, and the `*Tree` type `T` with `NewTree`,
`Intersect` and `Shadow`. -/
structure Collab (F V G M T : Type) where
  /-- `a.Sub(b)` -/
  Sub : V → V → V
  /-- `a.Normalize()` -/
  Normalize : V → V
  /-- `a.Length()` -/
  Length : V → F
  /-- `a.Dot(b)` -/
  Dot : V → V → F
  /-- `material.Tint` -/
  Tint : M → F
  /-- `rnd.Float64()`: the number drawn and the generator after the draw -/
  Float64 : G → F × G
  /-- `n.Bounce(i, material, p, u, v)`, receiver first -/
  Bounce : Ray V → Ray V → M → F → F → F → Ray V × Bool
  /-- `NewTree(shapes)` -/
  NewTree : List (Shape F V G M) → T
  /-- `tree.Intersect(r)` -/
  Intersect : T → Ray V → Hit F V G M × Bool
  /-- `tree.Shadow(r)` -/
  Shadow : T → Ray V → F

/-- `type Scene struct` -/
structure Scene (F V G M T : Type) where
  shapes : List (Shape F V G M)
  lights : List (Shape F V G M)
  shapeTree : T
  lightTree : T

/-- A call made while sampling, with the line of scene.go that makes it. -/
inductive Event (F : Type) where
  /-- `s.IntersectShapes(r)` -/
  | intersectShapes (line : Nat)
  /-- `s.IntersectLights(r)` -/
  | intersectLights (line : Nat)
  /-- `s.Shadow(lr, d.Length())` -/
  | shadow (line : Nat)
  /-- `rnd.Float64()` -/
  | float64 (line : Nat)
  /-- `light.RandomPoint(rnd)` -/
  | randomPoint (line : Nat)
  /-- `hit.Ray.Bounce(r, material, p, u, v)` -/
  | bounce (line : Nat) (p u v : F)
  /-- `s.RecursiveSample(ray, reflected, depth, rnd)` -/
  | recursiveSample (line : Nat) (depth : Int)
  /-- `s.DirectLight(r, hit.Ray, rnd)` -/
  | directLight (line : Nat)
deriving DecidableEq

/-- What a call that takes `rnd` leaves behind: the value returned, the generator after the
call, and the calls made, in order. -/
structure Out (F G α : Type) where
  val : α
  rnd : G
  log : List (Event F)
deriving DecidableEq

section Code

variable {F V G M T : Type} [Float64 F]

/-! ## scene.go -/

/-- `func (s *Scene) Compile()` -/
def Scene.Compile (E : Collab F V G M T) (s : Scene F V G M T) : Scene F V G M T :=
  { s with shapeTree := E.NewTree s.shapes, lightTree := E.NewTree s.lights }

/-- `func (s *Scene) AddShape(shape Shape)` -/
def Scene.AddShape (s : Scene F V G M T) (shape : Shape F V G M) : Scene F V G M T :=
  { s with shapes := s.shapes ++ [shape] }

/-- `func (s *Scene) AddLight(shape Shape)` -/
def Scene.AddLight (s : Scene F V G M T) (shape : Shape F V G M) : Scene F V G M T :=
  { s with lights := s.lights ++ [shape] }

/-- `func (s *Scene) IntersectShapes(r Ray) (Hit, bool)` -/
def Scene.IntersectShapes (E : Collab F V G M T) (s : Scene F V G M T) (r : Ray V) :
    Hit F V G M × Bool :=
  E.Intersect s.shapeTree r

/-- `func (s *Scene) IntersectLights(r Ray) (Hit, bool)` -/
def Scene.IntersectLights (E : Collab F V G M T) (s : Scene F V G M T) (r : Ray V) :
    Hit F V G M × Bool :=
  let h1 := E.Intersect s.lightTree r
  if h1.2 then
    let h2 := E.Intersect s.shapeTree r
    if h2.2 then
      (h1.1, Float64.lt h1.1.T h2.1.T)
    else
      (h1.1, h1.2)
  else
    (h1.1, h1.2)

/-- `func (s *Scene) Shadow(r Ray, max float64) bool` -/
def Scene.Shadow (E : Collab F V G M T) (s : Scene F V G M T) (r : Ray V) (max : F) : Bool :=
  let t := E.Shadow s.shapeTree r
  Float64.lt t max

/-- The body of the loop of `DirectLight` (lines 52 to 59), for one light: `st` holds
`color`, the generator and the calls so far. -/
def Scene.DirectLightStep (E : Collab F V G M T) (s : Scene F V G M T) (n : Ray V)
    (st : Out F G (Color F)) (light : Shape F V G M) : Out F G (Color F) :=
  let pr := light.RandomPoint st.rnd
  let p := pr.1
  let d := E.Sub p n.Origin
  let lr : Ray V := ⟨n.Origin, E.Normalize d⟩
  if s.Shadow E lr (E.Length d) then
    ⟨st.val, pr.2, st.log ++ [Event.randomPoint 52, Event.shadow 55]⟩
  else
    let diffuse := Float64.max Float64.zero (E.Dot lr.Direction n.Direction)
    ⟨st.val.Add ((light.Color p).Mul diffuse), pr.2,
      st.log ++ [Event.randomPoint 52, Event.shadow 55]⟩

/-- `func (s *Scene) DirectLight(i, n Ray, rnd *rand.Rand) Color` -/
def Scene.DirectLight (E : Collab F V G M T) (s : Scene F V G M T) (_i n : Ray V) (rnd : G) :
    Out F G (Color F) :=
  let st := s.lights.foldl (s.DirectLightStep E n) ⟨Color.zero, rnd, []⟩
  ⟨st.val.Div (Float64.ofInt s.lights.length), st.rnd, st.log⟩

/-- Lines 84 to 95 and 118 to 129: how a hit combines its `color`, its `material`, the
`indirect` value and, after a diffuse bounce, the direct light.  `line` is the line of the
`DirectLight` call; `ind` is the result of the recursive call, whose generator `DirectLight`
continues from. -/
def Scene.Combine (E : Collab F V G M T) (s : Scene F V G M T) (line : Nat) (r : Ray V)
    (hit : Hit F V G M) (color : Color F) (material : M) (reflected : Bool)
    (ind : Out F G (Color F)) : Out F G (Color F) :=
  let indirect := ind.val
  if reflected then
    if Float64.lt Float64.zero (E.Tint material) then
      let a := color.MulColor (indirect.Mul (E.Tint material))
      let b := indirect.Mul (Float64.sub Float64.one (E.Tint material))
      ⟨a.Add b, ind.rnd, ind.log⟩
    else
      ⟨indirect, ind.rnd, ind.log⟩
  else
    let direct := s.DirectLight E r hit.Ray ind.rnd
    ⟨color.MulColor (direct.val.Add indirect), direct.rnd,
      ind.log ++ Event.directLight line :: direct.log⟩

/-- `func (s *Scene) RecursiveSample(r Ray, reflected bool, depth int, rnd *rand.Rand) Color` -/
def Scene.RecursiveSample (E : Collab F V G M T) (s : Scene F V G M T) (r : Ray V)
    (reflected : Bool) (depth : Int) (rnd : G) : Out F G (Color F) :=
  if hd : depth < 0 then
    ⟨Color.zero, rnd, []⟩
  else
    if reflected && (s.IntersectLights E r).2 then
      let hit := (s.IntersectLights E r).1
      ⟨hit.Shape.Color hit.Ray.Origin, rnd, [Event.intersectLights 69]⟩
    else
      let pre : List (Event F) := if reflected then [Event.intersectLights 69] else []
      let hit := (s.IntersectShapes E r).1
      if !(s.IntersectShapes E r).2 then
        ⟨Color.zero, rnd, pre ++ [Event.intersectShapes 74]⟩
      else
        let shape := hit.Shape
        let color := shape.Color hit.Ray.Origin
        let material := shape.Material hit.Ray.Origin
        let dp := E.Float64 rnd
        let du := E.Float64 dp.2
        let dv := E.Float64 du.2
        let b := E.Bounce hit.Ray r material dp.1 du.1 dv.1
        let ind := s.RecursiveSample E b.1 b.2 (depth - 1) dv.2
        let res := s.Combine E 93 r hit color material b.2 ind
        ⟨res.val, res.rnd,
          pre ++ [Event.intersectShapes 74, Event.float64 81, Event.float64 81,
            Event.float64 81, Event.bounce 82 dp.1 du.1 dv.1,
            Event.recursiveSample 83 (depth - 1)] ++ res.log⟩
termination_by (depth + 1).toNat
decreasing_by omega

/-- The body of the inner loop of `Sample` (lines 113 to 129) for the cell `(u, v)` of an
`n` by `n` grid: `st` holds `result`, the generator and the calls so far. -/
def Scene.SampleCell (E : Collab F V G M T) (s : Scene F V G M T) (r : Ray V)
    (hit : Hit F V G M) (color : Color F) (material : M) (n depth : Int)
    (st : Out F G (Color F)) (u v : Int) : Out F G (Color F) :=
  let dp := E.Float64 st.rnd
  let p := dp.1
  let du := E.Float64 dp.2
  let fu := Float64.mul (Float64.add (Float64.ofInt u) du.1)
    (Float64.div Float64.one (Float64.ofInt n))
  let dv := E.Float64 du.2
  let fv := Float64.mul (Float64.add (Float64.ofInt v) dv.1)
    (Float64.div Float64.one (Float64.ofInt n))
  let b := E.Bounce hit.Ray r material p fu fv
  let ind := s.RecursiveSample E b.1 b.2 (depth - 1) dv.2
  let res := s.Combine E 127 r hit color material b.2 ind
  ⟨st.val.Add res.val, res.rnd,
    st.log ++ [Event.float64 113, Event.float64 114, Event.float64 115,
      Event.bounce 116 p fu fv, Event.recursiveSample 117 (depth - 1)] ++ res.log⟩

/-- The two nested loops of `Sample` (lines 111 to 131), from `result = Color{}`. -/
def Scene.SampleLoop (E : Collab F V G M T) (s : Scene F V G M T) (r : Ray V)
    (hit : Hit F V G M) (color : Color F) (material : M) (n depth : Int) (rnd : G) :
    Out F G (Color F) :=
  (List.range n.toNat).foldl
    (fun st (u : Nat) => (List.range n.toNat).foldl
      (fun st (v : Nat) => s.SampleCell E r hit color material n depth st (u : Int) (v : Int))
      st)
    ⟨Color.zero, rnd, []⟩

/-- `func (s *Scene) Sample(r Ray, samples, depth int, rnd *rand.Rand) Color` -/
def Scene.Sample (E : Collab F V G M T) (s : Scene F V G M T) (r : Ray V)
    (samples depth : Int) (rnd : G) : Out F G (Color F) :=
  if depth < 0 then
    ⟨Color.zero, rnd, []⟩
  else
    let hit := (s.IntersectShapes E r).1
    if !(s.IntersectShapes E r).2 then
      ⟨Color.zero, rnd, [Event.intersectShapes 102]⟩
    else
      let shape := hit.Shape
      let color := shape.Color hit.Ray.Origin
      let material := shape.Material hit.Ray.Origin
      let n := Float64.toInt (Float64.sqrt (Float64.ofInt samples : F))
      let st := s.SampleLoop E r hit color material n depth rnd
      ⟨st.val.Div (Float64.ofInt (wrapInt64 (n * n))), st.rnd,
        Event.intersectShapes 102 :: st.log⟩

end Code

/-! ## A concrete interpretation, to run the code on concrete inputs -/

/-- Stand-in for `float64`: a rational, one of the two infinities, or NaN.  Its `+ - * /` and
`float64(i)` are exact: they agree with IEEE 754 double arithmetic whenever the operands and
the result are exactly representable.  The sign of zero is not kept. -/
inductive XFloat where
  | fin (q : ℚ)
  | pinf
  | ninf
  | nan
deriving DecidableEq

namespace XFloat

/-- `-a` -/
def neg : XFloat → XFloat
  | fin q => fin (-q)
  | pinf => ninf
  | ninf => pinf
  | nan => nan

/-- `a + b` -/
def add : XFloat → XFloat → XFloat
  | nan, _ => nan
  | _, nan => nan
  | fin a, fin b => fin (a + b)
  | pinf, ninf => nan
  | ninf, pinf => nan
  | pinf, _ => pinf
  | _, pinf => pinf
  | ninf, _ => ninf
  | _, ninf => ninf

/-- The infinity with the sign of `pos`. -/
def inf (pos : Bool) : XFloat :=
  if pos then pinf else ninf

/-- `a * b` -/
def mul : XFloat → XFloat → XFloat
  | nan, _ => nan
  | _, nan => nan
  | fin a, fin b => fin (a * b)
  | pinf, fin b => if b = 0 then nan else inf (decide (0 < b))
  | ninf, fin b => if b = 0 then nan else inf (decide (b < 0))
  | fin a, pinf => if a = 0 then nan else inf (decide (0 < a))
  | fin a, ninf => if a = 0 then nan else inf (decide (a < 0))
  | pinf, pinf => pinf
  | ninf, ninf => pinf
  | pinf, ninf => ninf
  | ninf, pinf => ninf

/-- `a / b` -/
def div : XFloat → XFloat → XFloat
  | nan, _ => nan
  | _, nan => nan
  | fin a, fin b =>
    if b = 0 then (if a = 0 then nan else inf (decide (0 < a))) else fin (a / b)
  | fin _, pinf => fin 0
  | fin _, ninf => fin 0
  | pinf, fin b => inf (decide (0 ≤ b))
  | ninf, fin b => inf (decide (b < 0))
  | pinf, pinf => nan
  | pinf, ninf => nan
  | ninf, pinf => nan
  | ninf, ninf => nan

/-- `a < b` -/
def lt : XFloat → XFloat → Bool
  | fin a, fin b => decide (a < b)
  | fin _, pinf => true
  | ninf, fin _ => true
  | ninf, pinf => true
  | _, _ => false

/-- `math.Max(a, b)` -/
def max : XFloat → XFloat → XFloat
  | pinf, _ => pinf
  | _, pinf => pinf
  | nan, _ => nan
  | _, nan => nan
  | ninf, b => b
  | a, ninf => a
  | fin a, fin b => fin (if a < b then b else a)

/-- The float64 nearest to the square root of a rational `q > 0`, ties to even.  With
`4^e <= q < 4^(e+1)` the root lies in `[2^e, 2^(e+1))`, where the float64 numbers are the
multiples of `2^(e-52)`: `r` is the root in units of `2^(e-52)` rounded down, and `m` is `r` or
`r + 1`, whichever is nearer to the root (`(r + 1/2)^2 = r*r + r + 1/4` is the midpoint). -/
def sqrtRound (q : ℚ) : ℚ :=
  let e : Int := Int.log 4 q
  let N : ℚ := q * (4 : ℚ) ^ (52 - e)
  let r : Nat := Nat.sqrt ⌊N⌋₊
  let mid : ℚ := (r : ℚ) * r + r + 1 / 4
  let m : Nat := if N < mid then r else if mid < N then r + 1 else r + r % 2
  (m : ℚ) * (2 : ℚ) ^ (e - 52)

/-- `math.Sqrt(a)`: the root correctly rounded to a float64, as IEEE 754 requires of the
square root. -/
def sqrt : XFloat → XFloat
  | fin q => if q < 0 then nan else if q = 0 then fin 0 else fin (sqrtRound q)
  | pinf => pinf
  | ninf => nan
  | nan => nan

/-- `int(a)`: truncation toward zero; outside the range of `int`, the value amd64 gives. -/
def toInt : XFloat → Int
  | fin q =>
    let z := Int.tdiv q.num q.den
    if -2 ^ 63 ≤ z ∧ z < 2 ^ 63 then z else -2 ^ 63
  | _ => -2 ^ 63

end XFloat

instance : Float64 XFloat where
  zero := XFloat.fin 0
  one := XFloat.fin 1
  add := XFloat.add
  sub := fun a b => XFloat.add a (XFloat.neg b)
  mul := XFloat.mul
  div := XFloat.div
  lt := XFloat.lt
  max := XFloat.max
  sqrt := XFloat.sqrt
  ofInt := fun i => XFloat.fin i
  toInt := XFloat.toInt


/-! ## float64 with its rounding -/

namespace XFloat

/-- The float64 nearest to the rational `q`, ties to even, as IEEE 754 rounds the exact
result of an operation.  With `2^e <= |q| < 2^(e+1)` the float64 numbers around `q` are the
multiples of `2^(e-52)`, and of `2^-1074` when `|q| < 2^-1022`; `r` is `|q|` in units of that
spacing, rounded down, and `m` is `r` or `r + 1`, whichever is nearer.  A magnitude that
rounds to `2^1024` or more overflows to the infinity of its sign. -/
def round64 (q : ℚ) : XFloat :=
  if q = 0 then fin 0
  else
    let e : Int := Max.max (Int.log 2 |q|) (-1022)
    let N : ℚ := |q| * (2 : ℚ) ^ (52 - e)
    let r : Nat := ⌊N⌋₊
    let m : Nat := if N - r < 1 / 2 then r else if 1 / 2 < N - r then r + 1 else r + r % 2
    let v : ℚ := (m : ℚ) * (2 : ℚ) ^ (e - 52)
    if (2 : ℚ) ^ (1024 : Nat) ≤ v then inf (decide (0 < q))
    else fin (if 0 < q then v else -v)

/-- The exact result of an operation, rounded: an infinity and NaN are kept. -/
def round : XFloat → XFloat
  | fin q => round64 q
  | pinf => pinf
  | ninf => ninf
  | nan => nan

end XFloat

/-- `float64` with its rounding: the values are those of `XFloat`, and `+ - * /` and
`float64(i)` round their exact result to the nearest float64, so an operation on float64
numbers returns what IEEE 754 double arithmetic returns.  The sign of zero is not kept. -/
structure RFloat where
  val : XFloat
deriving DecidableEq

instance : Float64 RFloat where
  zero := ⟨XFloat.fin 0⟩
  one := ⟨XFloat.fin 1⟩
  add := fun a b => ⟨(XFloat.add a.val b.val).round⟩
  sub := fun a b => ⟨(XFloat.add a.val (XFloat.neg b.val)).round⟩
  mul := fun a b => ⟨(XFloat.mul a.val b.val).round⟩
  div := fun a b => ⟨(XFloat.div a.val b.val).round⟩
  lt := fun a b => XFloat.lt a.val b.val
  max := fun a b => ⟨XFloat.max a.val b.val⟩
  sqrt := fun a => ⟨XFloat.sqrt a.val⟩
  ofInt := fun i => ⟨XFloat.round64 i⟩
  toInt := fun a => XFloat.toInt a.val

/-! ## A concrete world: shapes are points of the integer line -/

namespace Line

/-- A material of the line world: its tint, and whether `Bounce` reports it as reflected. -/
structure Mat where
  Tint : XFloat
  Mirror : Bool
deriving DecidableEq

/-- Shapes of the line world; the generator is a counter of draws. -/
abbrev Sh : Type := Shape XFloat Int Nat Mat

/-- The shape that is the point `x`, of uniform color `c` and material `m`. -/
def point (x : Int) (c : Color XFloat) (m : Mat) : Sh :=
  ⟨fun _ => c, fun _ => m, fun g => (x, g + 1)⟩

/-- Where a point shape lies. -/
def position (sh : Sh) : Int :=
  (sh.RandomPoint 0).1

/-- The shape of the zero value `Hit{}`. -/
def nilShape : Sh :=
  point 0 Color.zero ⟨XFloat.fin 0, false⟩

/-- The nearest shape strictly ahead of the origin of `r`, the earliest in the list among
equally near ones. -/
def nearest (r : Ray Int) : List Sh → Option Sh
  | [] => none
  | sh :: rest =>
    if 0 < (position sh - r.Origin) * r.Direction then
      match nearest r rest with
      | none => some sh
      | some b =>
        if (position b - r.Origin).natAbs < (position sh - r.Origin).natAbs then some b
        else some sh
    else nearest r rest

/-- `tree.Intersect(r)` of the line world: the hit point with the normal facing the ray,
at the distance of the point. -/
def intersect (t : List Sh) (r : Ray Int) : Hit XFloat Int Nat Mat × Bool :=
  match nearest r t with
  | none => (⟨nilShape, ⟨0, 0⟩, XFloat.fin 0⟩, false)
  | some sh =>
    (⟨sh, ⟨position sh, -r.Direction⟩, XFloat.fin ((position sh - r.Origin).natAbs : Int)⟩, true)

/-- `tree.Shadow(r)` of the line world: the distance of the nearest point, or infinity. -/
def shadow (t : List Sh) (r : Ray Int) : XFloat :=
  match nearest r t with
  | none => XFloat.pinf
  | some sh => XFloat.fin ((position sh - r.Origin).natAbs : Int)

/-- The collaborators of the line world.  A tree is the list it was built from, every
draw is 1/2, and a bounce leaves the hit point along the normal. -/
def world : Collab XFloat Int Nat Mat (List Sh) where
  Sub := fun a b => a - b
  Normalize := fun a => if 0 < a then 1 else if a < 0 then -1 else 0
  Length := fun a => XFloat.fin (a.natAbs : Int)
  Dot := fun a b => XFloat.fin ((a * b : Int) : ℚ)
  Tint := fun m => m.Tint
  Float64 := fun g => (XFloat.fin (1 / 2), g + 1)
  Bounce := fun n _ m _ _ _ => (n, m.Mirror)
  NewTree := fun shapes => shapes
  Intersect := intersect
  Shadow := shadow

/-- A scene before any shape is added: the zero value `Scene{}`. -/
def empty : Scene XFloat Int Nat Mat (List Sh) :=
  ⟨[], [], [], []⟩

/-- A gray of level `q`. -/
def gray (q : ℚ) : Color XFloat :=
  ⟨XFloat.fin q, XFloat.fin q, XFloat.fin q⟩

/-- A mirror of tint 0 at 5 and a light of level 4 at -3, compiled. -/
def mirrorScene : Scene XFloat Int Nat Mat (List Sh) :=
  ((empty.AddShape (point 5 (gray 1) ⟨XFloat.fin 0, true⟩)).AddLight
    (point (-3) (gray 4) ⟨XFloat.fin 0, false⟩)).Compile world

/-- As the mirror scene, with a mirror of level 1/2 and tint 1. -/
def tintedScene : Scene XFloat Int Nat Mat (List Sh) :=
  ((empty.AddShape (point 5 (gray (1 / 2)) ⟨XFloat.fin 1, true⟩)).AddLight
    (point (-3) (gray 4) ⟨XFloat.fin 0, false⟩)).Compile world

/-- One sphere-like point at 3 added both as a shape and as a light, compiled: along the
ray from 0 the light and the nearest shape are at the same distance 3. -/
def tieScene : Scene XFloat Int Nat Mat (List Sh) :=
  ((empty.AddShape (point 3 (gray 2) ⟨XFloat.fin 0, false⟩)).AddLight
    (point 3 (gray 2) ⟨XFloat.fin 0, false⟩)).Compile world

/-- The zero value `Scene{}`, compiled: no shape and no light. -/
def emptyScene : Scene XFloat Int Nat Mat (List Sh) :=
  empty.Compile world

/-- The color whose three channels are `+Inf`. -/
def glare : Color XFloat :=
  ⟨XFloat.pinf, XFloat.pinf, XFloat.pinf⟩

/-- As the mirror scene, with a light whose color is `+Inf` in every channel. -/
def glareScene : Scene XFloat Int Nat Mat (List Sh) :=
  ((empty.AddShape (point 5 (gray 1) ⟨XFloat.fin 0, true⟩)).AddLight
    (point (-3) glare ⟨XFloat.fin 0, false⟩)).Compile world

/-- A black diffuse wall at 5 and a light at -3 whose color is `+Inf` in every channel,
compiled. -/
def blackWallScene : Scene XFloat Int Nat Mat (List Sh) :=
  ((empty.AddShape (point 5 (gray 0) ⟨XFloat.fin 0, false⟩)).AddLight
    (point (-3) glare ⟨XFloat.fin 0, false⟩)).Compile world

/-- A mirror of tint 1/2 at 5 whose color is `+Inf` in every channel, and a light of level 4
at -3, compiled. -/
def infMirrorScene : Scene XFloat Int Nat Mat (List Sh) :=
  ((empty.AddShape (point 5 glare ⟨XFloat.fin (1 / 2), true⟩)).AddLight
    (point (-3) (gray 4) ⟨XFloat.fin 0, false⟩)).Compile world
end Line


/-! ## A world on float64 with rounding: one shape that every ray hits -/

namespace Flat

/-- The one shape of the flat world: black. -/
def shape : Shape RFloat Unit Unit Unit :=
  ⟨fun _ => Color.zero, fun _ => (), fun g => ((), g)⟩

/-- The collaborators of the flat world: every ray hits the shape at distance 1, every draw
is `x`, and every bounce is diffuse. -/
def world (x : RFloat) : Collab RFloat Unit Unit Unit Unit where
  Sub := fun _ _ => ()
  Normalize := fun _ => ()
  Length := fun _ => Float64.one
  Dot := fun _ _ => Float64.zero
  Tint := fun _ => Float64.zero
  Float64 := fun g => (x, g)
  Bounce := fun n _ _ _ _ _ => (n, false)
  NewTree := fun _ => ()
  Intersect := fun _ r => (⟨shape, r, Float64.one⟩, true)
  Shadow := fun _ _ => Float64.one

/-- The scene of the one shape, without a light. -/
def scene : Scene RFloat Unit Unit Unit Unit :=
  ⟨[shape], [], (), ()⟩

end Flat

/-! ## The properties, in the words of the specification -/

section Spec

variable {F V G M T : Type} [Float64 F]

/-- Each light with the one point sampled on it: the lights in order, each draw starting
from the generator the previous draw left. -/
def sampledLights : List (Shape F V G M) → G → List (Shape F V G M × V)
  | [], _ => []
  | light :: rest, rnd =>
    (light, (light.RandomPoint rnd).1) :: sampledLights rest (light.RandomPoint rnd).2

/-- The generator after one point was sampled on every light. -/
def afterLights : List (Shape F V G M) → G → G
  | [], rnd => rnd
  | light :: rest, rnd => afterLights rest (light.RandomPoint rnd).2

/-- What a light and the point `p` sampled on it contribute to the direct light at the
surface ray `n`: nothing when `Shadow` holds for the ray from `n.Origin` toward `p` and the
distance `|p - n.Origin|`, else `Color(p) * max(0, dot(normalize(p - n.Origin), n.Direction))`. -/
def Scene.lightTerm (E : Collab F V G M T) (s : Scene F V G M T) (n : Ray V)
    (lp : Shape F V G M × V) : Option (Color F) :=
  if s.Shadow E ⟨n.Origin, E.Normalize (E.Sub lp.2 n.Origin)⟩ (E.Length (E.Sub lp.2 n.Origin))
  then none
  else some ((lp.1.Color lp.2).Mul
    (Float64.max Float64.zero (E.Dot (E.Normalize (E.Sub lp.2 n.Origin)) n.Direction)))

/-- The sum of a list of colors, added in order from the zero color. -/
def Color.sum (cs : List (Color F)) : Color F :=
  cs.foldl Color.Add Color.zero

/-- The direct light of the specification: the sum of what the lights that are not
occluded contribute, divided by the number of all lights. -/
def Scene.DirectLightSpec (E : Collab F V G M T) (s : Scene F V G M T) (n : Ray V) (rnd : G) :
    Color F :=
  (Color.sum ((sampledLights s.lights rnd).filterMap (s.lightTerm E n))).Div
    (Float64.ofInt s.lights.length)

/-- The same with an occluded light entering the sum as the zero color. -/
def Scene.DirectLightSpecZero (E : Collab F V G M T) (s : Scene F V G M T) (n : Ray V)
    (rnd : G) : Color F :=
  (Color.sum ((sampledLights s.lights rnd).map
    (fun lp => (s.lightTerm E n lp).getD Color.zero))).Div (Float64.ofInt s.lights.length)

/-- One call that adds to a scene. -/
inductive Addition (F V G M : Type) where
  /-- `s.AddShape(x)` -/
  | shape (x : Shape F V G M)
  /-- `s.AddLight(x)` -/
  | light (x : Shape F V G M)

/-- Whether the call is `AddShape`. -/
def Addition.isShape : Addition F V G M → Bool
  | Addition.shape _ => true
  | Addition.light _ => false

/-- The scene after one call. -/
def Scene.add (s : Scene F V G M T) : Addition F V G M → Scene F V G M T
  | Addition.shape x => s.AddShape x
  | Addition.light x => s.AddLight x

/-- The scene after a sequence of `AddShape` and `AddLight` calls, with no `Compile`. -/
def Scene.addAll (s : Scene F V G M T) (calls : List (Addition F V G M)) : Scene F V G M T :=
  calls.foldl Scene.add s

/-- Lines 78 to 82: the bounce at the hit of `r`, with the three numbers drawn from `rnd`,
and the generator after the draws. -/
def Scene.nextBounce (E : Collab F V G M T) (s : Scene F V G M T) (r : Ray V) (rnd : G) :
    (Ray V × Bool) × G :=
  let hit := (s.IntersectShapes E r).1
  let material := hit.Shape.Material hit.Ray.Origin
  let dp := E.Float64 rnd
  let du := E.Float64 dp.2
  let dv := E.Float64 du.2
  (E.Bounce hit.Ray r material dp.1 du.1 dv.1, dv.2)

/-- A specular path of `m` bounces from the ray `r`, reached with the flag `reflected`:
each of the `m` rays neither takes the light shortcut nor misses the shapes, `Bounce`
reports each bounce as reflected, and the last ray is found on a light by
`IntersectLights`. -/
def Scene.isSpecularPath (E : Collab F V G M T) (s : Scene F V G M T) :
    Nat → Ray V → Bool → G → Bool
  | 0, r, reflected, _ => reflected && (s.IntersectLights E r).2
  | m + 1, r, reflected, rnd =>
    !(reflected && (s.IntersectLights E r).2) && (s.IntersectShapes E r).2 &&
      (s.nextBounce E r rnd).1.2 &&
      Scene.isSpecularPath E s m (s.nextBounce E r rnd).1.1 true (s.nextBounce E r rnd).2

/-- The emitted color of the light at the end of the path, at the light hit point. -/
def Scene.pathLight (E : Collab F V G M T) (s : Scene F V G M T) : Nat → Ray V → G → Color F
  | 0, r, _ =>
    (s.IntersectLights E r).1.Shape.Color (s.IntersectLights E r).1.Ray.Origin
  | m + 1, r, rnd =>
    Scene.pathLight E s m (s.nextBounce E r rnd).1.1 (s.nextBounce E r rnd).2

/-- The tints of the materials the path bounces on. -/
def Scene.pathTints (E : Collab F V G M T) (s : Scene F V G M T) : Nat → Ray V → G → List F
  | 0, _, _ => []
  | m + 1, r, rnd =>
    E.Tint ((s.IntersectShapes E r).1.Shape.Material (s.IntersectShapes E r).1.Ray.Origin) ::
      Scene.pathTints E s m (s.nextBounce E r rnd).1.1 (s.nextBounce E r rnd).2

/-- Whether the event is a call of `DirectLight`. -/
def Event.isDirectLight : Event F → Bool
  | Event.directLight _ => true
  | _ => false

/-- The line of scene.go that makes the call. -/
def Event.line : Event F → Nat
  | Event.intersectShapes l => l
  | Event.intersectLights l => l
  | Event.shadow l => l
  | Event.float64 l => l
  | Event.randomPoint l => l
  | Event.bounce l _ _ _ => l
  | Event.recursiveSample l _ => l
  | Event.directLight l => l

/-- The calls of a list that were made at the line `line`, in order. -/
def atLine (line : Nat) (log : List (Event F)) : List (Event F) :=
  log.filter (fun e => e.line == line)

/-- The cells `(u, v)` of an `n` by `n` grid, in the order of the loops of `Sample`:
`u` outside, `v` inside. -/
def cells (n : Nat) : List (Nat × Nat) :=
  (List.range n).flatMap (fun u => (List.range n).map (fun v => (u, v)))

/-- Line 110: the grid size `n := int(math.Sqrt(float64(samples)))`. -/
def gridSize (F : Type) [Float64 F] (samples : Int) : Int :=
  Float64.toInt (Float64.sqrt (Float64.ofInt samples : F))

/-- The lower edge of the stratum `u` of a grid of size `n`, computed as line 114 computes
`fu` with 0 in the place of the draw: `float64(u) * (1 / float64(n))`. -/
def lowerEdge (n u : Int) : F :=
  Float64.mul (Float64.ofInt u) (Float64.div Float64.one (Float64.ofInt n))

/-- The upper edge of the stratum `u` of a grid of size `n`, computed as line 114 computes
`fu` with 1 in the place of the draw: `(float64(u) + 1) * (1 / float64(n))`. -/
def upperEdge (n u : Int) : F :=
  Float64.mul (Float64.add (Float64.ofInt u) Float64.one)
    (Float64.div Float64.one (Float64.ofInt n))

/-- The call is the `Bounce` of line 116 and its jittered pair `(fu, fv)` lies in the cell
`(u, v)` of the grid of size `n`, edges and comparisons in float64: `fu` is not less than the
lower edge of `u` and the upper edge of `u` is not less than `fu`, and likewise `fv` for `v`. -/
def InCell (n : Int) (cell : Nat × Nat) (e : Event F) : Prop :=
  ∃ p fu fv, e = Event.bounce 116 p fu fv ∧
    Float64.lt fu (lowerEdge n (cell.1 : Int)) = false ∧
    Float64.lt (upperEdge n (cell.1 : Int)) fu = false ∧
    Float64.lt fv (lowerEdge n (cell.2 : Int)) = false ∧
    Float64.lt (upperEdge n (cell.2 : Int)) fv = false

/-- What `Sample`'s jitter relies on from float64, each true of IEEE 754 double arithmetic
for all values, NaN and the infinities included: adding 0 to a converted integer gives it
back; `+` and `*` by a factor that is not negative never reverse an order (rounding is
monotone, and a comparison with NaN is false); `<` is asymmetric; `1 / float64(k)` is not
negative for `k >= 1`. -/
structure JitterLaws (F : Type) [Float64 F] : Prop where
  add_zero : ∀ u : Int, Float64.add (Float64.ofInt u : F) Float64.zero = Float64.ofInt u
  add_mono : ∀ a x y : F, Float64.lt y x = false →
    Float64.lt (Float64.add a y) (Float64.add a x) = false
  mul_mono : ∀ c x y : F, Float64.lt c Float64.zero = false → Float64.lt y x = false →
    Float64.lt (Float64.mul y c) (Float64.mul x c) = false
  lt_asymm : ∀ a b : F, Float64.lt a b = true → Float64.lt b a = false
  inv_notneg : ∀ k : Int, 1 ≤ k →
    Float64.lt (Float64.div (Float64.one : F) (Float64.ofInt k)) Float64.zero = false

/-- What the grid size relies on from `float64(int)`, `math.Sqrt` and `int(float64)`, each
true of them on the positive `int` values: the grid size never decreases when `samples`
grows, it is `k` at `samples = k * k`, and it is 3037000499 at the largest `int`. -/
structure SqrtLaws (F : Type) [Float64 F] : Prop where
  mono : ∀ a b : Int, 1 ≤ a → a ≤ b → b < 2 ^ 63 → gridSize F a ≤ gridSize F b
  square : ∀ k : Int, 0 ≤ k → k * k < 2 ^ 63 → gridSize F (k * k) = k
  top : gridSize F (2 ^ 63 - 1) = 3037000499

/-- The `Bounce` call of line 116 for the cell `(u, v)`, when the body of the loop starts
from the generator `rnd`. -/
def Scene.cellBounce (E : Collab F V G M T) (n : Int) (rnd : G) (u v : Int) : Event F :=
  Event.bounce 116 (E.Float64 rnd).1
    (Float64.mul (Float64.add (Float64.ofInt u) (E.Float64 (E.Float64 rnd).2).1)
      (Float64.div Float64.one (Float64.ofInt n)))
    (Float64.mul (Float64.add (Float64.ofInt v) (E.Float64 (E.Float64 (E.Float64 rnd).2).2).1)
      (Float64.div Float64.one (Float64.ofInt n)))

/-- Whether the event is a call of `Bounce`. -/
def Event.isBounce : Event F → Bool
  | Event.bounce _ _ _ _ => true
  | _ => false

/-- The depth budget passed by a call of `RecursiveSample`. -/
def Event.callDepth : Event F → Option Int
  | Event.recursiveSample _ d => some d
  | _ => none

/-- The draw an event takes from the generator: `true` for `rnd.Float64()`, `false` for
`light.RandomPoint(rnd)`, nothing for the other calls. -/
def Event.draw : Event F → Option Bool
  | Event.float64 _ => some true
  | Event.randomPoint _ => some false
  | _ => none

/-- The draws of a list of calls, in order. -/
def draws (log : List (Event F)) : List Bool :=
  log.filterMap Event.draw

/-- The three channels of the color satisfy `P`. -/
def Color.All (P : F → Prop) (c : Color F) : Prop :=
  P c.R ∧ P c.G ∧ P c.B

/-- `x < 0` is false: `x` is a number that is not negative, or NaN. -/
def NotNeg (x : F) : Prop :=
  Float64.lt x Float64.zero = false

/-- `0 <= x` as float64 compares: `0 < x`, or `x` is zero.  False of NaN. -/
def Nonneg (x : F) : Prop :=
  Float64.lt Float64.zero x = true ∨ x = Float64.zero

/-- What the sign of a radiance relies on from float64, each true of IEEE 754 double
arithmetic for all values: zero is not less than zero; the sum and the product of two values
that are not less than zero, the quotient of one by `float64(k)` for `k >= 0`, `1 - t` for a
`t` that is not above 1, and `math.Max(0, x)` are not less than zero (they can be NaN). -/
structure SignLaws (F : Type) [Float64 F] : Prop where
  zero : NotNeg (Float64.zero : F)
  add : ∀ a b : F, NotNeg a → NotNeg b → NotNeg (Float64.add a b)
  mul : ∀ a b : F, NotNeg a → NotNeg b → NotNeg (Float64.mul a b)
  div : ∀ (a : F) (k : Int), 0 ≤ k → NotNeg a → NotNeg (Float64.div a (Float64.ofInt k))
  one_sub : ∀ t : F, Float64.lt Float64.one t = false → NotNeg (Float64.sub Float64.one t)
  max_zero : ∀ x : F, NotNeg (Float64.max Float64.zero x)

/-- What the combine step at a zero relies on from float64, for a predicate `fin` that holds
of no infinity and no NaN; each is true of IEEE 754 double arithmetic up to the sign of a
zero, which scene.go does not observe: a finite number times 0 and 0 times a finite number
are 0, `1 - t` is finite for a finite `t`, `1 - 0 = 1`, `x * 1 = x`, `0 + x = x`,
`x + 0 = x`, and `0 < 0` is false. -/
structure ZeroLaws (fin : F → Prop) : Prop where
  mul_zero : ∀ x : F, fin x → Float64.mul x Float64.zero = Float64.zero
  zero_mul : ∀ x : F, fin x → Float64.mul Float64.zero x = Float64.zero
  one_sub_fin : ∀ t : F, fin t → fin (Float64.sub Float64.one t)
  one_sub_zero : Float64.sub (Float64.one : F) Float64.zero = Float64.one
  mul_one : ∀ x : F, Float64.mul x Float64.one = x
  zero_add : ∀ x : F, Float64.add Float64.zero x = x
  add_zero : ∀ x : F, Float64.add x Float64.zero = x
  zero_lt_zero : Float64.lt (Float64.zero : F) Float64.zero = false

/-- The blend of the specification for a reflected bounce:
`color * (indirect * tint) + indirect * (1 - tint)`. -/
def blend (color indirect : Color F) (tint : F) : Color F :=
  (color.MulColor (indirect.Mul tint)).Add (indirect.Mul (Float64.sub Float64.one tint))

/-- The combination of the specification for a diffuse bounce:
`color * (direct + indirect)`, a component-wise product. -/
def diffuse (color direct indirect : Color F) : Color F :=
  color.MulColor (direct.Add indirect)

/-- The recursive call of line 83 for the ray `r`: on the bounced ray, with the flag of the
bounce, the budget `depth - 1` and the generator after the three draws. -/
def Scene.indirect (E : Collab F V G M T) (s : Scene F V G M T) (r : Ray V) (depth : Int)
    (rnd : G) : Out F G (Color F) :=
  s.RecursiveSample E (s.nextBounce E r rnd).1.1 (s.nextBounce E r rnd).1.2 (depth - 1)
    (s.nextBounce E r rnd).2

/-- What the stratum `(u, v)` adds to the sum at depth 0, from the sum and the generator so
far: the zero color after a bounce reported as reflected, `color * DirectLight` after a
diffuse one. -/
def Scene.depthZeroCell (E : Collab F V G M T) (s : Scene F V G M T) (r : Ray V)
    (hit : Hit F V G M) (color : Color F) (material : M) (n : Int) (st : Color F × G)
    (u v : Int) : Color F × G :=
  let dp := E.Float64 st.2
  let du := E.Float64 dp.2
  let fu := Float64.mul (Float64.add (Float64.ofInt u) du.1)
    (Float64.div Float64.one (Float64.ofInt n))
  let dv := E.Float64 du.2
  let fv := Float64.mul (Float64.add (Float64.ofInt v) dv.1)
    (Float64.div Float64.one (Float64.ofInt n))
  let b := E.Bounce hit.Ray r material dp.1 fu fv
  if b.2 then
    (st.1.Add Color.zero, dv.2)
  else
    (st.1.Add (color.MulColor (s.DirectLight E r hit.Ray dv.2).val),
      (s.DirectLight E r hit.Ray dv.2).rnd)

/-- The sum of the contributions of the strata of a grid of size `n` at depth 0, in the
order of the loops, and the generator after them. -/
def Scene.depthZeroLoop (E : Collab F V G M T) (s : Scene F V G M T) (r : Ray V)
    (hit : Hit F V G M) (color : Color F) (material : M) (n : Int) (rnd : G) : Color F × G :=
  (List.range n.toNat).foldl
    (fun st (u : Nat) => (List.range n.toNat).foldl
      (fun st (v : Nat) => s.depthZeroCell E r hit color material n st (u : Int) (v : Int))
      st)
    (Color.zero, rnd)

/-- The inputs of the radiance sign property: no light color has a channel below zero, every
shape the shape index reports has such a color and a tint that is neither below 0 nor above
1 at the hit, and every light `IntersectLights` finds has such a color at the hit. -/
structure Scene.SignInputs (E : Collab F V G M T) (s : Scene F V G M T) : Prop where
  lightColor : ∀ light ∈ s.lights, ∀ p, (light.Color p).All NotNeg
  shapeColor : ∀ r, (s.IntersectShapes E r).2 = true →
    ((s.IntersectShapes E r).1.Shape.Color (s.IntersectShapes E r).1.Ray.Origin).All NotNeg
  tint : ∀ r, (s.IntersectShapes E r).2 = true →
    NotNeg (E.Tint ((s.IntersectShapes E r).1.Shape.Material
        (s.IntersectShapes E r).1.Ray.Origin)) ∧
      Float64.lt Float64.one (E.Tint ((s.IntersectShapes E r).1.Shape.Material
        (s.IntersectShapes E r).1.Ray.Origin)) = false
  lightHit : ∀ r, (s.IntersectLights E r).2 = true →
    ((s.IntersectLights E r).1.Shape.Color (s.IntersectLights E r).1.Ray.Origin).All NotNeg

end Spec

/-! ## Theorems -/

section Theorems

variable {F V G M T α : Type} [Float64 F]

/-- How `sqrtRound` is evaluated: from the exponent `e`, the root `r` rounded down and the
nearest integer `m`. -/
theorem sqrtRound_eq (q : ℚ) (e : Int) (r m : Nat) (he1 : (4 : ℚ) ^ e ≤ q)
    (he2 : q < (4 : ℚ) ^ (e + 1))
    (hr1 : ((r * r : Nat) : ℚ) ≤ q * (4 : ℚ) ^ (52 - e))
    (hr2 : q * (4 : ℚ) ^ (52 - e) < (((r + 1) * (r + 1) : Nat) : ℚ))
    (hm : m = if q * (4 : ℚ) ^ (52 - e) < (r : ℚ) * r + r + 1 / 4 then r
      else if (r : ℚ) * r + r + 1 / 4 < q * (4 : ℚ) ^ (52 - e) then r + 1 else r + r % 2) :
    XFloat.sqrtRound q = (m : ℚ) * (2 : ℚ) ^ (e - 52) := by
  have hq : 0 < q := lt_of_lt_of_le (by positivity) he1
  have hlog : Int.log 4 q = e := by
    have h1 : e ≤ Int.log 4 q :=
      (Int.zpow_le_iff_le_log (by norm_num) hq).mp (by exact_mod_cast he1)
    have h2 : Int.log 4 q < e + 1 :=
      (Int.lt_zpow_iff_log_lt (by norm_num) hq).mp (by exact_mod_cast he2)
    omega
  have hN : 0 ≤ q * (4 : ℚ) ^ (52 - e) := by positivity
  have hsq : Nat.sqrt ⌊q * (4 : ℚ) ^ (52 - e)⌋₊ = r := by
    symm
    rw [Nat.eq_sqrt]
    exact ⟨Nat.le_floor hr1, (Nat.floor_lt hN).mpr hr2⟩
  unfold XFloat.sqrtRound
  simp only [hlog, hsq]
  rw [hm]

/-- What `sqrtRound` returns for `q > 0`: `m * 2^(e-52)` for an exponent `e` with
`4^e <= q < 4^(e+1)`, the root `r` of `q * 4^(52-e)` rounded down, and `m` the nearer of `r`
and `r + 1`. -/
theorem sqrtRound_spec (q : ℚ) (hq : 0 < q) :
    ∃ (e : Int) (r m : Nat), (4 : ℚ) ^ e ≤ q ∧ q < (4 : ℚ) ^ (e + 1) ∧
      ((r * r : Nat) : ℚ) ≤ q * (4 : ℚ) ^ (52 - e) ∧
      q * (4 : ℚ) ^ (52 - e) < (((r + 1) * (r + 1) : Nat) : ℚ) ∧
      (m = if q * (4 : ℚ) ^ (52 - e) < (r : ℚ) * r + r + 1 / 4 then r
        else if (r : ℚ) * r + r + 1 / 4 < q * (4 : ℚ) ^ (52 - e) then r + 1 else r + r % 2) ∧
      XFloat.sqrtRound q = (m : ℚ) * (2 : ℚ) ^ (e - 52) := by
  have he1 : (4 : ℚ) ^ Int.log 4 q ≤ q := by
    have := Int.zpow_log_le_self (b := 4) (by norm_num) hq
    exact_mod_cast this
  have he2 : q < (4 : ℚ) ^ (Int.log 4 q + 1) := by
    have := Int.lt_zpow_succ_log_self (b := 4) (by norm_num) q
    exact_mod_cast this
  have hN : 0 ≤ q * (4 : ℚ) ^ (52 - Int.log 4 q) := by positivity
  have hr := Nat.eq_sqrt.mp (rfl : Nat.sqrt ⌊q * (4 : ℚ) ^ (52 - Int.log 4 q)⌋₊ = _)
  refine ⟨Int.log 4 q, Nat.sqrt ⌊q * (4 : ℚ) ^ (52 - Int.log 4 q)⌋₊, _, he1, he2, ?_, ?_, rfl, ?_⟩
  · exact (Nat.le_floor_iff hN).mp hr.1
  · exact (Nat.floor_lt hN).mp hr.2
  · rfl

/-- The sizes in the result of `sqrtRound`: `2^52 <= r < 2^53` and `r <= m <= r + 1`. -/
theorem sqrtRound_sizes (q : ℚ) (e : Int) (r m : Nat) (he1 : (4 : ℚ) ^ e ≤ q)
    (he2 : q < (4 : ℚ) ^ (e + 1))
    (hr1 : ((r * r : Nat) : ℚ) ≤ q * (4 : ℚ) ^ (52 - e))
    (hr2 : q * (4 : ℚ) ^ (52 - e) < (((r + 1) * (r + 1) : Nat) : ℚ))
    (hm : m = if q * (4 : ℚ) ^ (52 - e) < (r : ℚ) * r + r + 1 / 4 then r
      else if (r : ℚ) * r + r + 1 / 4 < q * (4 : ℚ) ^ (52 - e) then r + 1 else r + r % 2) :
    2 ^ 52 ≤ r ∧ r < 2 ^ 53 ∧ r ≤ m ∧ m ≤ r + 1 := by
  have hpos : (0 : ℚ) < (4 : ℚ) ^ (52 - e) := by positivity
  have hlo : (4 : ℚ) ^ (52 : Int) ≤ q * (4 : ℚ) ^ (52 - e) := by
    have h : (4 : ℚ) ^ e * (4 : ℚ) ^ (52 - e) = (4 : ℚ) ^ (52 : Int) := by
      rw [← zpow_add₀ (by norm_num : (4 : ℚ) ≠ 0)]
      congr 1
      omega
    rw [← h]
    exact mul_le_mul_of_nonneg_right he1 (le_of_lt hpos)
  have hhi : q * (4 : ℚ) ^ (52 - e) < (4 : ℚ) ^ (53 : Int) := by
    have h : (4 : ℚ) ^ (e + 1) * (4 : ℚ) ^ (52 - e) = (4 : ℚ) ^ (53 : Int) := by
      rw [← zpow_add₀ (by norm_num : (4 : ℚ) ≠ 0)]
      congr 1
      omega
    rw [← h]
    exact mul_lt_mul_of_pos_right he2 hpos
  have h1 : ((2 ^ 52 * 2 ^ 52 : Nat) : ℚ) < (((r + 1) * (r + 1) : Nat) : ℚ) := by
    refine lt_of_le_of_lt ?_ (lt_of_le_of_lt hlo hr2)
    norm_num
  have h2 : ((r * r : Nat) : ℚ) < ((2 ^ 53 * 2 ^ 53 : Nat) : ℚ) := by
    refine lt_of_le_of_lt hr1 (lt_of_lt_of_le hhi ?_)
    norm_num
  have h3 : 2 ^ 52 * 2 ^ 52 < (r + 1) * (r + 1) := by exact_mod_cast h1
  have h4 : r * r < 2 ^ 53 * 2 ^ 53 := by exact_mod_cast h2
  have h5 : 2 ^ 52 < r + 1 := Nat.mul_self_lt_mul_self_iff.mp h3
  have h6 : r < 2 ^ 53 := Nat.mul_self_lt_mul_self_iff.mp h4
  have h7 : r % 2 ≤ 1 := by omega
  refine ⟨by omega, h6, ?_, ?_⟩
  · rw [hm]
    split_ifs <;> omega
  · rw [hm]
    split_ifs <;> omega

/-- The correctly rounded root never decreases when its argument grows. -/
theorem sqrtRound_mono (q1 q2 : ℚ) (h1 : 0 < q1) (h12 : q1 ≤ q2) :
    XFloat.sqrtRound q1 ≤ XFloat.sqrtRound q2 := by
  obtain ⟨e1, r1, m1, a1, b1, c1, d1, hm1, hs1⟩ := sqrtRound_spec q1 h1
  obtain ⟨e2, r2, m2, a2, b2, c2, d2, hm2, hs2⟩ := sqrtRound_spec q2 (lt_of_lt_of_le h1 h12)
  obtain ⟨z1, z2, z3, z4⟩ := sqrtRound_sizes q1 e1 r1 m1 a1 b1 c1 d1 hm1
  obtain ⟨y1, y2, y3, y4⟩ := sqrtRound_sizes q2 e2 r2 m2 a2 b2 c2 d2 hm2
  rw [hs1, hs2]
  have he : e1 < e2 + 1 :=
    (zpow_lt_zpow_iff_right₀ (by norm_num : (1 : ℚ) < 4)).mp
      (lt_of_le_of_lt a1 (lt_of_le_of_lt h12 b2))
  by_cases hlt : e1 < e2
  · have hp1 : (0 : ℚ) < (2 : ℚ) ^ (e1 - 52) := by positivity
    have hp2 : (0 : ℚ) < (2 : ℚ) ^ (e2 - 52) := by positivity
    have s1 : (m1 : ℚ) * (2 : ℚ) ^ (e1 - 52) ≤ (2 : ℚ) ^ (e1 + 1) := by
      have h : (2 : ℚ) ^ (53 : Int) * (2 : ℚ) ^ (e1 - 52) = (2 : ℚ) ^ (e1 + 1) := by
        rw [← zpow_add₀ (by norm_num : (2 : ℚ) ≠ 0)]
        congr 1
        omega
      rw [← h]
      refine mul_le_mul_of_nonneg_right ?_ (le_of_lt hp1)
      norm_num
      omega
    have s2 : (2 : ℚ) ^ e2 ≤ (m2 : ℚ) * (2 : ℚ) ^ (e2 - 52) := by
      have h : (2 : ℚ) ^ (52 : Int) * (2 : ℚ) ^ (e2 - 52) = (2 : ℚ) ^ e2 := by
        rw [← zpow_add₀ (by norm_num : (2 : ℚ) ≠ 0)]
        congr 1
        omega
      rw [← h]
      refine mul_le_mul_of_nonneg_right ?_ (le_of_lt hp2)
      norm_num
      omega
    have s3 : (2 : ℚ) ^ (e1 + 1) ≤ (2 : ℚ) ^ e2 :=
      zpow_le_zpow_right₀ (by norm_num) (by omega)
    exact le_trans s1 (le_trans s3 s2)
  · have hee : e1 = e2 := by omega
    subst hee
    have hp : (0 : ℚ) < (4 : ℚ) ^ (52 - e1) := by positivity
    have hN : q1 * (4 : ℚ) ^ (52 - e1) ≤ q2 * (4 : ℚ) ^ (52 - e1) :=
      mul_le_mul_of_nonneg_right h12 (le_of_lt hp)
    have hr : r1 < r2 + 1 := by
      have h : ((r1 * r1 : Nat) : ℚ) < (((r2 + 1) * (r2 + 1) : Nat) : ℚ) :=
        lt_of_le_of_lt c1 (lt_of_le_of_lt hN d2)
      have h2 : r1 * r1 < (r2 + 1) * (r2 + 1) := by exact_mod_cast h
      exact Nat.mul_self_lt_mul_self_iff.mp h2
    have hm : m1 ≤ m2 := by
      by_cases hrr : r1 < r2
      · omega
      · have hre : r1 = r2 := by omega
        subst hre
        rw [hm1, hm2]
        split_ifs <;> first | omega | linarith
    have hmq : (m1 : ℚ) ≤ (m2 : ℚ) := by exact_mod_cast hm
    exact mul_le_mul_of_nonneg_right hmq (by positivity)

/-- `int(a)` of a rational that is not negative and within the range of `int` is its
integer part. -/
theorem toInt_fin (q : ℚ) (z : Int) (h1 : (z : ℚ) ≤ q) (h2 : q < (z : ℚ) + 1) (h0 : 0 ≤ z)
    (h3 : z < 2 ^ 63) : XFloat.toInt (XFloat.fin q) = z := by
  have hq : 0 ≤ q := le_trans (by exact_mod_cast h0) h1
  have hnum : 0 ≤ q.num := Rat.num_nonneg.mpr hq
  have hfl : ⌊q⌋ = z := Int.floor_eq_iff.mpr ⟨h1, h2⟩
  have htd : Int.tdiv q.num q.den = z := by
    rw [Int.tdiv_eq_ediv hnum (Int.natCast_nonneg _), ← Rat.floor_def, hfl]
  unfold XFloat.toInt
  simp only [htd]
  rw [if_pos ⟨by omega, h3⟩]

/-- The grid size is the expression of line 110. -/
theorem gridSize_eq (F : Type) [Float64 F] (samples : Int) :
    gridSize F samples = Float64.toInt (Float64.sqrt (Float64.ofInt samples : F)) :=
  rfl

/-- The grid size in the concrete interpretation, for `samples >= 1`. -/
theorem gridSize_XFloat (a : Int) (ha : 1 ≤ a) :
    gridSize XFloat a = XFloat.toInt (XFloat.fin (XFloat.sqrtRound (a : ℚ))) := by
  have h : (0 : ℚ) < (a : ℚ) := by exact_mod_cast (by omega : 0 < a)
  simp [gridSize, Float64.toInt, Float64.sqrt, Float64.ofInt, XFloat.sqrt,
    not_lt.mpr (le_of_lt h), ne_of_gt h]

/-- The correctly rounded root of the square of an integer `k` with `1 <= k < 2^53` is `k`. -/
theorem sqrtRound_square (k : Int) (hk1 : 1 ≤ k) (hk2 : k < 2 ^ 53) :
    XFloat.sqrtRound ((k * k : Int) : ℚ) = (k : ℚ) := by
  have hkq1 : (1 : ℚ) ≤ (k : ℚ) := by exact_mod_cast hk1
  have hkq2 : (k : ℚ) < 2 ^ 53 := by exact_mod_cast hk2
  have hq : (0 : ℚ) < ((k * k : Int) : ℚ) := by
    push_cast
    nlinarith
  obtain ⟨e, r, m, a1, b1, c1, d1, hm, hs⟩ := sqrtRound_spec _ hq
  have he0 : (0 : Int) < e + 1 := by
    apply (zpow_lt_zpow_iff_right₀ (by norm_num : (1 : ℚ) < 4)).mp
    refine lt_of_le_of_lt ?_ b1
    push_cast
    rw [zpow_zero]
    nlinarith
  have he52 : e < 53 := by
    apply (zpow_lt_zpow_iff_right₀ (by norm_num : (1 : ℚ) < 4)).mp
    refine lt_of_le_of_lt a1 ?_
    push_cast
    have : (4 : ℚ) ^ (53 : Int) = 2 ^ 53 * 2 ^ 53 := by norm_num
    rw [this]
    nlinarith
  obtain ⟨p, hp⟩ : ∃ p : Nat, 52 - e = (p : Int) := ⟨(52 - e).toNat, by omega⟩
  obtain ⟨j, hj⟩ : ∃ j : Nat, k = (j : Int) := ⟨k.toNat, by omega⟩
  have h4 : (4 : ℚ) ^ (52 - e) = (((2 ^ p * 2 ^ p : Nat)) : ℚ) := by
    rw [hp, zpow_natCast]
    push_cast
    rw [← mul_pow]
    norm_num
  have hN : ((k * k : Int) : ℚ) * (4 : ℚ) ^ (52 - e) =
      (((j * 2 ^ p) * (j * 2 ^ p) : Nat) : ℚ) := by
    rw [h4, hj]
    push_cast
    ring
  rw [hN] at c1 d1 hm
  have c2 : r * r ≤ (j * 2 ^ p) * (j * 2 ^ p) := by exact_mod_cast c1
  have d2 : (j * 2 ^ p) * (j * 2 ^ p) < (r + 1) * (r + 1) := by exact_mod_cast d1
  have hr1 : r ≤ j * 2 ^ p := Nat.mul_self_le_mul_self_iff.mp c2
  have hr2 : j * 2 ^ p < r + 1 := Nat.mul_self_lt_mul_self_iff.mp d2
  have hr : r = j * 2 ^ p := by omega
  have hmr : m = r := by
    rw [hm, if_pos]
    rw [← hr]
    push_cast
    have : (0 : ℚ) ≤ (r : ℚ) := Nat.cast_nonneg r
    linarith
  rw [hs, hmr, hr, hj]
  have he : e - 52 = -(p : Int) := by omega
  rw [he, zpow_neg, zpow_natCast]
  push_cast
  field_simp

/-- The concrete interpretation satisfies the laws of the grid size. -/
theorem XFloat_sqrtLaws : SqrtLaws XFloat := by
  have htop : XFloat.sqrtRound (((2 ^ 63 - 1 : Int)) : ℚ) = 6369051672525773 / 2097152 := by
    rw [sqrtRound_eq _ 31 6369051672525772 6369051672525773 (by norm_num) (by norm_num)
      (by norm_num) (by norm_num) (by norm_num)]
    norm_num
  have hone : XFloat.sqrtRound ((1 : Int) : ℚ) = 1 := by
    have := sqrtRound_square 1 (le_refl 1) (by norm_num)
    simpa using this
  have hfloor : ∀ a : Int, 1 ≤ a → a < 2 ^ 63 →
      gridSize XFloat a = ⌊XFloat.sqrtRound (a : ℚ)⌋ ∧ 1 ≤ XFloat.sqrtRound (a : ℚ) ∧
        XFloat.sqrtRound (a : ℚ) ≤ 6369051672525773 / 2097152 := by
    intro a h1 h2
    have ha : (0 : ℚ) < (a : ℚ) := by exact_mod_cast (by omega : 0 < a)
    have hlo : 1 ≤ XFloat.sqrtRound (a : ℚ) := by
      rw [← hone]
      exact sqrtRound_mono _ _ (by norm_num) (by exact_mod_cast h1)
    have hhi : XFloat.sqrtRound (a : ℚ) ≤ 6369051672525773 / 2097152 := by
      rw [← htop]
      exact sqrtRound_mono _ _ ha (by exact_mod_cast (by omega : a ≤ 2 ^ 63 - 1))
    refine ⟨?_, hlo, hhi⟩
    rw [gridSize_XFloat a h1]
    apply toInt_fin _ _ (Int.floor_le _) (Int.lt_floor_add_one _)
    · exact Int.floor_nonneg.mpr (by linarith)
    · apply Int.floor_lt.mpr
      refine lt_of_le_of_lt hhi ?_
      norm_num
  refine ⟨?_, ?_, ?_⟩
  · intro a b h1 h2 h3
    have ha : (0 : ℚ) < (a : ℚ) := by exact_mod_cast (by omega : 0 < a)
    rw [(hfloor a h1 (by omega)).1, (hfloor b (by omega) h3).1]
    exact Int.floor_mono (sqrtRound_mono _ _ ha (by exact_mod_cast h2))
  · intro k h0 hk
    by_cases hk0 : k = 0
    · subst hk0
      decide
    · have hk1 : 1 ≤ k := by omega
      have hk2 : k < 2 ^ 53 := by nlinarith
      have hkk : 1 ≤ k * k := by nlinarith
      rw [gridSize_XFloat _ hkk, sqrtRound_square k hk1 hk2]
      exact toInt_fin _ _ (le_refl _) (by linarith) h0 (by omega)
  · rw [(hfloor _ (by norm_num) (by norm_num)).1, htop]
    rw [Int.floor_eq_iff]
    constructor <;> norm_num

/-- The concrete interpretation satisfies the laws of the jitter. -/
theorem XFloat_jitterLaws : JitterLaws XFloat where
  add_zero := by
    intro u
    simp [Float64.add, Float64.ofInt, Float64.zero, XFloat.add]
  add_mono := by
    intro a x y h
    cases a <;> cases x <;> cases y <;>
      simp_all [Float64.lt, Float64.add, XFloat.lt, XFloat.add]
  mul_mono := by
    intro c x y hc h
    cases c <;> cases x <;> cases y <;>
      simp_all [Float64.lt, Float64.mul, Float64.zero, XFloat.lt, XFloat.mul, XFloat.inf]
    · exact mul_le_mul_of_nonneg_right h hc
    all_goals (split_ifs <;> try rfl)
    all_goals first
      | linarith
      | (rcases lt_or_eq_of_le hc with h1 | h1
         · exact absurd h1 (by assumption)
         · exact absurd h1.symm (by assumption))
  lt_asymm := by
    intro a b h
    cases a <;> cases b <;> simp_all [Float64.lt, XFloat.lt]
    exact le_of_lt h
  inv_notneg := by
    intro k hk
    have h : (0 : ℚ) < (k : ℚ) := by exact_mod_cast (by omega : 0 < k)
    simp [Float64.lt, Float64.div, Float64.one, Float64.ofInt, Float64.zero, XFloat.lt,
      XFloat.div, ne_of_gt h, le_of_lt h]
    omega

/-- The concrete interpretation satisfies the laws of the sign. -/
theorem XFloat_signLaws : SignLaws XFloat where
  zero := by
    simp [NotNeg, Float64.lt, Float64.zero, XFloat.lt]
  add := by
    intro a b ha hb
    cases a <;> cases b <;>
      simp_all [NotNeg, Float64.lt, Float64.add, Float64.zero, XFloat.lt, XFloat.add]
    exact add_nonneg ha hb
  mul := by
    intro a b ha hb
    cases a <;> cases b <;>
      simp_all [NotNeg, Float64.lt, Float64.mul, Float64.zero, XFloat.lt, XFloat.mul,
        XFloat.inf]
    · exact mul_nonneg ha hb
    all_goals (split_ifs <;> try rfl)
    · rcases lt_or_eq_of_le ha with h1 | h1
      · exact absurd h1 (by assumption)
      · exact absurd h1.symm (by assumption)
    · rcases lt_or_eq_of_le hb with h1 | h1
      · exact absurd h1 (by assumption)
      · exact absurd h1.symm (by assumption)
  div := by
    intro a k hk ha
    have h : (0 : ℚ) ≤ (k : ℚ) := by exact_mod_cast hk
    cases a <;>
      simp_all [NotNeg, Float64.lt, Float64.div, Float64.ofInt, Float64.zero, XFloat.lt,
        XFloat.div, XFloat.inf]
    split_ifs <;> try rfl
    · rcases lt_or_eq_of_le ha with h1 | h1
      · exact absurd h1 (by assumption)
      · exact absurd h1.symm (by assumption)
    · simp only [decide_eq_false_iff_not, not_lt]
      exact div_nonneg ha (by exact_mod_cast hk)
  one_sub := by
    intro t ht
    cases t <;>
      simp_all [NotNeg, Float64.lt, Float64.sub, Float64.one, Float64.zero, XFloat.lt,
        XFloat.add, XFloat.neg]
  max_zero := by
    intro x
    cases x <;> simp [NotNeg, Float64.lt, Float64.max, Float64.zero, XFloat.lt, XFloat.max]
    split_ifs with h
    · exact le_of_lt h
    · exact le_refl 0

/-- The concrete interpretation satisfies the laws of the combine step at a zero, for the
rationals as the finite numbers. -/
theorem XFloat_zeroLaws : ZeroLaws (fun x : XFloat => ∃ q : ℚ, x = XFloat.fin q) where
  mul_zero := by
    rintro x ⟨q, rfl⟩
    simp [Float64.mul, Float64.zero, XFloat.mul]
  zero_mul := by
    rintro x ⟨q, rfl⟩
    simp [Float64.mul, Float64.zero, XFloat.mul]
  one_sub_fin := by
    rintro t ⟨q, rfl⟩
    exact ⟨1 + -q, rfl⟩
  one_sub_zero := by
    simp [Float64.sub, Float64.one, Float64.zero, XFloat.add, XFloat.neg]
  mul_one := by
    intro x
    cases x <;> simp [Float64.mul, Float64.one, XFloat.mul, XFloat.inf]
  zero_add := by
    intro x
    cases x <;> simp [Float64.add, Float64.zero, XFloat.add]
  add_zero := by
    intro x
    cases x <;> simp [Float64.add, Float64.zero, XFloat.add]
  zero_lt_zero := by
    simp [Float64.lt, Float64.zero, XFloat.lt]

/-- At `samples = 4503599761588224 = 67108865 * 67108865 - 1` the root rounds up to the
float64 67108865, and so does the grid size. -/
theorem gridSize_rounds_up : gridSize XFloat 4503599761588224 = 67108865 := by
  rw [gridSize_XFloat _ (by norm_num)]
  have h : XFloat.sqrtRound ((4503599761588224 : Int) : ℚ) = 67108865 := by
    rw [sqrtRound_eq _ 26 4503599694479359 4503599694479360 (by norm_num) (by norm_num)
      (by norm_num) (by norm_num) (by norm_num)]
    norm_num
  rw [h]
  exact toInt_fin _ _ (by norm_num) (by norm_num) (by norm_num) (by norm_num)

/-- With the laws of the grid size, `1 <= n <= 3037000499` for every `samples >= 1`. -/
theorem gridSize_bounds (hlaws : SqrtLaws F) (samples : Int) (hs : 1 ≤ samples)
    (hmax : samples < 2 ^ 63) :
    1 ≤ gridSize F samples ∧ gridSize F samples ≤ 3037000499 := by
  have h1 := hlaws.mono 1 samples (le_refl 1) hs hmax
  have h2 := hlaws.square 1 (by norm_num) (by norm_num)
  have h3 := hlaws.mono samples (2 ^ 63 - 1) hs (by omega) (by norm_num)
  rw [hlaws.top] at h3
  rw [one_mul] at h2
  rw [h2] at h1
  exact ⟨h1, h3⟩

/-- How `round64` is evaluated on a positive rational of the normal range: from the exponent
`e`, the magnitude `r` in units of the spacing, rounded down, and the nearest integer `m`. -/
theorem round64_eq (q : ℚ) (e : Int) (r m : Nat) (he1 : (2 : ℚ) ^ e ≤ q)
    (he2 : q < (2 : ℚ) ^ (e + 1)) (he : -1022 ≤ e)
    (hr1 : (r : ℚ) ≤ q * (2 : ℚ) ^ (52 - e)) (hr2 : q * (2 : ℚ) ^ (52 - e) < (r : ℚ) + 1)
    (hm : m = if q * (2 : ℚ) ^ (52 - e) - r < 1 / 2 then r
      else if 1 / 2 < q * (2 : ℚ) ^ (52 - e) - r then r + 1 else r + r % 2)
    (hv : (m : ℚ) * (2 : ℚ) ^ (e - 52) < (2 : ℚ) ^ (1024 : Nat)) :
    XFloat.round64 q = XFloat.fin ((m : ℚ) * (2 : ℚ) ^ (e - 52)) := by
  have hq : 0 < q := lt_of_lt_of_le (zpow_pos (by norm_num) e) he1
  have hlog : Int.log 2 q = e := by
    have h1 : e ≤ Int.log 2 q :=
      (Int.zpow_le_iff_le_log (by norm_num) hq).mp (by exact_mod_cast he1)
    have h2 : Int.log 2 q < e + 1 :=
      (Int.lt_zpow_iff_log_lt (by norm_num) hq).mp (by exact_mod_cast he2)
    omega
  have hN : 0 ≤ q * (2 : ℚ) ^ (52 - e) := le_trans (Nat.cast_nonneg r) hr1
  have hfloor : ⌊q * (2 : ℚ) ^ (52 - e)⌋₊ = r := (Nat.floor_eq_iff hN).mpr ⟨hr1, hr2⟩
  unfold XFloat.round64
  rw [if_neg (ne_of_gt hq)]
  simp only [abs_of_pos hq, hlog, max_eq_left he, hfloor]
  rw [← hm, if_neg (not_le.mpr hv), if_pos hq]

/-- In float64 with rounding, `1 / 3` is the float64 just below the third, and the jitter of
line 114 for the stratum 1 of a grid of size 3 with the draw 0 is that number. -/
theorem jitter_below_third :
    Float64.mul (Float64.add (Float64.ofInt 1) (⟨XFloat.fin 0⟩ : RFloat))
        (Float64.div Float64.one (Float64.ofInt 3)) =
      ⟨XFloat.fin (6004799503160661 / 18014398509481984)⟩ := by
  have h1 : XFloat.round64 1 = XFloat.fin 1 := by
    rw [round64_eq 1 0 4503599627370496 4503599627370496 (by norm_num) (by norm_num)
      (by norm_num) (by norm_num) (by norm_num) (by norm_num) (by norm_num)]
    norm_num
  have h3 : XFloat.round64 3 = XFloat.fin 3 := by
    rw [round64_eq 3 1 6755399441055744 6755399441055744 (by norm_num) (by norm_num)
      (by norm_num) (by norm_num) (by norm_num) (by norm_num) (by norm_num)]
    norm_num
  have hinv : XFloat.round64 (1 / 3) =
      XFloat.fin (6004799503160661 / 18014398509481984) := by
    rw [round64_eq (1 / 3) (-2) 6004799503160661 6004799503160661 (by norm_num)
      (by norm_num) (by norm_num) (by norm_num) (by norm_num) (by norm_num) (by norm_num)]
    norm_num
  have hfix : XFloat.round64 (6004799503160661 / 18014398509481984) =
      XFloat.fin (6004799503160661 / 18014398509481984) := by
    rw [round64_eq (6004799503160661 / 18014398509481984) (-2) 6004799503160661
      6004799503160661 (by norm_num) (by norm_num) (by norm_num) (by norm_num) (by norm_num)
      (by norm_num) (by norm_num)]
    norm_num
  rw [one_div] at hinv
  simp [Float64.mul, Float64.add, Float64.div, Float64.one, Float64.ofInt, XFloat.add,
    XFloat.mul, XFloat.div, XFloat.round, h1, h3, hinv, hfix]

/-- In float64 with rounding, the jitter of line 114 for the stratum 2 of a grid of size 3
with the draw `1 - 2^-53`, the largest float64 below 1, is 1: the sum `2 + draw` rounds to 3
and `3 * (1 / 3)` rounds to 1. -/
theorem jitter_reaches_one :
    Float64.mul
        (Float64.add (Float64.ofInt 2)
          (⟨XFloat.fin (9007199254740991 / 9007199254740992)⟩ : RFloat))
        (Float64.div Float64.one (Float64.ofInt 3)) =
      ⟨XFloat.fin 1⟩ := by
  have h2 : XFloat.round64 2 = XFloat.fin 2 := by
    rw [round64_eq 2 1 4503599627370496 4503599627370496 (by norm_num) (by norm_num)
      (by norm_num) (by norm_num) (by norm_num) (by norm_num) (by norm_num)]
    norm_num
  have h3 : XFloat.round64 3 = XFloat.fin 3 := by
    rw [round64_eq 3 1 6755399441055744 6755399441055744 (by norm_num) (by norm_num)
      (by norm_num) (by norm_num) (by norm_num) (by norm_num) (by norm_num)]
    norm_num
  have hinv : XFloat.round64 (1 / 3) =
      XFloat.fin (6004799503160661 / 18014398509481984) := by
    rw [round64_eq (1 / 3) (-2) 6004799503160661 6004799503160661 (by norm_num)
      (by norm_num) (by norm_num) (by norm_num) (by norm_num) (by norm_num) (by norm_num)]
    norm_num
  have hsum : XFloat.round64 (2 + 9007199254740991 / 9007199254740992) = XFloat.fin 3 := by
    rw [round64_eq _ 1 6755399441055743 6755399441055744 (by norm_num) (by norm_num)
      (by norm_num) (by norm_num) (by norm_num) (by norm_num) (by norm_num)]
    norm_num
  have hprod : XFloat.round64 (3 * (6004799503160661 / 18014398509481984)) =
      XFloat.fin 1 := by
    rw [round64_eq _ (-1) 9007199254740991 9007199254740992 (by norm_num) (by norm_num)
      (by norm_num) (by norm_num) (by norm_num) (by norm_num) (by norm_num)]
    norm_num
  have e1 : (Float64.ofInt 2 : RFloat) = ⟨XFloat.fin 2⟩ := by
    simp [Float64.ofInt, h2]
  have e2 : (Float64.ofInt 3 : RFloat) = ⟨XFloat.fin 3⟩ := by
    simp [Float64.ofInt, h3]
  have e3 : Float64.add (⟨XFloat.fin 2⟩ : RFloat)
      ⟨XFloat.fin (9007199254740991 / 9007199254740992)⟩ = ⟨XFloat.fin 3⟩ := by
    simp only [Float64.add, XFloat.add, XFloat.round, hsum]
  have e4 : Float64.div (Float64.one : RFloat) ⟨XFloat.fin 3⟩ =
      ⟨XFloat.fin (6004799503160661 / 18014398509481984)⟩ := by
    have h30 : (3 : ℚ) ≠ 0 := by norm_num
    simp only [Float64.div, Float64.one, XFloat.div, XFloat.round, if_neg h30, hinv]
  have e5 : Float64.mul (⟨XFloat.fin 3⟩ : RFloat)
      ⟨XFloat.fin (6004799503160661 / 18014398509481984)⟩ = ⟨XFloat.fin 1⟩ := by
    simp only [Float64.mul, XFloat.mul, XFloat.round, hprod]
  rw [e1, e2, e3, e4, e5]

/-- In float64 with rounding the grid size at `samples = 9` is 3. -/
theorem gridSize_RFloat_nine : gridSize RFloat 9 = 3 := by
  have h9 : XFloat.round64 9 = XFloat.fin 9 := by
    rw [round64_eq 9 3 5066549580791808 5066549580791808 (by norm_num) (by norm_num)
      (by norm_num) (by norm_num) (by norm_num) (by norm_num) (by norm_num)]
    norm_num
  have hs : XFloat.sqrtRound 9 = 3 := by
    have h := sqrtRound_square 3 (by norm_num) (by norm_num)
    norm_num at h
    exact h
  have ht : XFloat.toInt (XFloat.fin 3) = 3 :=
    toInt_fin 3 3 (by norm_num) (by norm_num) (by norm_num) (by norm_num)
  rw [gridSize_eq]
  norm_num [Float64.toInt, Float64.sqrt, Float64.ofInt, XFloat.sqrt, h9, hs, ht]

omit [Float64 F] in
/-- A list related to `l` element by element through a function is the image of `l`. -/
theorem forall₂_eq_map {β : Type} (f : α → β) (l : List α) (m : List β)
    (h : List.Forall₂ (fun a b => b = f a) l m) : m = l.map f := by
  induction h with
  | nil => rfl
  | cons hab _ ih => rw [hab, ih, List.map_cons]

/-- C1. With `depth < 0`, `RecursiveSample` and `Sample` return the zero color whatever the
scene, the ray, the flag and the sample count; the generator is returned as it was given
and no call is made: no tree is queried and no number drawn. -/
theorem negative_depth_returns_zero (E : Collab F V G M T) (s : Scene F V G M T) (r : Ray V)
    (reflected : Bool) (samples depth : Int) (rnd : G) (hd : depth < 0) :
    s.RecursiveSample E r reflected depth rnd = ⟨Color.zero, rnd, []⟩ ∧
      s.Sample E r samples depth rnd = ⟨Color.zero, rnd, []⟩ := by
  constructor
  · rw [Scene.RecursiveSample, dif_pos hd]
  · rw [Scene.Sample, if_pos hd]

/-- Witness of C1: depth -1 on the mirror scene, from the generator state 7. -/
theorem negative_depth_returns_zero_witness :
    ((-1 : Int) < 0) ∧
      (Line.mirrorScene.RecursiveSample Line.world ⟨0, 1⟩ true (-1) 7 = ⟨Color.zero, 7, []⟩ ∧
        Line.mirrorScene.Sample Line.world ⟨0, 1⟩ 4 (-1) 7 = ⟨Color.zero, 7, []⟩) :=
  ⟨by decide,
    negative_depth_returns_zero Line.world Line.mirrorScene ⟨0, 1⟩ true 4 (-1) 7 (by decide)⟩

/-- C3, as stated, fails: in `tieScene` the light index has a hit along the ray from 0 and
the shape index has no hit strictly nearer (its hit is at the same distance 3), yet
`IntersectLights` reports `found = false`. -/
theorem IntersectLights_tie_not_found :
    (Line.world.Intersect Line.tieScene.lightTree ⟨0, 1⟩).2 = true ∧
      ¬ ((Line.world.Intersect Line.tieScene.shapeTree ⟨0, 1⟩).2 = true ∧
        Float64.lt (Line.world.Intersect Line.tieScene.shapeTree ⟨0, 1⟩).1.T
          (Line.world.Intersect Line.tieScene.lightTree ⟨0, 1⟩).1.T = true) ∧
      (Line.tieScene.IntersectLights Line.world ⟨0, 1⟩).2 = false := by
  refine ⟨by decide, ?_, by decide⟩
  decide

/-- C3, amended. `IntersectLights(r)` returns the hit of the light index, and reports
`found = true` exactly when the light index has a hit and either the shape index has no hit
or the distance of the light hit is strictly less than the distance of the shape hit. -/
theorem IntersectLights_found_iff (E : Collab F V G M T) (s : Scene F V G M T) (r : Ray V) :
    (s.IntersectLights E r).1 = (E.Intersect s.lightTree r).1 ∧
      ((s.IntersectLights E r).2 = true ↔
        (E.Intersect s.lightTree r).2 = true ∧
          ((E.Intersect s.shapeTree r).2 = false ∨
            Float64.lt (E.Intersect s.lightTree r).1.T (E.Intersect s.shapeTree r).1.T = true)) := by
  unfold Scene.IntersectLights
  cases h1 : (E.Intersect s.lightTree r).2 <;> cases h2 : (E.Intersect s.shapeTree r).2 <;>
    simp [h1, h2]

/-- C4. `Shadow(r, max)` is true exactly when the distance returned by the shadow query of
the shape index is strictly less than `max`; so when that distance is a value that is less
than no number (as the infinite distance of a query without hit) `Shadow(r, max)` is
false for every `max`. -/
theorem Shadow_iff_distance_lt (E : Collab F V G M T) (s : Scene F V G M T) (r : Ray V)
    (max : F) :
    (s.Shadow E r max = true ↔ Float64.lt (E.Shadow s.shapeTree r) max = true) ∧
      (∀ inf : F, (∀ m : F, Float64.lt inf m = false) → E.Shadow s.shapeTree r = inf →
        s.Shadow E r max = false) := by
  refine ⟨Iff.rfl, ?_⟩
  intro inf hinf ht
  unfold Scene.Shadow
  rw [ht]
  exact hinf max

/-- Witness of C4: the empty compiled scene reports the infinite distance, which is less
than no number, and no bound 10 is in shadow. -/
theorem Shadow_iff_distance_lt_witness :
    (∀ m : XFloat, Float64.lt XFloat.pinf m = false) ∧
      Line.world.Shadow Line.emptyScene.shapeTree ⟨0, 1⟩ = XFloat.pinf ∧
      Line.emptyScene.Shadow Line.world ⟨0, 1⟩ (XFloat.fin 10) = false :=
  have h : ∀ m : XFloat, Float64.lt XFloat.pinf m = false := fun m => by cases m <;> rfl
  ⟨h, rfl,
    (Shadow_iff_distance_lt Line.world Line.emptyScene ⟨0, 1⟩ (XFloat.fin 10)).2
      XFloat.pinf h rfl⟩

/-- C10. When the shape index reports no hit for the ray, `Sample` returns the zero color,
hands the generator back as it was and draws no number; and `RecursiveSample` with
`depth >= 0` does the same when the light shortcut does not fire and the shape index
reports no hit.  The only calls made are the intersection queries. -/
theorem no_hit_returns_zero (E : Collab F V G M T) (s : Scene F V G M T) (r : Ray V)
    (reflected : Bool) (samples depth : Int) (rnd : G)
    (hmiss : (s.IntersectShapes E r).2 = false) :
    s.Sample E r samples depth rnd =
        ⟨Color.zero, rnd, if depth < 0 then [] else [Event.intersectShapes 102]⟩ ∧
      (0 ≤ depth → (reflected && (s.IntersectLights E r).2) = false →
        s.RecursiveSample E r reflected depth rnd =
          ⟨Color.zero, rnd,
            (if reflected then [Event.intersectLights 69] else []) ++
              [Event.intersectShapes 74]⟩) := by
  constructor
  · unfold Scene.Sample
    by_cases hd : depth < 0
    · simp [hd]
    · simp [hd, hmiss]
  · intro hd hshort
    rw [Scene.RecursiveSample, dif_neg (not_lt.mpr hd)]
    simp [hshort, hmiss]

/-- Witness of C10: the scene without shapes, depth 2, from the generator state 7. -/
theorem no_hit_returns_zero_witness :
    (Line.emptyScene.IntersectShapes Line.world ⟨0, 1⟩).2 = false ∧
      Line.emptyScene.Sample Line.world ⟨0, 1⟩ 9 2 7 =
        ⟨Color.zero, 7, [Event.intersectShapes 102]⟩ ∧
      Line.emptyScene.RecursiveSample Line.world ⟨0, 1⟩ true 2 7 =
        ⟨Color.zero, 7, [Event.intersectLights 69, Event.intersectShapes 74]⟩ :=
  have h := no_hit_returns_zero Line.world Line.emptyScene ⟨0, 1⟩ true 9 2 7 rfl
  ⟨rfl, h.1, h.2 (by decide) (by decide)⟩

/-- The loop of `DirectLight`, started from any state: the colors of the lights that are not
occluded are added to `color` in order, and the generator goes through every light. -/
theorem DirectLight_loop (E : Collab F V G M T) (s : Scene F V G M T) (n : Ray V)
    (lights : List (Shape F V G M)) (st : Out F G (Color F)) :
    (lights.foldl (s.DirectLightStep E n) st).val =
        ((sampledLights lights st.rnd).filterMap (s.lightTerm E n)).foldl Color.Add st.val ∧
      (lights.foldl (s.DirectLightStep E n) st).rnd = afterLights lights st.rnd := by
  induction lights generalizing st with
  | nil => exact ⟨rfl, rfl⟩
  | cons light rest ih =>
    rw [List.foldl_cons]
    have h := ih (s.DirectLightStep E n st light)
    have hr : (s.DirectLightStep E n st light).rnd = (light.RandomPoint st.rnd).2 := by
      unfold Scene.DirectLightStep
      by_cases hsh : s.Shadow E ⟨n.Origin, E.Normalize (E.Sub (light.RandomPoint st.rnd).1
        n.Origin)⟩ (E.Length (E.Sub (light.RandomPoint st.rnd).1 n.Origin)) = true
      · simp [hsh]
      · simp [hsh]
    rw [hr] at h
    have hs : sampledLights (light :: rest) st.rnd =
        (light, (light.RandomPoint st.rnd).1) ::
          sampledLights rest (light.RandomPoint st.rnd).2 := rfl
    refine ⟨?_, ?_⟩
    · rw [h.1, hs, List.filterMap_cons]
      by_cases hsh : s.Shadow E ⟨n.Origin, E.Normalize (E.Sub (light.RandomPoint st.rnd).1
        n.Origin)⟩ (E.Length (E.Sub (light.RandomPoint st.rnd).1 n.Origin)) = true
      · have ht : s.lightTerm E n (light, (light.RandomPoint st.rnd).1) = none := by
          simp [Scene.lightTerm, hsh]
        have hv : (s.DirectLightStep E n st light).val = st.val := by
          simp [Scene.DirectLightStep, hsh]
        rw [ht, hv]
      · have ht : s.lightTerm E n (light, (light.RandomPoint st.rnd).1) =
            some (((light.Color (light.RandomPoint st.rnd).1)).Mul (Float64.max Float64.zero
              (E.Dot (E.Normalize (E.Sub (light.RandomPoint st.rnd).1 n.Origin))
                n.Direction))) := by
          simp [Scene.lightTerm, hsh]
        have hv : (s.DirectLightStep E n st light).val =
            st.val.Add (((light.Color (light.RandomPoint st.rnd).1)).Mul (Float64.max
              Float64.zero (E.Dot (E.Normalize (E.Sub (light.RandomPoint st.rnd).1 n.Origin))
                n.Direction))) := by
          simp [Scene.DirectLightStep, hsh]
        rw [ht, hv]
        rfl
    · rw [h.2]
      rfl

/-- Adding the zero color for an occluded light or skipping the light is the same sum, when
`x + 0 = x`. -/
theorem sum_skip_eq_sum_zero (hz : ∀ x : F, Float64.add x Float64.zero = x)
    (f : α → Option (Color F)) (l : List α) (acc : Color F) :
    (l.map (fun a => (f a).getD Color.zero)).foldl Color.Add acc =
      (l.filterMap f).foldl Color.Add acc := by
  induction l generalizing acc with
  | nil => rfl
  | cons a rest ih =>
    cases hfa : f a with
    | none =>
      have : acc.Add Color.zero = acc := by
        cases acc
        simp [Color.Add, Color.zero, hz]
      simp [List.filterMap_cons, hfa, this, ih]
    | some c => simp [List.filterMap_cons, hfa, ih]

/-- C5. `DirectLight(i, n, rnd)` is the sum, over the lights of the raw collection in
order, each with one point sampled from the generator, of `Color(p) * max(0, dot(normalize(p
- n.Origin), n.Direction))` for the lights that `Shadow` does not report as occluded, divided
by the number of all the lights: an occluded light adds nothing and still counts in the
divisor.  Where `x + 0 = x` this is the sum in which an occluded light enters as zero. -/
theorem DirectLight_eq_average (E : Collab F V G M T) (s : Scene F V G M T) (i n : Ray V)
    (rnd : G) :
    (s.DirectLight E i n rnd).val = s.DirectLightSpec E n rnd ∧
      (s.DirectLight E i n rnd).rnd = afterLights s.lights rnd ∧
      ((∀ x : F, Float64.add x Float64.zero = x) →
        (s.DirectLight E i n rnd).val = s.DirectLightSpecZero E n rnd) := by
  have h := DirectLight_loop E s n s.lights ⟨Color.zero, rnd, []⟩
  have hv : (s.DirectLight E i n rnd).val = s.DirectLightSpec E n rnd := by
    unfold Scene.DirectLight Scene.DirectLightSpec Color.sum
    simp only []
    rw [h.1]
  refine ⟨hv, h.2, ?_⟩
  intro hz
  rw [hv]
  unfold Scene.DirectLightSpec Scene.DirectLightSpecZero Color.sum
  rw [sum_skip_eq_sum_zero hz]

/-- Witness of C5: in the rounding-free floats `x + 0 = x`, and the one light of the mirror
scene is averaged at the mirror. -/
theorem DirectLight_eq_average_witness :
    (∀ x : XFloat, Float64.add x (Float64.zero : XFloat) = x) ∧
      (Line.mirrorScene.DirectLight Line.world ⟨0, 1⟩ ⟨5, -1⟩ 0).val =
        Line.mirrorScene.DirectLightSpecZero Line.world ⟨5, -1⟩ 0 :=
  have hz : ∀ x : XFloat, Float64.add x (Float64.zero : XFloat) = x := fun x => by
    cases x <;> simp [Float64.add, Float64.zero, XFloat.add]
  ⟨hz, (DirectLight_eq_average Line.world Line.mirrorScene ⟨0, 1⟩ ⟨5, -1⟩ 0).2.2 hz⟩

/-- C6, as stated, fails: the scene without lights is compiled without being rejected, and
`DirectLight` on it divides the zero color by the light count 0 and returns NaN in every
channel, not the zero color. -/
theorem no_lights_DirectLight_is_NaN :
    (Line.empty.Compile Line.world).lights = [] ∧
      ((Line.empty.Compile Line.world).DirectLight Line.world ⟨0, 1⟩ ⟨0, 1⟩ 0).val =
        ⟨XFloat.nan, XFloat.nan, XFloat.nan⟩ ∧
      ((Line.empty.Compile Line.world).DirectLight Line.world ⟨0, 1⟩ ⟨0, 1⟩ 0).val ≠
        Color.zero := by
  refine ⟨rfl, ?_, ?_⟩ <;> decide

/-- C6, amended. There is no guard for a scene without lights: `Compile` builds the two
trees and keeps the empty light collection, and `DirectLight` then returns the zero color
divided by `float64(0)`, without drawing a number or asking for a shadow. -/
theorem DirectLight_no_lights (E : Collab F V G M T) (s : Scene F V G M T) (i n : Ray V)
    (rnd : G) (h : s.lights = []) :
    (s.Compile E).lights = [] ∧
      (s.Compile E).DirectLight E i n rnd =
        ⟨Color.zero.Div (Float64.ofInt 0), rnd, []⟩ := by
  have hc : (s.Compile E).lights = [] := h
  refine ⟨hc, ?_⟩
  unfold Scene.DirectLight
  rw [hc]
  rfl

/-- Witness of C6 amended: the zero value `Scene{}`. -/
theorem DirectLight_no_lights_witness :
    Line.empty.lights = [] ∧
      (Line.empty.Compile Line.world).DirectLight Line.world ⟨0, 1⟩ ⟨0, 1⟩ 7 =
        ⟨Color.zero.Div (Float64.ofInt 0), 7, []⟩ :=
  ⟨rfl, (DirectLight_no_lights Line.world Line.empty ⟨0, 1⟩ ⟨0, 1⟩ 7 rfl).2⟩

/-- Induction on the depth budget: a property of every negative depth that goes from
`depth - 1` to `depth >= 0` holds of every depth. -/
theorem depth_induction {P : Int → Prop} (hneg : ∀ d : Int, d < 0 → P d)
    (hstep : ∀ d : Int, 0 ≤ d → P (d - 1) → P d) : ∀ d : Int, P d := by
  have key : ∀ k : Nat, ∀ d : Int, d < k → P d := by
    intro k
    induction k with
    | zero =>
      intro d hd
      exact hneg d (by simpa using hd)
    | succ k ih =>
      intro d hd
      by_cases h0 : d < 0
      · exact hneg d h0
      · exact hstep d (not_lt.mp h0) (ih (d - 1) (by push_cast at hd; omega))
  intro d
  exact key (d.toNat + 1) d (by push_cast; omega)

/-- `RecursiveSample` below the depth cutoff. -/
theorem RecursiveSample_neg (E : Collab F V G M T) (s : Scene F V G M T) (r : Ray V)
    (reflected : Bool) (depth : Int) (rnd : G) (hd : depth < 0) :
    s.RecursiveSample E r reflected depth rnd = ⟨Color.zero, rnd, []⟩ := by
  rw [Scene.RecursiveSample, dif_pos hd]

/-- `RecursiveSample` at a depth that is not negative: lines 68 to 95. -/
theorem RecursiveSample_nonneg (E : Collab F V G M T) (s : Scene F V G M T) (r : Ray V)
    (reflected : Bool) (depth : Int) (rnd : G) (hd : 0 ≤ depth) :
    s.RecursiveSample E r reflected depth rnd =
      if reflected && (s.IntersectLights E r).2 then
        ⟨(s.IntersectLights E r).1.Shape.Color (s.IntersectLights E r).1.Ray.Origin, rnd,
          [Event.intersectLights 69]⟩
      else if !(s.IntersectShapes E r).2 then
        ⟨Color.zero, rnd,
          (if reflected then [Event.intersectLights 69] else []) ++ [Event.intersectShapes 74]⟩
      else
        let hit := (s.IntersectShapes E r).1
        let color := hit.Shape.Color hit.Ray.Origin
        let material := hit.Shape.Material hit.Ray.Origin
        let dp := E.Float64 rnd
        let du := E.Float64 dp.2
        let dv := E.Float64 du.2
        let b := E.Bounce hit.Ray r material dp.1 du.1 dv.1
        let res := s.Combine E 93 r hit color material b.2
          (s.RecursiveSample E b.1 b.2 (depth - 1) dv.2)
        ⟨res.val, res.rnd,
          (if reflected then [Event.intersectLights 69] else []) ++
            [Event.intersectShapes 74, Event.float64 81, Event.float64 81, Event.float64 81,
              Event.bounce 82 dp.1 du.1 dv.1, Event.recursiveSample 83 (depth - 1)] ++
            res.log⟩ := by
  rw [Scene.RecursiveSample, dif_neg (not_lt.mpr hd)]

omit [Float64 F] in
/-- `AddShape` and `AddLight` calls leave both trees as they are. -/
theorem addAll_trees (s : Scene F V G M T) (calls : List (Addition F V G M)) :
    (s.addAll calls).shapeTree = s.shapeTree ∧ (s.addAll calls).lightTree = s.lightTree := by
  unfold Scene.addAll
  induction calls generalizing s with
  | nil => exact ⟨rfl, rfl⟩
  | cons c rest ih =>
    rw [List.foldl_cons]
    have h := ih (s.add c)
    cases c <;> exact h

omit [Float64 F] in
/-- `AddShape` calls leave the light collection as it is. -/
theorem addAll_lights (s : Scene F V G M T) (calls : List (Addition F V G M))
    (hshape : ∀ c ∈ calls, c.isShape = true) : (s.addAll calls).lights = s.lights := by
  unfold Scene.addAll
  induction calls generalizing s with
  | nil => rfl
  | cons c rest ih =>
    rw [List.foldl_cons]
    have h := ih (s.add c) (fun c hc => hshape c (List.mem_cons_of_mem _ hc))
    have hc := hshape c (List.mem_cons_self _ _)
    cases c with
    | shape x => exact h
    | light x => simp [Addition.isShape] at hc

/-- The queries read the scene through its light collection and its two trees only: two
scenes that agree on them answer every query alike. -/
theorem queries_congr (E : Collab F V G M T) (s1 s2 : Scene F V G M T)
    (hl : s1.lights = s2.lights) (hst : s1.shapeTree = s2.shapeTree)
    (hlt : s1.lightTree = s2.lightTree) :
    (∀ r, s1.IntersectShapes E r = s2.IntersectShapes E r) ∧
      (∀ r, s1.IntersectLights E r = s2.IntersectLights E r) ∧
      (∀ r max, s1.Shadow E r max = s2.Shadow E r max) ∧
      (∀ i n rnd, s1.DirectLight E i n rnd = s2.DirectLight E i n rnd) ∧
      (∀ r reflected depth rnd,
        s1.RecursiveSample E r reflected depth rnd =
          s2.RecursiveSample E r reflected depth rnd) ∧
      (∀ r samples depth rnd, s1.Sample E r samples depth rnd =
        s2.Sample E r samples depth rnd) := by
  obtain ⟨sh1, l1, st1, lt1⟩ := s1
  obtain ⟨sh2, l2, st2, lt2⟩ := s2
  simp only at hl hst hlt
  subst hl hst hlt
  have hIS : ∀ r, Scene.IntersectShapes E ⟨sh1, l1, st1, lt1⟩ r =
      Scene.IntersectShapes E ⟨sh2, l1, st1, lt1⟩ r := fun _ => rfl
  have hIL : ∀ r, Scene.IntersectLights E ⟨sh1, l1, st1, lt1⟩ r =
      Scene.IntersectLights E ⟨sh2, l1, st1, lt1⟩ r := fun _ => rfl
  have hDL : ∀ i n rnd, Scene.DirectLight E ⟨sh1, l1, st1, lt1⟩ i n rnd =
      Scene.DirectLight E ⟨sh2, l1, st1, lt1⟩ i n rnd := fun _ _ _ => rfl
  have hC : ∀ line r hit color material reflected ind,
      Scene.Combine E ⟨sh1, l1, st1, lt1⟩ line r hit color material reflected ind =
        Scene.Combine E ⟨sh2, l1, st1, lt1⟩ line r hit color material reflected ind :=
    fun _ _ _ _ _ _ _ => rfl
  have hRS : ∀ depth r reflected rnd,
      Scene.RecursiveSample E ⟨sh1, l1, st1, lt1⟩ r reflected depth rnd =
        Scene.RecursiveSample E ⟨sh2, l1, st1, lt1⟩ r reflected depth rnd := by
    intro depth
    induction depth using depth_induction with
    | hneg d hd =>
      intro r reflected rnd
      rw [RecursiveSample_neg E _ r reflected d rnd hd, RecursiveSample_neg E _ r reflected d rnd hd]
    | hstep d hd ih =>
      intro r reflected rnd
      rw [RecursiveSample_nonneg E _ r reflected d rnd hd,
        RecursiveSample_nonneg E _ r reflected d rnd hd]
      simp only [hIS, hIL, hC, ih]
  refine ⟨hIS, hIL, fun _ _ => rfl, hDL, fun r reflected depth rnd => hRS depth r reflected rnd,
    ?_⟩
  intro r samples depth rnd
  unfold Scene.Sample Scene.SampleLoop Scene.SampleCell
  simp only [hIS, hC, hRS]

/-- C7, as stated, fails: the mirror scene is a compiled scene, and one `AddLight` call
after `Compile` changes what `DirectLight` returns at the mirror, from level 4 to level 6,
because `DirectLight` walks the raw light collection. -/
theorem DirectLight_changes_after_AddLight :
    (Line.mirrorScene.DirectLight Line.world ⟨0, 1⟩ ⟨5, -1⟩ 0).val = Line.gray 4 ∧
      ((Line.mirrorScene.AddLight
        (Line.point (-5) (Line.gray 8) ⟨XFloat.fin 0, false⟩)).DirectLight
          Line.world ⟨0, 1⟩ ⟨5, -1⟩ 0).val = Line.gray 6 ∧
      Line.gray 4 ≠ Line.gray 6 := by
  refine ⟨?_, ?_, by decide⟩
  · simp [Scene.DirectLight, Scene.DirectLightStep, Line.mirrorScene, Scene.Compile,
      Scene.AddShape, Scene.AddLight, Line.empty, Line.world, Scene.Shadow, Line.shadow,
      Line.nearest, Line.point, Line.position, Float64.lt, Float64.max, Float64.zero,
      XFloat.lt, XFloat.max, Color.Add, Color.Mul, Color.Div, Color.zero, Line.gray,
      Float64.add, Float64.mul, Float64.div, Float64.ofInt, XFloat.add, XFloat.mul, XFloat.div]
  · simp [Scene.DirectLight, Scene.DirectLightStep, Line.mirrorScene, Scene.Compile,
      Scene.AddShape, Scene.AddLight, Line.empty, Line.world, Scene.Shadow, Line.shadow,
      Line.nearest, Line.point, Line.position, Float64.lt, Float64.max, Float64.zero,
      XFloat.lt, XFloat.max, Color.Add, Color.Mul, Color.Div, Color.zero, Line.gray,
      Float64.add, Float64.mul, Float64.div, Float64.ofInt, XFloat.add, XFloat.mul, XFloat.div]
    norm_num

/-- C7, amended. After `Compile`, any sequence of `AddShape` and `AddLight` calls leaves
`IntersectShapes`, `IntersectLights` and `Shadow` unchanged for every argument; and when
the calls are `AddShape` calls only, `DirectLight`, `RecursiveSample` and `Sample` are
unchanged too, for every argument and generator state. -/
theorem queries_after_additions (E : Collab F V G M T) (s : Scene F V G M T)
    (calls : List (Addition F V G M)) :
    (∀ r, ((s.Compile E).addAll calls).IntersectShapes E r = (s.Compile E).IntersectShapes E r) ∧
      (∀ r, ((s.Compile E).addAll calls).IntersectLights E r =
        (s.Compile E).IntersectLights E r) ∧
      (∀ r max, ((s.Compile E).addAll calls).Shadow E r max = (s.Compile E).Shadow E r max) ∧
      ((∀ c ∈ calls, c.isShape = true) →
        (∀ i n rnd, ((s.Compile E).addAll calls).DirectLight E i n rnd =
          (s.Compile E).DirectLight E i n rnd) ∧
        (∀ r reflected depth rnd,
          ((s.Compile E).addAll calls).RecursiveSample E r reflected depth rnd =
            (s.Compile E).RecursiveSample E r reflected depth rnd) ∧
        (∀ r samples depth rnd, ((s.Compile E).addAll calls).Sample E r samples depth rnd =
          (s.Compile E).Sample E r samples depth rnd)) := by
  have ht := addAll_trees (s.Compile E) calls
  refine ⟨fun r => ?_, fun r => ?_, fun r max => ?_, fun hshape => ?_⟩
  · unfold Scene.IntersectShapes
    rw [ht.1]
  · unfold Scene.IntersectLights
    rw [ht.1, ht.2]
  · unfold Scene.Shadow
    rw [ht.1]
  · have h := queries_congr E ((s.Compile E).addAll calls) (s.Compile E)
      (addAll_lights (s.Compile E) calls hshape) ht.1 ht.2
    exact ⟨h.2.2.2.1, h.2.2.2.2.1, h.2.2.2.2.2⟩

/-- Witness of C7 amended: a shape added to the mirror scene after `Compile`. -/
theorem queries_after_additions_witness :
    (∀ c ∈ [Addition.shape (Line.point 9 (Line.gray 1) ⟨XFloat.fin 0, false⟩)],
        c.isShape = true) ∧
      ∀ r samples depth rnd,
        ((Line.mirrorScene.Compile Line.world).addAll
          [Addition.shape (Line.point 9 (Line.gray 1) ⟨XFloat.fin 0, false⟩)]).Sample
            Line.world r samples depth rnd =
          (Line.mirrorScene.Compile Line.world).Sample Line.world r samples depth rnd :=
  have h : ∀ c ∈ [Addition.shape (Line.point 9 (Line.gray 1) ⟨XFloat.fin 0, false⟩)],
      c.isShape = true := by
    intro c hc
    rw [List.mem_singleton] at hc
    rw [hc]
    rfl
  ⟨h, ((queries_after_additions Line.world Line.mirrorScene _).2.2.2 h).2.2⟩

/-- C9, as stated, fails in two ways.  At `samples = 0` the mirror scene has a light and the
ray from 0 has a primary hit, `n = int(math.Sqrt(0)) = 0`, no stratum is evaluated, and the
final division is the zero color over `float64(0 * 0)`: NaN in every channel.  And `n` is not
always `floor(sqrt(samples))`: at `samples = 4503599761588224 = 67108865 * 67108865 - 1` the
root rounds up to the float64 67108865, so `n = 67108865` and `n * n = samples + 1`, where
the integer square root is 67108864. -/
theorem Sample_divisor_not_as_claimed :
    Line.mirrorScene.lights.length = 1 ∧
      (Line.mirrorScene.IntersectShapes Line.world ⟨0, 1⟩).2 = true ∧
      Float64.toInt (Float64.sqrt (Float64.ofInt 0 : XFloat)) = 0 ∧
      (Float64.ofInt (wrapInt64 (0 * 0)) : XFloat) = XFloat.fin 0 ∧
      (Line.mirrorScene.Sample Line.world ⟨0, 1⟩ 0 0 7).val =
        ⟨XFloat.nan, XFloat.nan, XFloat.nan⟩ ∧
      gridSize XFloat 4503599761588224 = 67108865 ∧
      Nat.sqrt 4503599761588224 = 67108864 ∧
      (67108865 : Int) * 67108865 = 4503599761588224 + 1 := by
  refine ⟨by decide, by decide, by decide, by decide, by decide, gridSize_rounds_up, ?_,
    by norm_num⟩
  exact (Nat.eq_sqrt.mpr ⟨by norm_num, by norm_num⟩).symm

/-- C9, amended. For `1 <= samples` (an `int`, so below 2^63) and `depth >= 0`, with
`n = int(math.Sqrt(float64(samples)))` the grid size scene.go computes, and with the laws of
the grid size (monotone, `k` at `k * k`, 3037000499 at the largest `int`): on a ray without a
primary hit `Sample` returns the zero color and divides nothing; on a ray with a hit it
returns the color accumulated by the two loops divided by `float64(n * n)`, where
`1 <= n <= 3037000499`, so that `n * n` does not overflow and `1 <= n * n`: the divisor is
not the conversion of zero. -/
theorem Sample_divides_by_grid (E : Collab F V G M T) (s : Scene F V G M T) (r : Ray V)
    (samples depth : Int) (rnd : G) (hs : 1 ≤ samples) (hmax : samples < 2 ^ 63)
    (hd : 0 ≤ depth) (hlaws : SqrtLaws F) :
    ((s.IntersectShapes E r).2 = false →
        (s.Sample E r samples depth rnd).val = Color.zero) ∧
      ((s.IntersectShapes E r).2 = true →
        (s.Sample E r samples depth rnd).val =
          (s.SampleLoop E r (s.IntersectShapes E r).1
            ((s.IntersectShapes E r).1.Shape.Color (s.IntersectShapes E r).1.Ray.Origin)
            ((s.IntersectShapes E r).1.Shape.Material (s.IntersectShapes E r).1.Ray.Origin)
            (gridSize F samples) depth rnd).val.Div
            (Float64.ofInt (gridSize F samples * gridSize F samples))) ∧
      1 ≤ gridSize F samples ∧ gridSize F samples ≤ 3037000499 ∧
      1 ≤ gridSize F samples * gridSize F samples ∧
      gridSize F samples * gridSize F samples < 2 ^ 63 := by
  obtain ⟨h1, h2⟩ := gridSize_bounds hlaws samples hs hmax
  have h3 : 1 ≤ gridSize F samples * gridSize F samples := by nlinarith
  have h4 : gridSize F samples * gridSize F samples < 2 ^ 63 := by nlinarith
  have hw : wrapInt64 (gridSize F samples * gridSize F samples) =
      gridSize F samples * gridSize F samples := by
    unfold wrapInt64
    omega
  refine ⟨?_, ?_, h1, h2, h3, h4⟩
  · intro hhit
    unfold Scene.Sample
    rw [if_neg (not_lt.mpr hd)]
    simp only [hhit, Bool.not_false, if_true]
  · intro hhit
    rw [← hw]
    unfold Scene.Sample gridSize
    rw [if_neg (not_lt.mpr hd)]
    simp only [hhit, Bool.not_true, Bool.false_eq_true, if_false]

/-- Witness of C9 amended: the mirror scene, `samples = 5`, depth 1. -/
theorem Sample_divides_by_grid_witness :
    ((1 : Int) ≤ 5) ∧ ((5 : Int) < 2 ^ 63) ∧ ((0 : Int) ≤ 1) ∧ SqrtLaws XFloat ∧
      (Line.mirrorScene.IntersectShapes Line.world ⟨0, 1⟩).2 = true ∧
      (1 : Int) ≤ gridSize XFloat 5 * gridSize XFloat 5 ∧
      gridSize XFloat 5 * gridSize XFloat 5 < 2 ^ 63 :=
  have h := Sample_divides_by_grid Line.world Line.mirrorScene ⟨0, 1⟩ 5 1 7 (by decide)
    (by norm_num) (by decide) XFloat_sqrtLaws
  ⟨by decide, by norm_num, by decide, XFloat_sqrtLaws, by decide, h.2.2.2.2.1, h.2.2.2.2.2⟩

/-- C2, as stated, fails in two ways.  In the mirror scene (tint 0) the ray from 0 bounces
on the mirror and the reflected ray sees the light of level 4, yet with the depth budget 0
the recursive call is cut off and `RecursiveSample` returns the zero color.  In the tinted
scene (tint 1, mirror of level 1/2) with depth 1 the light is reached and blended with the
mirror: `RecursiveSample` returns level 2, not the emitted level 4. -/
theorem specular_path_not_emitted :
    (Line.mirrorScene.isSpecularPath Line.world 1 ⟨0, 1⟩ false 0 = true ∧
      Line.mirrorScene.pathLight Line.world 1 ⟨0, 1⟩ 0 = Line.gray 4 ∧
      (Line.mirrorScene.RecursiveSample Line.world ⟨0, 1⟩ false 0 0).val = Color.zero) ∧
    (Line.tintedScene.isSpecularPath Line.world 1 ⟨0, 1⟩ false 0 = true ∧
      Line.tintedScene.pathTints Line.world 1 ⟨0, 1⟩ 0 = [XFloat.fin 1] ∧
      Line.tintedScene.pathLight Line.world 1 ⟨0, 1⟩ 0 = Line.gray 4 ∧
      (Line.tintedScene.RecursiveSample Line.world ⟨0, 1⟩ false 1 0).val = Line.gray 2) ∧
    Line.gray 4 ≠ Color.zero ∧ Line.gray 4 ≠ Line.gray 2 := by
  refine ⟨⟨by decide, by decide, ?_⟩, ⟨by decide, by decide, by decide, ?_⟩, by decide,
    by decide⟩
  · simp only [RecursiveSample_nonneg, RecursiveSample_neg, le_refl, Int.reduceSub,
      Int.reduceNeg, Int.reduceLT]
    decide
  · simp [RecursiveSample_nonneg, Scene.Combine, Scene.IntersectLights, Scene.IntersectShapes, Line.tintedScene,
      Scene.Compile, Scene.AddShape, Scene.AddLight, Line.empty, Line.world, Line.intersect,
      Line.nearest, Line.point, Line.position, Float64.lt, Float64.zero, Float64.one,
      Float64.sub, XFloat.lt, XFloat.neg, Color.Add, Color.Mul, Color.MulColor, Line.gray,
      Float64.add, Float64.mul, XFloat.add, XFloat.mul]
    norm_num

/-- `RecursiveSample` on a ray that takes a reflected bounce: the value and the calls come
from the recursive call on the bounced ray, blended by the tint; `DirectLight` is not
called at this level. -/
theorem RecursiveSample_reflected (E : Collab F V G M T) (s : Scene F V G M T) (r : Ray V)
    (reflected : Bool) (depth : Int) (rnd : G) (hd : 0 ≤ depth)
    (hno : (reflected && (s.IntersectLights E r).2) = false)
    (hhit : (s.IntersectShapes E r).2 = true) (href : (s.nextBounce E r rnd).1.2 = true) :
    ∃ pre : List (Event F), (∀ e ∈ pre, e.isDirectLight = false) ∧
      (s.RecursiveSample E r reflected depth rnd).log = pre ++
        (s.RecursiveSample E (s.nextBounce E r rnd).1.1 true (depth - 1)
          (s.nextBounce E r rnd).2).log ∧
      (Float64.lt Float64.zero (E.Tint ((s.IntersectShapes E r).1.Shape.Material
          (s.IntersectShapes E r).1.Ray.Origin)) = false →
        (s.RecursiveSample E r reflected depth rnd).val =
          (s.RecursiveSample E (s.nextBounce E r rnd).1.1 true (depth - 1)
            (s.nextBounce E r rnd).2).val) := by
  unfold Scene.nextBounce at href
  simp only at href
  refine ⟨(if reflected then [Event.intersectLights 69] else []) ++
    [Event.intersectShapes 74, Event.float64 81, Event.float64 81, Event.float64 81,
      Event.bounce 82 (E.Float64 rnd).1 (E.Float64 (E.Float64 rnd).2).1
        (E.Float64 (E.Float64 (E.Float64 rnd).2).2).1,
      Event.recursiveSample 83 (depth - 1)], ?_, ?_, ?_⟩
  · cases reflected <;> simp [Event.isDirectLight]
  · rw [RecursiveSample_nonneg E s r reflected depth rnd hd]
    unfold Scene.nextBounce
    simp only [hno, hhit, href, Scene.Combine, Bool.false_eq_true, if_false, Bool.not_true,
      if_true]
    by_cases ht : Float64.lt Float64.zero (E.Tint ((s.IntersectShapes E r).1.Shape.Material
        (s.IntersectShapes E r).1.Ray.Origin)) = true
    · simp [ht]
    · simp [ht]
  · intro ht
    rw [RecursiveSample_nonneg E s r reflected depth rnd hd]
    unfold Scene.nextBounce
    simp only [hno, hhit, href, ht, Scene.Combine, Bool.false_eq_true, if_false, Bool.not_true,
      if_true]

/-- C2, amended. Along a specular path of `m` bounces that ends on a directly visible light,
`RecursiveSample` never calls `DirectLight`, whatever the tints and the depth budget; and
when the budget covers the path (`m <= depth`) and no material on it has a tint greater
than zero, the value returned for the first ray is exactly the emitted color of the light
at the light hit point. -/
theorem specular_path_value (E : Collab F V G M T) (s : Scene F V G M T) (m : Nat) (r : Ray V)
    (reflected : Bool) (depth : Int) (rnd : G)
    (hpath : s.isSpecularPath E m r reflected rnd = true) :
    (∀ e ∈ (s.RecursiveSample E r reflected depth rnd).log, e.isDirectLight = false) ∧
      ((m : Int) ≤ depth →
        (∀ t ∈ s.pathTints E m r rnd, Float64.lt Float64.zero t = false) →
        (s.RecursiveSample E r reflected depth rnd).val = s.pathLight E m r rnd) := by
  induction m generalizing r reflected depth rnd with
  | zero =>
    have hl : (reflected && (s.IntersectLights E r).2) = true := hpath
    constructor
    · by_cases hd : depth < 0
      · rw [RecursiveSample_neg E s r reflected depth rnd hd]
        simp
      · rw [RecursiveSample_nonneg E s r reflected depth rnd (not_lt.mp hd), if_pos hl]
        simp [Event.isDirectLight]
    · intro hd _
      rw [RecursiveSample_nonneg E s r reflected depth rnd (by simpa using hd), if_pos hl]
      rfl
  | succ m ih =>
    have hp : (!(reflected && (s.IntersectLights E r).2) && (s.IntersectShapes E r).2 &&
        (s.nextBounce E r rnd).1.2 &&
        s.isSpecularPath E m (s.nextBounce E r rnd).1.1 true (s.nextBounce E r rnd).2) =
        true := hpath
    simp only [Bool.and_eq_true, Bool.not_eq_true'] at hp
    obtain ⟨⟨⟨hno, hhit⟩, href⟩, hrest⟩ := hp
    have hih := ih (s.nextBounce E r rnd).1.1 true (depth - 1) (s.nextBounce E r rnd).2 hrest
    constructor
    · by_cases hd : depth < 0
      · rw [RecursiveSample_neg E s r reflected depth rnd hd]
        simp
      · obtain ⟨pre, hpre, hlog, _⟩ :=
          RecursiveSample_reflected E s r reflected depth rnd (not_lt.mp hd) hno hhit href
        rw [hlog]
        intro e he
        rcases List.mem_append.mp he with h | h
        · exact hpre e h
        · exact hih.1 e h
    · intro hd ht
      have hd0 : 0 ≤ depth := by push_cast at hd; omega
      obtain ⟨_, _, _, hval⟩ :=
        RecursiveSample_reflected E s r reflected depth rnd hd0 hno hhit href
      have ht0 := ht _ (List.mem_cons_self _ _)
      rw [hval ht0]
      exact hih.2 (by push_cast at hd; omega) (fun t h => ht t (List.mem_cons_of_mem _ h))

/-- Witness of C2 amended: the mirror scene, one bounce on the mirror of tint 0, depth 1. -/
theorem specular_path_value_witness :
    Line.mirrorScene.isSpecularPath Line.world 1 ⟨0, 1⟩ false 0 = true ∧
      ((1 : Nat) : Int) ≤ 1 ∧
      (∀ t ∈ Line.mirrorScene.pathTints Line.world 1 ⟨0, 1⟩ 0,
        Float64.lt Float64.zero t = false) ∧
      (Line.mirrorScene.RecursiveSample Line.world ⟨0, 1⟩ false 1 0).val =
        Line.mirrorScene.pathLight Line.world 1 ⟨0, 1⟩ 0 :=
  have ht : ∀ t ∈ Line.mirrorScene.pathTints Line.world 1 ⟨0, 1⟩ 0,
      Float64.lt Float64.zero t = false := by
    intro t h
    have h1 : Line.mirrorScene.pathTints Line.world 1 ⟨0, 1⟩ 0 = [XFloat.fin 0] := by decide
    rw [h1, List.mem_singleton] at h
    rw [h]
    decide
  ⟨by decide, by decide, ht,
    (specular_path_value Line.world Line.mirrorScene 1 ⟨0, 1⟩ false 1 0 (by decide)).2
      (by decide) ht⟩

/-- One step of the loop of `DirectLight` adds the calls of lines 52 and 55. -/
theorem DirectLightStep_log (E : Collab F V G M T) (s : Scene F V G M T) (n : Ray V)
    (st : Out F G (Color F)) (light : Shape F V G M) :
    (s.DirectLightStep E n st light).log =
      st.log ++ [Event.randomPoint 52, Event.shadow 55] := by
  unfold Scene.DirectLightStep
  by_cases hsh : s.Shadow E ⟨n.Origin, E.Normalize (E.Sub (light.RandomPoint st.rnd).1
    n.Origin)⟩ (E.Length (E.Sub (light.RandomPoint st.rnd).1 n.Origin)) = true
  · simp [hsh]
  · simp [hsh]

/-- Every call made by `DirectLight` is made inside `DirectLight` (lines below 100). -/
theorem DirectLight_lines (E : Collab F V G M T) (s : Scene F V G M T) (i n : Ray V) (rnd : G) :
    ∀ e ∈ (s.DirectLight E i n rnd).log, e.line < 100 := by
  have key : ∀ (lights : List (Shape F V G M)) (st : Out F G (Color F)),
      (∀ e ∈ st.log, e.line < 100) →
        ∀ e ∈ (lights.foldl (s.DirectLightStep E n) st).log, e.line < 100 := by
    intro lights
    induction lights with
    | nil => exact fun st h => h
    | cons light rest ih =>
      intro st h
      rw [List.foldl_cons]
      apply ih
      rw [DirectLightStep_log]
      intro e he
      rcases List.mem_append.mp he with h1 | h1
      · exact h e h1
      · simp at h1
        rcases h1 with h1 | h1 <;> simp [h1, Event.line]
  exact key s.lights ⟨Color.zero, rnd, []⟩ (by simp)

/-- The calls of the combine step: those of the recursive call and, after a diffuse bounce,
the `DirectLight` call of line `line` and what it calls. -/
theorem Combine_lines (E : Collab F V G M T) (s : Scene F V G M T) (line : Nat) (r : Ray V)
    (hit : Hit F V G M) (color : Color F) (material : M) (reflected : Bool)
    (ind : Out F G (Color F)) (hind : ∀ e ∈ ind.log, e.line < 100) :
    ∀ e ∈ (s.Combine E line r hit color material reflected ind).log,
      e.line < 100 ∨ e = Event.directLight line := by
  intro e he
  unfold Scene.Combine at he
  cases reflected with
  | true =>
    by_cases ht : Float64.lt Float64.zero (E.Tint material) = true
    · simp [ht] at he
      exact Or.inl (hind e he)
    · simp [ht] at he
      exact Or.inl (hind e he)
  | false =>
    simp at he
    rcases he with h | h | h
    · exact Or.inl (hind e h)
    · exact Or.inr h
    · exact Or.inl (DirectLight_lines E s r hit.Ray ind.rnd e h)

/-- Every call made by `RecursiveSample` is made at a line below 100: none is a call of the
loop of `Sample`. -/
theorem RecursiveSample_lines (E : Collab F V G M T) (s : Scene F V G M T) (depth : Int) :
    ∀ (r : Ray V) (reflected : Bool) (rnd : G),
      ∀ e ∈ (s.RecursiveSample E r reflected depth rnd).log, e.line < 100 := by
  induction depth using depth_induction with
  | hneg d hd =>
    intro r reflected rnd
    rw [RecursiveSample_neg E s r reflected d rnd hd]
    simp
  | hstep d hd ih =>
    intro r reflected rnd
    rw [RecursiveSample_nonneg E s r reflected d rnd hd]
    by_cases h1 : (reflected && (s.IntersectLights E r).2) = true
    · rw [if_pos h1]
      simp [Event.line]
    · rw [if_neg h1]
      by_cases h2 : (!(s.IntersectShapes E r).2) = true
      · rw [if_pos h2]
        cases reflected <;> simp [Event.line]
      · rw [if_neg h2]
        intro e he
        simp only [List.mem_append] at he
        rcases he with (h | h) | h
        · revert e
          cases reflected <;> simp [Event.line]
        · revert e
          simp [Event.line]
        · rcases Combine_lines E s 93 r _ _ _ _ _ (ih _ _ _) e h with h3 | h3
          · exact h3
          · simp [h3, Event.line]

/-- The body of the loop of `Sample` makes one `Bounce` call at line 116 and one
`RecursiveSample` call at line 117. -/
theorem SampleCell_atLine (E : Collab F V G M T) (s : Scene F V G M T) (r : Ray V)
    (hit : Hit F V G M) (color : Color F) (material : M) (n depth : Int)
    (st : Out F G (Color F)) (u v : Int) :
    atLine 116 (s.SampleCell E r hit color material n depth st u v).log =
        atLine 116 st.log ++ [Scene.cellBounce E n st.rnd u v] ∧
      atLine 117 (s.SampleCell E r hit color material n depth st u v).log =
        atLine 117 st.log ++ [Event.recursiveSample 117 (depth - 1)] := by
  have hres : ∀ (line : Nat), line = 116 ∨ line = 117 → ∀ b : Ray V × Bool, ∀ g : G,
      atLine line (s.Combine E 127 r hit color material b.2
        (s.RecursiveSample E b.1 b.2 (depth - 1) g)).log = [] := by
    intro line hline b g
    unfold atLine
    rw [List.filter_eq_nil_iff]
    intro e he
    rcases Combine_lines E s 127 r hit color material b.2 _
      (RecursiveSample_lines E s (depth - 1) b.1 b.2 g) e he with h | h
    · rcases hline with h6 | h6 <;> simp [h6] <;> omega
    · rcases hline with h6 | h6 <;> simp [h, h6, Event.line]
  constructor
  · unfold Scene.SampleCell
    simp only [atLine, List.filter_append]
    have h := hres 116 (Or.inl rfl)
    simp only [atLine] at h
    rw [h]
    simp [Event.line, Scene.cellBounce]
  · unfold Scene.SampleCell
    simp only [atLine, List.filter_append]
    have h := hres 117 (Or.inr rfl)
    simp only [atLine] at h
    rw [h]
    simp [Event.line]

omit [Float64 F] in
/-- The two loops of `Sample` over any lists of indices: when the body adds one call `ev`
at the line `line`, the loops add one such call per pair `(u, v)`, in the order of the
pairs. -/
theorem loops_atLine (body : Out F G (Color F) → Nat → Nat → Out F G (Color F)) (line : Nat)
    (ev : G → Nat → Nat → Event F)
    (hbody : ∀ st u v, atLine line (body st u v).log = atLine line st.log ++ [ev st.rnd u v])
    (R : Nat × Nat → Event F → Prop) (hR : ∀ rnd u v, R (u, v) (ev rnd u v))
    (vs : List Nat) :
    ∀ (us : List Nat) (st : Out F G (Color F)),
      ∃ l, atLine line (us.foldl (fun st u => vs.foldl (fun st v => body st u v) st) st).log =
          atLine line st.log ++ l ∧
        List.Forall₂ R (us.flatMap (fun u => vs.map (fun v => (u, v)))) l := by
  have inner : ∀ (u : Nat) (ws : List Nat) (st : Out F G (Color F)),
      ∃ l, atLine line (ws.foldl (fun st v => body st u v) st).log = atLine line st.log ++ l ∧
        List.Forall₂ R (ws.map (fun v => (u, v))) l := by
    intro u ws
    induction ws with
    | nil => exact fun st => ⟨[], by simp, List.Forall₂.nil⟩
    | cons v rest ih =>
      intro st
      obtain ⟨l, hl, hf⟩ := ih (body st u v)
      refine ⟨ev st.rnd u v :: l, ?_, ?_⟩
      · rw [List.foldl_cons, hl, hbody]
        simp
      · exact List.Forall₂.cons (hR _ _ _) hf
  intro us
  induction us with
  | nil => exact fun st => ⟨[], by simp, List.Forall₂.nil⟩
  | cons u rest ih =>
    intro st
    obtain ⟨l1, hl1, hf1⟩ := inner u vs st
    obtain ⟨l2, hl2, hf2⟩ := ih (vs.foldl (fun st v => body st u v) st)
    refine ⟨l1 ++ l2, ?_, ?_⟩
    · rw [List.foldl_cons, hl2, hl1]
      simp
    · rw [List.flatMap_cons]
      exact List.rel_append hf1 hf2

/-- With the laws of the jitter and draws in `[0, 1)`, the jittered pair of the cell `(u, v)`
of a grid of size `n >= 1` lies in that cell. -/
theorem cellBounce_inCell (E : Collab F V G M T) (hlaws : JitterLaws F)
    (hdraw : ∀ g : G, Float64.lt (E.Float64 g).1 Float64.zero = false ∧
      Float64.lt (E.Float64 g).1 Float64.one = true)
    (n : Int) (hn : 1 ≤ n) (rnd : G) (u v : Nat) :
    InCell n (u, v) (Scene.cellBounce E n rnd (u : Int) (v : Int)) := by
  have key : ∀ (w : Int) (x : F), Float64.lt x Float64.zero = false →
      Float64.lt x Float64.one = true →
      Float64.lt (Float64.mul (Float64.add (Float64.ofInt w) x)
          (Float64.div Float64.one (Float64.ofInt n))) (lowerEdge n w) = false ∧
        Float64.lt (upperEdge n w) (Float64.mul (Float64.add (Float64.ofInt w) x)
          (Float64.div Float64.one (Float64.ofInt n))) = false := by
    intro w x hx0 hx1
    have hinv := hlaws.inv_notneg n hn
    constructor
    · have h := hlaws.add_mono (Float64.ofInt w) Float64.zero x hx0
      rw [hlaws.add_zero] at h
      exact hlaws.mul_mono _ _ _ hinv h
    · have h := hlaws.add_mono (Float64.ofInt w) x Float64.one (hlaws.lt_asymm _ _ hx1)
      exact hlaws.mul_mono _ _ _ hinv h
  obtain ⟨hx0, hx1⟩ := hdraw (E.Float64 rnd).2
  obtain ⟨hy0, hy1⟩ := hdraw (E.Float64 (E.Float64 rnd).2).2
  exact ⟨_, _, _, rfl, (key u _ hx0 hx1).1, (key u _ hx0 hx1).2, (key v _ hy0 hy1).1,
    (key v _ hy0 hy1).2⟩

/-- The calls of `Sample` on a primary hit: the intersection query, then the calls of the
two loops over the grid. -/
theorem Sample_log (E : Collab F V G M T) (s : Scene F V G M T) (r : Ray V)
    (samples depth : Int) (rnd : G) (hd : 0 ≤ depth)
    (hhit : (s.IntersectShapes E r).2 = true) :
    (s.Sample E r samples depth rnd).log = Event.intersectShapes 102 ::
      (s.SampleLoop E r (s.IntersectShapes E r).1
        ((s.IntersectShapes E r).1.Shape.Color (s.IntersectShapes E r).1.Ray.Origin)
        ((s.IntersectShapes E r).1.Shape.Material (s.IntersectShapes E r).1.Ray.Origin)
        (gridSize F samples) depth rnd).log := by
  unfold Scene.Sample gridSize
  rw [if_neg (not_lt.mpr hd)]
  simp only [hhit, Bool.not_true, Bool.false_eq_true, if_false]

/-- A grid of size `n` has `n * n` cells. -/
theorem cells_length (n : Nat) : (cells n).length = n * n := by
  have hcells : cells n = List.range n ×ˢ List.range n := rfl
  rw [hcells, List.length_product, List.length_range]

/-- The `Bounce` calls of line 116 made by `Sample` on a primary hit: one per cell of the
grid, in the order of the cells, each the call that the body of the loop makes for its cell. -/
theorem Sample_bounce_cells (E : Collab F V G M T) (s : Scene F V G M T) (r : Ray V)
    (samples depth : Int) (rnd : G) (hd : 0 ≤ depth)
    (hhit : (s.IntersectShapes E r).2 = true) (R : Nat × Nat → Event F → Prop)
    (hR : ∀ g u v, R (u, v) (Scene.cellBounce E (gridSize F samples) g (u : Int) (v : Int))) :
    List.Forall₂ R (cells (gridSize F samples).toNat)
      (atLine 116 (s.Sample E r samples depth rnd).log) := by
  obtain ⟨l, hl, hf⟩ := loops_atLine (fun st u v => s.SampleCell E r (s.IntersectShapes E r).1
      ((s.IntersectShapes E r).1.Shape.Color (s.IntersectShapes E r).1.Ray.Origin)
      ((s.IntersectShapes E r).1.Shape.Material (s.IntersectShapes E r).1.Ray.Origin)
      (gridSize F samples) depth st (u : Int) (v : Int)) 116
    (fun rnd u v => Scene.cellBounce E (gridSize F samples) rnd (u : Int) (v : Int))
    (fun st u v => (SampleCell_atLine E s r _ _ _ _ depth st u v).1) R hR
    (List.range (gridSize F samples).toNat) (List.range (gridSize F samples).toNat)
    ⟨Color.zero, rnd, []⟩
  rw [Sample_log E s r samples depth rnd hd hhit]
  unfold Scene.SampleLoop
  rw [atLine, List.filter_cons_of_neg (by simp [Event.line])]
  rw [atLine] at hl
  rw [hl]
  simpa [atLine] using hf

/-- The `RecursiveSample` calls of line 117 made by `Sample` on a primary hit: one per cell
of the grid, each with the budget `depth - 1`. -/
theorem Sample_recursive_cells (E : Collab F V G M T) (s : Scene F V G M T) (r : Ray V)
    (samples depth : Int) (rnd : G) (hd : 0 ≤ depth)
    (hhit : (s.IntersectShapes E r).2 = true) :
    List.Forall₂ (fun _ e => e = Event.recursiveSample 117 (depth - 1))
      (cells (gridSize F samples).toNat)
      (atLine 117 (s.Sample E r samples depth rnd).log) := by
  obtain ⟨l, hl, hf⟩ := loops_atLine (fun st u v => s.SampleCell E r (s.IntersectShapes E r).1
      ((s.IntersectShapes E r).1.Shape.Color (s.IntersectShapes E r).1.Ray.Origin)
      ((s.IntersectShapes E r).1.Shape.Material (s.IntersectShapes E r).1.Ray.Origin)
      (gridSize F samples) depth st (u : Int) (v : Int)) 117
    (fun _ _ _ => Event.recursiveSample 117 (depth - 1))
    (fun st u v => (SampleCell_atLine E s r _ _ _ _ depth st u v).2)
    (fun _ e => e = Event.recursiveSample 117 (depth - 1)) (fun _ _ _ => rfl)
    (List.range (gridSize F samples).toNat) (List.range (gridSize F samples).toNat)
    ⟨Color.zero, rnd, []⟩
  rw [Sample_log E s r samples depth rnd hd hhit]
  unfold Scene.SampleLoop
  rw [atLine, List.filter_cons_of_neg (by simp [Event.line])]
  rw [atLine] at hl
  rw [hl]
  simpa [atLine] using hf

/-- The `Bounce` calls of line 116 that `Sample` makes in the flat world, where every draw
is `x`, with `samples = 9` and depth 0: the call of each cell of the grid of size 3, in the
order of the cells. -/
theorem Flat_bounce_calls (x : RFloat) :
    atLine 116 (Flat.scene.Sample (Flat.world x) ⟨(), ()⟩ 9 0 ()).log =
      (cells 3).map (fun c => Scene.cellBounce (Flat.world x) 3 () (c.1 : Int) (c.2 : Int)) := by
  have h := Sample_bounce_cells (Flat.world x) Flat.scene ⟨(), ()⟩ 9 0 () (le_refl 0) rfl
    (fun c e => e = Scene.cellBounce (Flat.world x) (gridSize RFloat 9) ()
      (c.1 : Int) (c.2 : Int))
    (fun _ _ _ => rfl)
  rw [gridSize_RFloat_nine] at h
  exact forall₂_eq_map _ _ _ h

/-- C8, as stated, fails in two ways.  For a non-square `samples`: at
`samples = 4503599761588224 = 67108865 * 67108865 - 1` the float64 root rounds up to
67108865, the grid size is 67108865, and `Sample` (mirror scene, primary hit, depth 0) calls
`Bounce` and `RecursiveSample` `67108865 * 67108865 = samples + 1` times, where
`floor(sqrt(samples))^2` is `67108864 * 67108864`.  For the cell bounds, in float64 with
rounding and `samples = 9 = 3 * 3`: with every draw 0, the pair passed to `Bounce` for the
cell `(1, 1)` is `(1 + 0) * (1 / 3)`, the float64 just below the third, so `1/3 <= fu` fails;
with every draw `1 - 2^-53`, which lies in `[0, 1)`, the pair for the cell `(2, 2)` is
`(2 + draw) * (1 / 3) = 1`, so `fu < (2 + 1) / 3` fails. -/
theorem Sample_strata_not_as_claimed :
    ((Line.mirrorScene.IntersectShapes Line.world ⟨0, 1⟩).2 = true ∧
      gridSize XFloat 4503599761588224 = 67108865 ∧
      Nat.sqrt 4503599761588224 = 67108864 ∧
      (atLine 116 (Line.mirrorScene.Sample Line.world ⟨0, 1⟩ 4503599761588224 0 0).log).length =
        67108865 * 67108865 ∧
      (atLine 117 (Line.mirrorScene.Sample Line.world ⟨0, 1⟩ 4503599761588224 0 0).log).length =
        67108865 * 67108865 ∧
      67108865 * 67108865 = 4503599761588224 + 1 ∧
      67108864 * 67108864 < 67108865 * 67108865) ∧
    ((Flat.scene.IntersectShapes (Flat.world ⟨XFloat.fin 0⟩) ⟨(), ()⟩).2 = true ∧
      gridSize RFloat 9 = 3 ∧ (1, 1) ∈ cells 3 ∧
      Float64.lt (⟨XFloat.fin 0⟩ : RFloat) Float64.zero = false ∧
      Float64.lt (⟨XFloat.fin 0⟩ : RFloat) Float64.one = true ∧
      atLine 116 (Flat.scene.Sample (Flat.world ⟨XFloat.fin 0⟩) ⟨(), ()⟩ 9 0 ()).log =
        (cells 3).map (fun c =>
          Scene.cellBounce (Flat.world ⟨XFloat.fin 0⟩) 3 () (c.1 : Int) (c.2 : Int)) ∧
      Scene.cellBounce (Flat.world ⟨XFloat.fin 0⟩) 3 () 1 1 =
        Event.bounce 116 ⟨XFloat.fin 0⟩
          ⟨XFloat.fin (6004799503160661 / 18014398509481984)⟩
          ⟨XFloat.fin (6004799503160661 / 18014398509481984)⟩ ∧
      ¬ ((1 : ℚ) / 3 ≤ 6004799503160661 / 18014398509481984)) ∧
    ((2, 2) ∈ cells 3 ∧
      Float64.lt (⟨XFloat.fin (9007199254740991 / 9007199254740992)⟩ : RFloat)
        Float64.zero = false ∧
      Float64.lt (⟨XFloat.fin (9007199254740991 / 9007199254740992)⟩ : RFloat)
        Float64.one = true ∧
      atLine 116 (Flat.scene.Sample
          (Flat.world ⟨XFloat.fin (9007199254740991 / 9007199254740992)⟩) ⟨(), ()⟩ 9 0 ()).log =
        (cells 3).map (fun c =>
          Scene.cellBounce (Flat.world ⟨XFloat.fin (9007199254740991 / 9007199254740992)⟩) 3 ()
            (c.1 : Int) (c.2 : Int)) ∧
      Scene.cellBounce (Flat.world ⟨XFloat.fin (9007199254740991 / 9007199254740992)⟩) 3 ()
          2 2 =
        Event.bounce 116 ⟨XFloat.fin (9007199254740991 / 9007199254740992)⟩
          ⟨XFloat.fin 1⟩ ⟨XFloat.fin 1⟩ ∧
      ¬ ((1 : ℚ) < (2 + 1) / 3)) := by
  have hn : (gridSize XFloat 4503599761588224).toNat = 67108865 := by
    rw [gridSize_rounds_up]
    rfl
  have h116 := (Sample_bounce_cells Line.world Line.mirrorScene ⟨0, 1⟩ 4503599761588224 0 0
    (le_refl 0) (by decide) (fun _ _ => True) (fun _ _ _ => trivial)).length_eq
  have h117 := (Sample_recursive_cells Line.world Line.mirrorScene ⟨0, 1⟩ 4503599761588224 0 0
    (le_refl 0) (by decide)).length_eq
  rw [cells_length, hn] at h116 h117
  refine ⟨⟨by decide, gridSize_rounds_up, ?_, h116.symm, h117.symm, by norm_num, by norm_num⟩,
    ⟨rfl, gridSize_RFloat_nine, by decide, ?_, ?_, Flat_bounce_calls _, ?_, by norm_num⟩,
    ⟨by decide, ?_, ?_, Flat_bounce_calls _, ?_, by norm_num⟩⟩
  · exact (Nat.eq_sqrt.mpr ⟨by norm_num, by norm_num⟩).symm
  · simp [Float64.lt, Float64.zero, XFloat.lt]
  · simp [Float64.lt, Float64.one, XFloat.lt]
  · unfold Scene.cellBounce
    simp only [Flat.world]
    rw [jitter_below_third]
  · norm_num [Float64.lt, Float64.zero, XFloat.lt]
  · norm_num [Float64.lt, Float64.one, XFloat.lt]
  · unfold Scene.cellBounce
    simp only [Flat.world]
    rw [jitter_reaches_one]

/-- C8, amended. Take `depth >= 0`, a primary ray with a hit, and let `n` be the grid size
`int(math.Sqrt(float64(samples)))` that scene.go computes.  `Sample` calls `Bounce` (line 116)
and `RecursiveSample` (line 117, with `depth - 1`) exactly `n * n` times (never, when
`n <= 0`), once per cell `(u, v)` with `u, v < n`, in the order of the cells, and the pair
passed to `Bounce` for the cell is `fu = (float64(u) + draw) * (1 / float64(n))` and likewise
`fv`.  With the laws of the grid size, `n = k` at `samples = k * k` for `k >= 1`, so the
calls are `k * k`.  With the laws of the jitter and draws in `[0, 1)`, the pair of the cell
`(u, v)` lies in the cell, edges and comparisons in float64: `fu` is not below
`float64(u) * (1 / float64(n))` and not above `(float64(u) + 1) * (1 / float64(n))`, and
likewise `fv`. -/
theorem Sample_stratified (E : Collab F V G M T) (s : Scene F V G M T) (r : Ray V)
    (samples depth : Int) (rnd : G) (hd : 0 ≤ depth)
    (hhit : (s.IntersectShapes E r).2 = true) :
    ((cells (gridSize F samples).toNat).length =
          (gridSize F samples).toNat * (gridSize F samples).toNat ∧
        (cells (gridSize F samples).toNat).Nodup ∧
        ∀ u v, (u, v) ∈ cells (gridSize F samples).toNat ↔
          u < (gridSize F samples).toNat ∧ v < (gridSize F samples).toNat) ∧
      List.Forall₂ (fun cell e => ∃ g : G,
          e = Scene.cellBounce E (gridSize F samples) g (cell.1 : Int) (cell.2 : Int))
        (cells (gridSize F samples).toNat) (atLine 116 (s.Sample E r samples depth rnd).log) ∧
      List.Forall₂ (fun _ e => e = Event.recursiveSample 117 (depth - 1))
        (cells (gridSize F samples).toNat) (atLine 117 (s.Sample E r samples depth rnd).log) ∧
      (atLine 116 (s.Sample E r samples depth rnd).log).length =
        (gridSize F samples).toNat * (gridSize F samples).toNat ∧
      (atLine 117 (s.Sample E r samples depth rnd).log).length =
        (gridSize F samples).toNat * (gridSize F samples).toNat ∧
      (SqrtLaws F → ∀ k : Nat, 1 ≤ k → (k : Int) * (k : Int) < 2 ^ 63 →
        samples = (k : Int) * (k : Int) →
        gridSize F samples = (k : Int) ∧
          (atLine 116 (s.Sample E r samples depth rnd).log).length = k * k ∧
          (atLine 117 (s.Sample E r samples depth rnd).log).length = k * k) ∧
      (JitterLaws F →
        (∀ g : G, Float64.lt (E.Float64 g).1 Float64.zero = false ∧
          Float64.lt (E.Float64 g).1 Float64.one = true) →
        List.Forall₂ (InCell (gridSize F samples)) (cells (gridSize F samples).toNat)
          (atLine 116 (s.Sample E r samples depth rnd).log)) := by
  have hcells : cells (gridSize F samples).toNat =
      List.range (gridSize F samples).toNat ×ˢ List.range (gridSize F samples).toNat :=
    rfl
  have hlen := cells_length (gridSize F samples).toNat
  have hb := Sample_bounce_cells E s r samples depth rnd hd hhit
    (fun cell e => ∃ g : G,
      e = Scene.cellBounce E (gridSize F samples) g (cell.1 : Int) (cell.2 : Int))
    (fun g _ _ => ⟨g, rfl⟩)
  have h117 := Sample_recursive_cells E s r samples depth rnd hd hhit
  have h116len : (atLine 116 (s.Sample E r samples depth rnd).log).length =
      (gridSize F samples).toNat * (gridSize F samples).toNat := by
    rw [← hb.length_eq, hlen]
  have h117len : (atLine 117 (s.Sample E r samples depth rnd).log).length =
      (gridSize F samples).toNat * (gridSize F samples).toNat := by
    rw [← h117.length_eq, hlen]
  refine ⟨⟨hlen, ?_, ?_⟩, hb, h117, h116len, h117len, ?_, ?_⟩
  · rw [hcells]
    exact List.Nodup.product (List.nodup_range _) (List.nodup_range _)
  · intro u v
    rw [hcells, List.mem_product, List.mem_range, List.mem_range]
  · intro hlaws k _ hk2 hsamples
    have hn : gridSize F samples = (k : Int) := by
      rw [hsamples]
      exact hlaws.square (k : Int) (Int.natCast_nonneg k) hk2
    have hk : (gridSize F samples).toNat = k := by
      rw [hn]
      exact Int.toNat_natCast k
    rw [h116len, h117len, hk]
    exact ⟨hn, rfl, rfl⟩
  · intro hlaws hdraw
    by_cases hn : 1 ≤ gridSize F samples
    · exact Sample_bounce_cells E s r samples depth rnd hd hhit _
        (fun g u v => cellBounce_inCell E hlaws hdraw _ hn g u v)
    · have h0 : (gridSize F samples).toNat = 0 := by omega
      have hnil : cells (gridSize F samples).toNat = [] := by
        rw [h0]
        rfl
      have hlen0 : (atLine 116 (s.Sample E r samples depth rnd).log).length = 0 := by
        rw [h116len, h0]
      rw [hnil, List.length_eq_zero.mp hlen0]
      exact List.Forall₂.nil

/-- Witness of C8 amended: the mirror scene, `samples = 4`, depth 1; every draw of the line
world is 1/2, and the concrete floats satisfy the laws. -/
theorem Sample_stratified_witness :
    (0 : Int) ≤ 1 ∧ (Line.mirrorScene.IntersectShapes Line.world ⟨0, 1⟩).2 = true ∧
      SqrtLaws XFloat ∧ JitterLaws XFloat ∧
      (∀ g : Nat, Float64.lt (Line.world.Float64 g).1 Float64.zero = false ∧
        Float64.lt (Line.world.Float64 g).1 Float64.one = true) ∧
      (atLine 116 (Line.mirrorScene.Sample Line.world ⟨0, 1⟩ 4 1 0).log).length = 2 * 2 ∧
      List.Forall₂ (InCell (gridSize XFloat 4)) (cells (gridSize XFloat 4).toNat)
        (atLine 116 (Line.mirrorScene.Sample Line.world ⟨0, 1⟩ 4 1 0).log) :=
  have hdraw : ∀ g : Nat, Float64.lt (Line.world.Float64 g).1 Float64.zero = false ∧
      Float64.lt (Line.world.Float64 g).1 Float64.one = true :=
    fun _ => ⟨by norm_num [Line.world, Float64.lt, Float64.zero, XFloat.lt],
      by norm_num [Line.world, Float64.lt, Float64.one, XFloat.lt]⟩
  have h := Sample_stratified Line.world Line.mirrorScene ⟨0, 1⟩ 4 1 0 (by decide) (by decide)
  ⟨by decide, by decide, XFloat_sqrtLaws, XFloat_jitterLaws, hdraw,
    (h.2.2.2.2.2.1 XFloat_sqrtLaws 2 (by decide) (by norm_num) (by norm_num)).2.1,
    h.2.2.2.2.2.2 XFloat_jitterLaws hdraw⟩

/-- C14. `AddShape(x)` appends `x` at the end of the shape collection, keeping what was
there in order, and leaves the lights and both trees as they are; `AddLight(x)` does the
same for the light collection and leaves the shapes and both trees as they are.  So a shape
added with `AddLight` only is not in the index `IntersectShapes` and `Shadow` consult,
neither before nor after `Compile`. -/
theorem AddShape_AddLight_frame (E : Collab F V G M T) (s : Scene F V G M T)
    (x : Shape F V G M) :
    ((s.AddShape x).shapes = s.shapes ++ [x] ∧
        (s.AddShape x).shapes.length = s.shapes.length + 1 ∧
        (s.AddShape x).lights = s.lights ∧ (s.AddShape x).shapeTree = s.shapeTree ∧
        (s.AddShape x).lightTree = s.lightTree) ∧
      ((s.AddLight x).lights = s.lights ++ [x] ∧
        (s.AddLight x).lights.length = s.lights.length + 1 ∧
        (s.AddLight x).shapes = s.shapes ∧ (s.AddLight x).shapeTree = s.shapeTree ∧
        (s.AddLight x).lightTree = s.lightTree) ∧
      (∀ r, (s.AddLight x).IntersectShapes E r = s.IntersectShapes E r) ∧
      (∀ r max, (s.AddLight x).Shadow E r max = s.Shadow E r max) ∧
      ((s.AddLight x).Compile E).shapeTree = (s.Compile E).shapeTree ∧
      (∀ r, ((s.AddLight x).Compile E).IntersectShapes E r = (s.Compile E).IntersectShapes E r) ∧
      (∀ r max, ((s.AddLight x).Compile E).Shadow E r max = (s.Compile E).Shadow E r max) := by
  refine ⟨⟨rfl, ?_, rfl, rfl, rfl⟩, ⟨rfl, ?_, rfl, rfl, rfl⟩, fun _ => rfl, fun _ _ => rfl, rfl,
    fun _ => rfl, fun _ _ => rfl⟩
  · simp [Scene.AddShape]
  · simp [Scene.AddLight]

/-- `DirectLight` calls `RandomPoint` and `Shadow` only. -/
theorem DirectLight_no_Bounce (E : Collab F V G M T) (s : Scene F V G M T) (i n : Ray V)
    (rnd : G) : (s.DirectLight E i n rnd).log.countP Event.isBounce = 0 := by
  have key : ∀ (lights : List (Shape F V G M)) (st : Out F G (Color F)),
      st.log.countP Event.isBounce = 0 →
        (lights.foldl (s.DirectLightStep E n) st).log.countP Event.isBounce = 0 := by
    intro lights
    induction lights with
    | nil => exact fun st h => h
    | cons light rest ih =>
      intro st h
      rw [List.foldl_cons]
      apply ih
      rw [DirectLightStep_log, List.countP_append, h]
      rfl
  exact key s.lights ⟨Color.zero, rnd, []⟩ rfl

/-- The combine step calls `Bounce` no more than the recursive call did. -/
theorem Combine_Bounce_count (E : Collab F V G M T) (s : Scene F V G M T) (line : Nat)
    (r : Ray V) (hit : Hit F V G M) (color : Color F) (material : M) (reflected : Bool)
    (ind : Out F G (Color F)) :
    (s.Combine E line r hit color material reflected ind).log.countP Event.isBounce =
      ind.log.countP Event.isBounce := by
  unfold Scene.Combine
  cases reflected with
  | true =>
    by_cases ht : Float64.lt Float64.zero (E.Tint material) = true
    · simp [ht]
    · simp [ht]
  | false =>
    simp only [Bool.false_eq_true, if_false, List.countP_append, List.countP_cons,
      DirectLight_no_Bounce]
    simp [Event.isBounce]

/-- A call of `RecursiveSample` with the budget `depth` calls `Bounce` at most `depth + 1`
times, and not at all when `depth < 0`. -/
theorem RecursiveSample_Bounce_count (E : Collab F V G M T) (s : Scene F V G M T)
    (depth : Int) :
    ∀ (r : Ray V) (reflected : Bool) (rnd : G),
      (s.RecursiveSample E r reflected depth rnd).log.countP Event.isBounce ≤
        (depth + 1).toNat := by
  induction depth using depth_induction with
  | hneg d hd =>
    intro r reflected rnd
    rw [RecursiveSample_neg E s r reflected d rnd hd]
    simp
  | hstep d hd ih =>
    intro r reflected rnd
    rw [RecursiveSample_nonneg E s r reflected d rnd hd]
    by_cases h1 : (reflected && (s.IntersectLights E r).2) = true
    · rw [if_pos h1]
      simp [Event.isBounce]
    · rw [if_neg h1]
      by_cases h2 : (!(s.IntersectShapes E r).2) = true
      · rw [if_pos h2]
        cases reflected <;> simp [Event.isBounce]
      · rw [if_neg h2]
        simp only [List.countP_append, Combine_Bounce_count]
        have hi := ih ((E.Bounce (s.IntersectShapes E r).1.Ray r
          ((s.IntersectShapes E r).1.Shape.Material (s.IntersectShapes E r).1.Ray.Origin)
          (E.Float64 rnd).1 (E.Float64 (E.Float64 rnd).2).1
          (E.Float64 (E.Float64 (E.Float64 rnd).2).2).1).1)
          ((E.Bounce (s.IntersectShapes E r).1.Ray r
          ((s.IntersectShapes E r).1.Shape.Material (s.IntersectShapes E r).1.Ray.Origin)
          (E.Float64 rnd).1 (E.Float64 (E.Float64 rnd).2).1
          (E.Float64 (E.Float64 (E.Float64 rnd).2).2).1).2)
          (E.Float64 (E.Float64 (E.Float64 rnd).2).2).2
        have hpre : (if reflected = true then [Event.intersectLights 69] else
            ([] : List (Event F))).countP Event.isBounce = 0 := by
          cases reflected <;> simp [Event.isBounce]
        rw [hpre]
        simp only [List.countP_cons, List.countP_nil, Event.isBounce]
        simp only [Bool.false_eq_true, if_false, if_true]
        have hd2 : (d - 1 + 1).toNat + 1 = (d + 1).toNat := by omega
        omega

/-- No call made by `DirectLight` is a call of `RecursiveSample`. -/
theorem DirectLight_no_call (E : Collab F V G M T) (s : Scene F V G M T) (i n : Ray V)
    (rnd : G) : ∀ e ∈ (s.DirectLight E i n rnd).log, e.callDepth = none := by
  have key : ∀ (lights : List (Shape F V G M)) (st : Out F G (Color F)),
      (∀ e ∈ st.log, e.callDepth = none) →
        ∀ e ∈ (lights.foldl (s.DirectLightStep E n) st).log, e.callDepth = none := by
    intro lights
    induction lights with
    | nil => exact fun st h => h
    | cons light rest ih =>
      intro st h
      rw [List.foldl_cons]
      apply ih
      rw [DirectLightStep_log]
      intro e he
      rcases List.mem_append.mp he with h1 | h1
      · exact h e h1
      · simp only [List.mem_cons, List.mem_singleton, List.not_mem_nil, or_false] at h1
        rcases h1 with h1 | h1 <;> rw [h1] <;> rfl
  exact key s.lights ⟨Color.zero, rnd, []⟩ (by simp)

/-- Every recursive call made under `RecursiveSample` with the budget `depth` passes a
budget that is smaller than `depth` and at least -1. -/
theorem RecursiveSample_call_depths (E : Collab F V G M T) (s : Scene F V G M T)
    (depth : Int) :
    ∀ (r : Ray V) (reflected : Bool) (rnd : G),
      ∀ e ∈ (s.RecursiveSample E r reflected depth rnd).log, ∀ d : Int,
        e.callDepth = some d → -1 ≤ d ∧ d < depth := by
  induction depth using depth_induction with
  | hneg d hd =>
    intro r reflected rnd
    rw [RecursiveSample_neg E s r reflected d rnd hd]
    simp
  | hstep d hd ih =>
    intro r reflected rnd
    rw [RecursiveSample_nonneg E s r reflected d rnd hd]
    by_cases h1 : (reflected && (s.IntersectLights E r).2) = true
    · rw [if_pos h1]
      simp [Event.callDepth]
    · rw [if_neg h1]
      by_cases h2 : (!(s.IntersectShapes E r).2) = true
      · rw [if_pos h2]
        cases reflected <;> simp [Event.callDepth]
      · rw [if_neg h2]
        intro e he dd hdd
        simp only [List.mem_append] at he
        rcases he with (h | h) | h
        · cases reflected
          · simp at h
          · simp at h
            rw [h] at hdd
            simp [Event.callDepth] at hdd
        · simp only [List.mem_cons, List.mem_singleton, List.not_mem_nil, or_false] at h
          rcases h with h | h | h | h | h | h
          all_goals rw [h] at hdd
          all_goals first
            | (simp [Event.callDepth] at hdd; done)
            | (simp [Event.callDepth] at hdd; omega)
        · unfold Scene.Combine at h
          split at h
          · split at h
            · have := ih _ _ _ e h dd hdd
              omega
            · have := ih _ _ _ e h dd hdd
              omega
          · simp only [List.mem_append, List.mem_cons] at h
            rcases h with h | h | h
            · have := ih _ _ _ e h dd hdd
              omega
            · rw [h] at hdd
              simp [Event.callDepth] at hdd
            · have := DirectLight_no_call E s _ _ _ e h
              rw [this] at hdd
              cases hdd

/-- The body of the loop of `Sample` calls `Bounce` at most `depth + 1` times. -/
theorem SampleCell_Bounce_count (E : Collab F V G M T) (s : Scene F V G M T) (r : Ray V)
    (hit : Hit F V G M) (color : Color F) (material : M) (n depth : Int) (hd : 0 ≤ depth)
    (st : Out F G (Color F)) (u v : Int) :
    (s.SampleCell E r hit color material n depth st u v).log.countP Event.isBounce ≤
      st.log.countP Event.isBounce + (depth + 1).toNat := by
  unfold Scene.SampleCell
  simp only [List.countP_append, Combine_Bounce_count, List.countP_cons, List.countP_nil,
    Event.isBounce, Bool.false_eq_true, if_false, if_true]
  have hi := RecursiveSample_Bounce_count E s (depth - 1)
    (E.Bounce hit.Ray r material (E.Float64 st.rnd).1
      (Float64.mul (Float64.add (Float64.ofInt u) (E.Float64 (E.Float64 st.rnd).2).1)
        (Float64.div Float64.one (Float64.ofInt n)))
      (Float64.mul (Float64.add (Float64.ofInt v)
        (E.Float64 (E.Float64 (E.Float64 st.rnd).2).2).1)
        (Float64.div Float64.one (Float64.ofInt n)))).1
    (E.Bounce hit.Ray r material (E.Float64 st.rnd).1
      (Float64.mul (Float64.add (Float64.ofInt u) (E.Float64 (E.Float64 st.rnd).2).1)
        (Float64.div Float64.one (Float64.ofInt n)))
      (Float64.mul (Float64.add (Float64.ofInt v)
        (E.Float64 (E.Float64 (E.Float64 st.rnd).2).2).1)
        (Float64.div Float64.one (Float64.ofInt n)))).2
    (E.Float64 (E.Float64 (E.Float64 st.rnd).2).2).2
  have hd2 : (depth - 1 + 1).toNat + 1 = (depth + 1).toNat := by omega
  omega

omit [Float64 F] in
/-- Two nested loops whose body adds at most `K` calls of `Bounce` add at most `K` per pair
of indices. -/
theorem loops_Bounce_count (body : Out F G (Color F) → Nat → Nat → Out F G (Color F))
    (K : Nat)
    (hbody : ∀ st u v, (body st u v).log.countP Event.isBounce ≤
      st.log.countP Event.isBounce + K)
    (vs : List Nat) :
    ∀ (us : List Nat) (st : Out F G (Color F)),
      (us.foldl (fun st u => vs.foldl (fun st v => body st u v) st) st).log.countP
          Event.isBounce ≤
        st.log.countP Event.isBounce + us.length * vs.length * K := by
  have inner : ∀ (u : Nat) (ws : List Nat) (st : Out F G (Color F)),
      (ws.foldl (fun st v => body st u v) st).log.countP Event.isBounce ≤
        st.log.countP Event.isBounce + ws.length * K := by
    intro u ws
    induction ws with
    | nil => exact fun st => by simp
    | cons v rest ih =>
      intro st
      rw [List.foldl_cons, List.length_cons]
      have h1 := ih (body st u v)
      have h2 := hbody st u v
      have h3 : (rest.length + 1) * K = rest.length * K + K := by ring
      omega
  intro us
  induction us with
  | nil => exact fun st => by simp
  | cons u rest ih =>
    intro st
    rw [List.foldl_cons, List.length_cons]
    have h1 := ih (vs.foldl (fun st v => body st u v) st)
    have h2 := inner u vs st
    have h3 : (rest.length + 1) * vs.length * K = rest.length * vs.length * K +
        vs.length * K := by ring
    omega

/-- C12. `RecursiveSample` is a total function of the integer depth: its recursion is on
`depth + 1`, every recursive call made under a call with the budget `depth` passes a smaller
budget (never below -1), and a negative budget returns at once without any call.  So a call
with the budget `depth` calls `Bounce` at most `depth + 1` times (never, when `depth < 0`),
and `Sample`, whose grid is `n` by `n`, calls it at most `n * n * (depth + 1)` times. -/
theorem Bounce_calls_bounded (E : Collab F V G M T) (s : Scene F V G M T) (r : Ray V)
    (reflected : Bool) (samples depth : Int) (rnd : G) :
    (s.RecursiveSample E r reflected depth rnd).log.countP Event.isBounce ≤ (depth + 1).toNat ∧
      (depth < 0 → s.RecursiveSample E r reflected depth rnd = ⟨Color.zero, rnd, []⟩) ∧
      (∀ e ∈ (s.RecursiveSample E r reflected depth rnd).log, ∀ d : Int,
        e.callDepth = some d → -1 ≤ d ∧ d < depth) ∧
      (s.Sample E r samples depth rnd).log.countP Event.isBounce ≤
        (Float64.toInt (Float64.sqrt (Float64.ofInt samples : F))).toNat *
          (Float64.toInt (Float64.sqrt (Float64.ofInt samples : F))).toNat *
          (depth + 1).toNat := by
  refine ⟨RecursiveSample_Bounce_count E s depth r reflected rnd,
    RecursiveSample_neg E s r reflected depth rnd,
    RecursiveSample_call_depths E s depth r reflected rnd, ?_⟩
  unfold Scene.Sample
  by_cases hd : depth < 0
  · rw [if_pos hd]
    simp
  · rw [if_neg hd]
    by_cases hhit : (!(s.IntersectShapes E r).2) = true
    · rw [if_pos hhit]
      simp [Event.isBounce]
    · rw [if_neg hhit]
      simp only [List.countP_cons, Event.isBounce, Bool.false_eq_true, if_false, add_zero]
      unfold Scene.SampleLoop
      have h := loops_Bounce_count
        (fun st u v => s.SampleCell E r (s.IntersectShapes E r).1
          ((s.IntersectShapes E r).1.Shape.Color (s.IntersectShapes E r).1.Ray.Origin)
          ((s.IntersectShapes E r).1.Shape.Material (s.IntersectShapes E r).1.Ray.Origin)
          (Float64.toInt (Float64.sqrt (Float64.ofInt samples : F))) depth st (u : Int) (v : Int))
        (depth + 1).toNat
        (fun st u v => SampleCell_Bounce_count E s r _ _ _ _ depth (not_lt.mp hd) st u v)
        (List.range (Float64.toInt (Float64.sqrt (Float64.ofInt samples : F))).toNat)
        (List.range (Float64.toInt (Float64.sqrt (Float64.ofInt samples : F))).toNat)
        ⟨Color.zero, rnd, []⟩
      simpa [List.length_range] using h

/-- Witness of C12: the mirror scene with the budget -1. -/
theorem Bounce_calls_bounded_witness :
    ((-1 : Int) < 0) ∧
      Line.mirrorScene.RecursiveSample Line.world ⟨0, 1⟩ false (-1) 3 = ⟨Color.zero, 3, []⟩ :=
  ⟨by decide,
    (Bounce_calls_bounded Line.world Line.mirrorScene ⟨0, 1⟩ false 4 (-1) 3).2.1 (by decide)⟩

/-- The combine step does not depend on the line of its `DirectLight` call, but for the tag
of that call. -/
theorem Combine_line (E : Collab F V G M T) (s : Scene F V G M T) (l1 l2 : Nat) (r : Ray V)
    (hit : Hit F V G M) (color : Color F) (material : M) (reflected : Bool)
    (ind : Out F G (Color F)) :
    (s.Combine E l1 r hit color material reflected ind).val =
        (s.Combine E l2 r hit color material reflected ind).val ∧
      (s.Combine E l1 r hit color material reflected ind).rnd =
        (s.Combine E l2 r hit color material reflected ind).rnd ∧
      draws (s.Combine E l1 r hit color material reflected ind).log =
        draws (s.Combine E l2 r hit color material reflected ind).log := by
  unfold Scene.Combine draws
  cases reflected with
  | true =>
    by_cases ht : Float64.lt Float64.zero (E.Tint material) = true
    · simp [ht]
    · simp [ht]
  | false => simp [List.filterMap_append, Event.draw]

/-- The loops of `Sample` on the grid of one cell: one bounce with the three numbers as
drawn, when `0 + x = x`, `1 / 1 = 1` and `x * 1 = x`. -/
theorem SampleLoop_one (E : Collab F V G M T) (s : Scene F V G M T) (r : Ray V)
    (hit : Hit F V G M) (color : Color F) (material : M) (depth : Int) (rnd : G)
    (hadd0 : ∀ x : F, Float64.add (Float64.ofInt 0) x = x)
    (hinv : Float64.div (Float64.one : F) (Float64.ofInt 1) = Float64.one)
    (hmul1 : ∀ x : F, Float64.mul x Float64.one = x) :
    s.SampleLoop E r hit color material 1 depth rnd =
      ⟨Color.zero.Add (s.Combine E 127 r hit color material
          (E.Bounce hit.Ray r material (E.Float64 rnd).1 (E.Float64 (E.Float64 rnd).2).1
            (E.Float64 (E.Float64 (E.Float64 rnd).2).2).1).2
          (s.RecursiveSample E
            (E.Bounce hit.Ray r material (E.Float64 rnd).1 (E.Float64 (E.Float64 rnd).2).1
              (E.Float64 (E.Float64 (E.Float64 rnd).2).2).1).1
            (E.Bounce hit.Ray r material (E.Float64 rnd).1 (E.Float64 (E.Float64 rnd).2).1
              (E.Float64 (E.Float64 (E.Float64 rnd).2).2).1).2 (depth - 1)
            (E.Float64 (E.Float64 (E.Float64 rnd).2).2).2)).val,
        (s.Combine E 127 r hit color material
          (E.Bounce hit.Ray r material (E.Float64 rnd).1 (E.Float64 (E.Float64 rnd).2).1
            (E.Float64 (E.Float64 (E.Float64 rnd).2).2).1).2
          (s.RecursiveSample E
            (E.Bounce hit.Ray r material (E.Float64 rnd).1 (E.Float64 (E.Float64 rnd).2).1
              (E.Float64 (E.Float64 (E.Float64 rnd).2).2).1).1
            (E.Bounce hit.Ray r material (E.Float64 rnd).1 (E.Float64 (E.Float64 rnd).2).1
              (E.Float64 (E.Float64 (E.Float64 rnd).2).2).1).2 (depth - 1)
            (E.Float64 (E.Float64 (E.Float64 rnd).2).2).2)).rnd,
        [Event.float64 113, Event.float64 114, Event.float64 115,
          Event.bounce 116 (E.Float64 rnd).1 (E.Float64 (E.Float64 rnd).2).1
            (E.Float64 (E.Float64 (E.Float64 rnd).2).2).1,
          Event.recursiveSample 117 (depth - 1)] ++
        (s.Combine E 127 r hit color material
          (E.Bounce hit.Ray r material (E.Float64 rnd).1 (E.Float64 (E.Float64 rnd).2).1
            (E.Float64 (E.Float64 (E.Float64 rnd).2).2).1).2
          (s.RecursiveSample E
            (E.Bounce hit.Ray r material (E.Float64 rnd).1 (E.Float64 (E.Float64 rnd).2).1
              (E.Float64 (E.Float64 (E.Float64 rnd).2).2).1).1
            (E.Bounce hit.Ray r material (E.Float64 rnd).1 (E.Float64 (E.Float64 rnd).2).1
              (E.Float64 (E.Float64 (E.Float64 rnd).2).2).1).2 (depth - 1)
            (E.Float64 (E.Float64 (E.Float64 rnd).2).2).2)).log⟩ := by
  have h1 : s.SampleLoop E r hit color material 1 depth rnd =
      s.SampleCell E r hit color material 1 depth ⟨Color.zero, rnd, []⟩ 0 0 := rfl
  rw [h1]
  unfold Scene.SampleCell
  simp only [hadd0, hinv, hmul1, List.nil_append]

/-- C15. For `samples` in {1, 2, 3}, where `int(math.Sqrt(float64(samples)))` is the integer
square root 1, and `depth >= 0`: `Sample(r, samples, depth, rnd)` returns the color that
`RecursiveSample(r, false, depth, rnd)` returns, leaves the generator in the same state and
takes the same draws in the same order, provided the float identities `0 + x = x`,
`1 / 1 = 1`, `x * 1 = x` and `x / 1 = x` hold. -/
theorem Sample_single_stratum (E : Collab F V G M T) (s : Scene F V G M T) (r : Ray V)
    (samples depth : Int) (rnd : G) (hd : 0 ≤ depth)
    (hsamples : samples = 1 ∨ samples = 2 ∨ samples = 3)
    (hsqrt : Float64.toInt (Float64.sqrt (Float64.ofInt samples : F)) =
      (Nat.sqrt samples.toNat : Int))
    (hadd0 : ∀ x : F, Float64.add (Float64.ofInt 0) x = x)
    (hinv : Float64.div (Float64.one : F) (Float64.ofInt 1) = Float64.one)
    (hmul1 : ∀ x : F, Float64.mul x Float64.one = x)
    (hzadd : ∀ x : F, Float64.add Float64.zero x = x)
    (hdiv1 : ∀ x : F, Float64.div x (Float64.ofInt 1) = x) :
    (s.Sample E r samples depth rnd).val = (s.RecursiveSample E r false depth rnd).val ∧
      (s.Sample E r samples depth rnd).rnd = (s.RecursiveSample E r false depth rnd).rnd ∧
      draws (s.Sample E r samples depth rnd).log =
        draws (s.RecursiveSample E r false depth rnd).log := by
  have hn : Nat.sqrt samples.toNat = 1 := by
    rcases hsamples with h | h | h <;> rw [h] <;>
      exact (Nat.eq_sqrt.mpr ⟨by norm_num, by norm_num⟩).symm
  rw [hn] at hsqrt
  have hw : wrapInt64 (1 * 1) = 1 := by
    unfold wrapInt64
    omega
  have hzc : ∀ c : Color F, (Color.zero.Add c).Div (Float64.ofInt 1) = c := by
    intro c
    cases c
    simp [Color.Add, Color.Div, Color.zero, hzadd, hdiv1]
  unfold Scene.Sample
  rw [if_neg (not_lt.mpr hd), RecursiveSample_nonneg E s r false depth rnd hd]
  by_cases hhit : (!(s.IntersectShapes E r).2) = true
  · simp [hhit, draws, Event.draw]
  · have hc := Combine_line E s 127 93 r (s.IntersectShapes E r).1
      ((s.IntersectShapes E r).1.Shape.Color (s.IntersectShapes E r).1.Ray.Origin)
      ((s.IntersectShapes E r).1.Shape.Material (s.IntersectShapes E r).1.Ray.Origin)
      (E.Bounce (s.IntersectShapes E r).1.Ray r
        ((s.IntersectShapes E r).1.Shape.Material (s.IntersectShapes E r).1.Ray.Origin)
        (E.Float64 rnd).1 (E.Float64 (E.Float64 rnd).2).1
        (E.Float64 (E.Float64 (E.Float64 rnd).2).2).1).2
      (s.RecursiveSample E (E.Bounce (s.IntersectShapes E r).1.Ray r
        ((s.IntersectShapes E r).1.Shape.Material (s.IntersectShapes E r).1.Ray.Origin)
        (E.Float64 rnd).1 (E.Float64 (E.Float64 rnd).2).1
        (E.Float64 (E.Float64 (E.Float64 rnd).2).2).1).1
        (E.Bounce (s.IntersectShapes E r).1.Ray r
        ((s.IntersectShapes E r).1.Shape.Material (s.IntersectShapes E r).1.Ray.Origin)
        (E.Float64 rnd).1 (E.Float64 (E.Float64 rnd).2).1
        (E.Float64 (E.Float64 (E.Float64 rnd).2).2).1).2 (depth - 1)
        (E.Float64 (E.Float64 (E.Float64 rnd).2).2).2)
    have hcast : ((1 : Nat) : Int) = 1 := rfl
    simp only [hhit, Bool.false_and, Bool.false_eq_true, if_false, hsqrt, hcast, hw,
      SampleLoop_one E s r _ _ _ depth rnd hadd0 hinv hmul1, List.nil_append]
    refine ⟨?_, hc.2.1, ?_⟩
    · rw [hzc, hc.1]
    · unfold draws at hc ⊢
      simp only [List.filterMap_cons, List.filterMap_append, Event.draw, List.filterMap_nil,
        List.cons_append, List.nil_append]
      rw [hc.2.2]

/-- Witness of C15: the mirror scene with `samples = 3` and depth 2; the concrete floats
satisfy the five identities. -/
theorem Sample_single_stratum_witness :
    ((0 : Int) ≤ 2) ∧ ((3 : Int) = 1 ∨ (3 : Int) = 2 ∨ (3 : Int) = 3) ∧
      Float64.toInt (Float64.sqrt (Float64.ofInt 3 : XFloat)) = (Nat.sqrt (3 : Int).toNat : Int) ∧
      (∀ x : XFloat, Float64.add (Float64.ofInt 0) x = x) ∧
      Float64.div (Float64.one : XFloat) (Float64.ofInt 1) = Float64.one ∧
      (∀ x : XFloat, Float64.mul x Float64.one = x) ∧
      (∀ x : XFloat, Float64.add Float64.zero x = x) ∧
      (∀ x : XFloat, Float64.div x (Float64.ofInt 1) = x) ∧
      (Line.mirrorScene.Sample Line.world ⟨0, 1⟩ 3 2 0).val =
        (Line.mirrorScene.RecursiveSample Line.world ⟨0, 1⟩ false 2 0).val :=
  have h3 : Nat.sqrt 3 = 1 := (Nat.eq_sqrt.mpr ⟨by norm_num, by norm_num⟩).symm
  have hg : gridSize XFloat 3 = 1 := by
    rw [gridSize_XFloat _ (by norm_num)]
    have h : XFloat.sqrtRound ((3 : Int) : ℚ) = 3900231685776981 / 2251799813685248 := by
      rw [sqrtRound_eq _ 0 7800463371553962 7800463371553962 (by norm_num) (by norm_num)
        (by norm_num) (by norm_num) (by norm_num)]
      norm_num
    rw [h]
    exact toInt_fin _ _ (by norm_num) (by norm_num) (by norm_num) (by norm_num)
  have hq : Float64.toInt (Float64.sqrt (Float64.ofInt 3 : XFloat)) =
      (Nat.sqrt (3 : Int).toNat : Int) := by
    have h : ((Nat.sqrt (3 : Int).toNat : Nat) : Int) = 1 := by
      have h1 : (3 : Int).toNat = 3 := rfl
      rw [h1, h3]
      rfl
    rw [h, ← gridSize_eq XFloat 3]
    exact hg
  have hadd0 : ∀ x : XFloat, Float64.add (Float64.ofInt 0) x = x := fun x => by
    cases x <;> simp [Float64.add, Float64.ofInt, XFloat.add]
  have hinv : Float64.div (Float64.one : XFloat) (Float64.ofInt 1) = Float64.one := by
    simp [Float64.div, Float64.one, Float64.ofInt, XFloat.div]
  have hmul1 : ∀ x : XFloat, Float64.mul x Float64.one = x := fun x => by
    cases x <;> simp [Float64.mul, Float64.one, XFloat.mul, XFloat.inf]
  have hzadd : ∀ x : XFloat, Float64.add Float64.zero x = x := fun x => by
    cases x <;> simp [Float64.add, Float64.zero, XFloat.add]
  have hdiv1 : ∀ x : XFloat, Float64.div x (Float64.ofInt 1) = x := fun x => by
    cases x <;> simp [Float64.div, Float64.ofInt, XFloat.div, XFloat.inf]
  ⟨by decide, by decide, hq, hadd0, hinv, hmul1, hzadd, hdiv1,
    (Sample_single_stratum Line.world Line.mirrorScene ⟨0, 1⟩ 3 2 0 (by decide) (by decide) hq
      hadd0 hinv hmul1 hzadd hdiv1).1⟩

/-- `Sample` on a primary hit, with the grid size `n` of line 110: the color accumulated by
the two loops divided by `float64(n * n)`, the product taken in `int`. -/
theorem Sample_hit (E : Collab F V G M T) (s : Scene F V G M T) (r : Ray V)
    (samples depth : Int) (rnd : G) (hd : 0 ≤ depth)
    (hhit : (s.IntersectShapes E r).2 = true) :
    s.Sample E r samples depth rnd =
      ⟨(s.SampleLoop E r (s.IntersectShapes E r).1
          ((s.IntersectShapes E r).1.Shape.Color (s.IntersectShapes E r).1.Ray.Origin)
          ((s.IntersectShapes E r).1.Shape.Material (s.IntersectShapes E r).1.Ray.Origin)
          (gridSize F samples) depth rnd).val.Div
          (Float64.ofInt (wrapInt64 (gridSize F samples * gridSize F samples))),
        (s.SampleLoop E r (s.IntersectShapes E r).1
          ((s.IntersectShapes E r).1.Shape.Color (s.IntersectShapes E r).1.Ray.Origin)
          ((s.IntersectShapes E r).1.Shape.Material (s.IntersectShapes E r).1.Ray.Origin)
          (gridSize F samples) depth rnd).rnd,
        Event.intersectShapes 102 ::
          (s.SampleLoop E r (s.IntersectShapes E r).1
            ((s.IntersectShapes E r).1.Shape.Color (s.IntersectShapes E r).1.Ray.Origin)
            ((s.IntersectShapes E r).1.Shape.Material (s.IntersectShapes E r).1.Ray.Origin)
            (gridSize F samples) depth rnd).log⟩ := by
  unfold Scene.Sample gridSize
  rw [if_neg (not_lt.mpr hd)]
  simp only [hhit, Bool.not_true, Bool.false_eq_true, if_false]

/-- With the laws of the combine step at a zero, the blend at the tint 0 is the indirect
value when no channel of the color and of the indirect value is infinite or NaN:
`c * (I * 0) + I * (1 - 0) = I`. -/
theorem blend_zero_tint (fin : F → Prop) (hlaws : ZeroLaws fin) (c ind : Color F)
    (hc : c.All fin) (hi : ind.All fin) : blend c ind Float64.zero = ind := by
  have key : ∀ x y : F, fin x → fin y →
      Float64.add (Float64.mul x (Float64.mul y Float64.zero))
        (Float64.mul y (Float64.sub Float64.one Float64.zero)) = y := by
    intro x y hx hy
    rw [hlaws.mul_zero y hy, hlaws.mul_zero x hx, hlaws.one_sub_zero, hlaws.mul_one,
      hlaws.zero_add]
  obtain ⟨cr, cg, cb⟩ := c
  obtain ⟨ir, ig, ib⟩ := ind
  simp only [blend, Color.Add, Color.Mul, Color.MulColor]
  rw [key cr ir hc.1 hi.1, key cg ig hc.2.1 hi.2.1, key cb ib hc.2.2 hi.2.2]

/-- C11, as stated, fails at the tint 0 when the indirect value is infinite.  In the glare
scene (a mirror of level 1 and tint 0, a light whose color is `+Inf`) with depth 1, the ray
from 0 hits the mirror, the bounce is reported as reflected and the recursive call returns
the light: `I = +Inf`.  The branch for tint 0 returns `I = +Inf`, where the blend
`c * (I * 0) + I * (1 - 0)` is NaN, since `Inf * 0` is. -/
theorem blend_at_tint_zero_is_NaN :
    ((0 : Int) ≤ 1) ∧
      (false && (Line.glareScene.IntersectLights Line.world ⟨0, 1⟩).2) = false ∧
      (Line.glareScene.IntersectShapes Line.world ⟨0, 1⟩).2 = true ∧
      Line.world.Tint ((Line.glareScene.IntersectShapes Line.world ⟨0, 1⟩).1.Shape.Material
        (Line.glareScene.IntersectShapes Line.world ⟨0, 1⟩).1.Ray.Origin) = XFloat.fin 0 ∧
      (Line.glareScene.IntersectShapes Line.world ⟨0, 1⟩).1.Shape.Color
        (Line.glareScene.IntersectShapes Line.world ⟨0, 1⟩).1.Ray.Origin = Line.gray 1 ∧
      (Line.glareScene.nextBounce Line.world ⟨0, 1⟩ 0).1.2 = true ∧
      (Line.glareScene.indirect Line.world ⟨0, 1⟩ 1 0).val = Line.glare ∧
      (Line.glareScene.RecursiveSample Line.world ⟨0, 1⟩ false 1 0).val = Line.glare ∧
      blend (Line.gray 1) Line.glare (XFloat.fin 0) =
        ⟨XFloat.nan, XFloat.nan, XFloat.nan⟩ := by
  refine ⟨by decide, by decide, by decide, by decide, by decide, by decide, ?_, ?_, ?_⟩
  · unfold Scene.indirect
    simp only [RecursiveSample_nonneg, le_refl, Int.reduceSub]
    decide
  · simp only [RecursiveSample_nonneg, RecursiveSample_neg, le_refl, Int.reduceSub,
      Int.reduceNeg, Int.reduceLT, zero_le_one]
    decide
  · simp [blend, Line.gray, Line.glare, Color.Add, Color.Mul, Color.MulColor, Float64.add,
      Float64.mul, Float64.sub, Float64.one, XFloat.add, XFloat.mul, XFloat.neg, XFloat.inf]

/-- C11, amended. For `depth >= 0`, when the light shortcut is not taken and the ray hits a
shape of color `c` and tint `t`, with `I` the value of the recursive call and `D` the value
of `DirectLight`: after a reflected bounce `RecursiveSample` returns
`c * (I * t) + I * (1 - t)` when `t > 0` and `I` itself otherwise; after a diffuse bounce it
returns `c * (D + I)`.  With the laws of the combine step at a zero, when the tint is 0 and
no channel of `c` and `I` is infinite or NaN, the value returned after a reflected bounce,
`I`, is the blend at the tint 0. -/
theorem RecursiveSample_combine (E : Collab F V G M T) (s : Scene F V G M T) (r : Ray V)
    (reflected : Bool) (depth : Int) (rnd : G) (hd : 0 ≤ depth)
    (hno : (reflected && (s.IntersectLights E r).2) = false)
    (hhit : (s.IntersectShapes E r).2 = true) :
    ((s.nextBounce E r rnd).1.2 = true →
        Float64.lt Float64.zero (E.Tint ((s.IntersectShapes E r).1.Shape.Material
          (s.IntersectShapes E r).1.Ray.Origin)) = true →
        (s.RecursiveSample E r reflected depth rnd).val =
          blend ((s.IntersectShapes E r).1.Shape.Color (s.IntersectShapes E r).1.Ray.Origin)
            (s.indirect E r depth rnd).val
            (E.Tint ((s.IntersectShapes E r).1.Shape.Material
              (s.IntersectShapes E r).1.Ray.Origin))) ∧
      ((s.nextBounce E r rnd).1.2 = true →
        Float64.lt Float64.zero (E.Tint ((s.IntersectShapes E r).1.Shape.Material
          (s.IntersectShapes E r).1.Ray.Origin)) = false →
        (s.RecursiveSample E r reflected depth rnd).val = (s.indirect E r depth rnd).val) ∧
      ((s.nextBounce E r rnd).1.2 = false →
        (s.RecursiveSample E r reflected depth rnd).val =
          diffuse ((s.IntersectShapes E r).1.Shape.Color (s.IntersectShapes E r).1.Ray.Origin)
            (s.DirectLight E r (s.IntersectShapes E r).1.Ray (s.indirect E r depth rnd).rnd).val
            (s.indirect E r depth rnd).val) ∧
      (∀ fin : F → Prop, ZeroLaws fin →
        E.Tint ((s.IntersectShapes E r).1.Shape.Material
          (s.IntersectShapes E r).1.Ray.Origin) = Float64.zero →
        ((s.IntersectShapes E r).1.Shape.Color (s.IntersectShapes E r).1.Ray.Origin).All fin →
        (s.indirect E r depth rnd).val.All fin →
        (s.nextBounce E r rnd).1.2 = true →
        (s.RecursiveSample E r reflected depth rnd).val = (s.indirect E r depth rnd).val ∧
          (s.RecursiveSample E r reflected depth rnd).val =
            blend ((s.IntersectShapes E r).1.Shape.Color (s.IntersectShapes E r).1.Ray.Origin)
              (s.indirect E r depth rnd).val
              (E.Tint ((s.IntersectShapes E r).1.Shape.Material
                (s.IntersectShapes E r).1.Ray.Origin))) := by
  have hA : (s.nextBounce E r rnd).1.2 = true →
      Float64.lt Float64.zero (E.Tint ((s.IntersectShapes E r).1.Shape.Material
        (s.IntersectShapes E r).1.Ray.Origin)) = true →
      (s.RecursiveSample E r reflected depth rnd).val =
        blend ((s.IntersectShapes E r).1.Shape.Color (s.IntersectShapes E r).1.Ray.Origin)
          (s.indirect E r depth rnd).val
          (E.Tint ((s.IntersectShapes E r).1.Shape.Material
            (s.IntersectShapes E r).1.Ray.Origin)) := by
    intro href ht
    rw [RecursiveSample_nonneg E s r reflected depth rnd hd]
    unfold Scene.indirect
    unfold Scene.nextBounce at href ⊢
    simp only at href
    simp only [hno, hhit, href, ht, Scene.Combine, blend, Bool.false_eq_true, if_false,
      Bool.not_true, if_true]
  have hB : (s.nextBounce E r rnd).1.2 = true →
      Float64.lt Float64.zero (E.Tint ((s.IntersectShapes E r).1.Shape.Material
        (s.IntersectShapes E r).1.Ray.Origin)) = false →
      (s.RecursiveSample E r reflected depth rnd).val = (s.indirect E r depth rnd).val := by
    intro href ht
    rw [RecursiveSample_nonneg E s r reflected depth rnd hd]
    unfold Scene.indirect
    unfold Scene.nextBounce at href ⊢
    simp only at href
    simp only [hno, hhit, href, ht, Scene.Combine, Bool.false_eq_true, if_false,
      Bool.not_true, if_true]
  refine ⟨hA, hB, ?_, ?_⟩
  · intro href
    rw [RecursiveSample_nonneg E s r reflected depth rnd hd]
    unfold Scene.indirect
    unfold Scene.nextBounce at href ⊢
    simp only at href
    simp only [hno, hhit, href, Scene.Combine, diffuse, Bool.false_eq_true, if_false,
      Bool.not_true]
  · intro fin hlaws ht hc hi href
    have ht2 : Float64.lt Float64.zero (E.Tint ((s.IntersectShapes E r).1.Shape.Material
        (s.IntersectShapes E r).1.Ray.Origin)) = false := by
      rw [ht]
      exact hlaws.zero_lt_zero
    refine ⟨hB href ht2, ?_⟩
    rw [hB href ht2, ht, blend_zero_tint fin hlaws _ _ hc hi]

/-- Witness of C11 amended: the mirror scene with depth 1; the mirror has tint 0 and level
1, the reflected ray sees the light of level 4, and the concrete floats satisfy the laws with
the rationals as the finite numbers. -/
theorem RecursiveSample_combine_witness :
    ((0 : Int) ≤ 1) ∧
      (false && (Line.mirrorScene.IntersectLights Line.world ⟨0, 1⟩).2) = false ∧
      (Line.mirrorScene.IntersectShapes Line.world ⟨0, 1⟩).2 = true ∧
      ZeroLaws (fun x : XFloat => ∃ q : ℚ, x = XFloat.fin q) ∧
      (Line.mirrorScene.indirect Line.world ⟨0, 1⟩ 1 0).val = Line.gray 4 ∧
      (Line.mirrorScene.nextBounce Line.world ⟨0, 1⟩ 0).1.2 = true ∧
      (Line.mirrorScene.RecursiveSample Line.world ⟨0, 1⟩ false 1 0).val =
        blend ((Line.mirrorScene.IntersectShapes Line.world ⟨0, 1⟩).1.Shape.Color
            (Line.mirrorScene.IntersectShapes Line.world ⟨0, 1⟩).1.Ray.Origin)
          (Line.mirrorScene.indirect Line.world ⟨0, 1⟩ 1 0).val
          (Line.world.Tint ((Line.mirrorScene.IntersectShapes Line.world ⟨0, 1⟩).1.Shape.Material
            (Line.mirrorScene.IntersectShapes Line.world ⟨0, 1⟩).1.Ray.Origin)) :=
  have hind : (Line.mirrorScene.indirect Line.world ⟨0, 1⟩ 1 0).val = Line.gray 4 := by
    unfold Scene.indirect
    simp only [RecursiveSample_nonneg, le_refl, Int.reduceSub]
    decide
  have hfin : (Line.mirrorScene.indirect Line.world ⟨0, 1⟩ 1 0).val.All
      (fun x : XFloat => ∃ q : ℚ, x = XFloat.fin q) := by
    rw [hind]
    exact ⟨⟨4, rfl⟩, ⟨4, rfl⟩, ⟨4, rfl⟩⟩
  ⟨by decide, by decide, by decide, XFloat_zeroLaws, hind, by decide,
    ((RecursiveSample_combine Line.world Line.mirrorScene ⟨0, 1⟩ false 1 0 (by decide)
      (by decide) (by decide)).2.2.2 _ XFloat_zeroLaws rfl ⟨⟨1, rfl⟩, ⟨1, rfl⟩, ⟨1, rfl⟩⟩ hfin
      (by decide)).2⟩

/-- With the laws of the combine step at a zero, the blend of a zero indirect value is the
zero color when no channel of the color is infinite or NaN and the tint is not either:
`c * (0 * t) + 0 * (1 - t) = 0`. -/
theorem blend_zero_indirect (fin : F → Prop) (hlaws : ZeroLaws fin) (c : Color F) (t : F)
    (hc : c.All fin) (ht : fin t) : blend c Color.zero t = Color.zero := by
  have key : ∀ x : F, fin x →
      Float64.add (Float64.mul x (Float64.mul Float64.zero t))
        (Float64.mul Float64.zero (Float64.sub Float64.one t)) = Float64.zero := by
    intro x hx
    rw [hlaws.zero_mul t ht, hlaws.mul_zero x hx,
      hlaws.zero_mul _ (hlaws.one_sub_fin t ht), hlaws.add_zero]
  obtain ⟨cr, cg, cb⟩ := c
  simp only [blend, Color.Add, Color.Mul, Color.MulColor, Color.zero]
  rw [key cr hc.1, key cg hc.2.1, key cb hc.2.2]

/-- The combine step on a zero indirect value: the zero color after a reflected bounce,
`color * DirectLight` after a diffuse one. -/
theorem Combine_zero_indirect (E : Collab F V G M T) (s : Scene F V G M T) (line : Nat)
    (r : Ray V) (hit : Hit F V G M) (color : Color F) (material : M) (reflected : Bool)
    (g : G) (fin : F → Prop) (hlaws : ZeroLaws fin) (hc : color.All fin)
    (ht : fin (E.Tint material)) :
    (s.Combine E line r hit color material reflected ⟨Color.zero, g, []⟩).val =
        (if reflected then Color.zero
          else color.MulColor (s.DirectLight E r hit.Ray g).val) ∧
      (s.Combine E line r hit color material reflected ⟨Color.zero, g, []⟩).rnd =
        (if reflected then g else (s.DirectLight E r hit.Ray g).rnd) := by
  have hb := blend_zero_indirect fin hlaws color (E.Tint material) hc ht
  unfold blend at hb
  have hadd : ∀ c : Color F, c.Add Color.zero = c := by
    intro c
    cases c
    simp [Color.Add, Color.zero, hlaws.add_zero]
  unfold Scene.Combine
  cases reflected with
  | true =>
    by_cases hlt : Float64.lt Float64.zero (E.Tint material) = true
    · simp only [hlt, if_true]
      exact ⟨hb, trivial⟩
    · simp [hlt]
  | false => simp [hadd]


omit [Float64 F] in
/-- Two nested loops whose body acts on the value and the generator as `cell` does act on
them as the loops of `cell`. -/
theorem loops_project (body : Out F G (Color F) → Nat → Nat → Out F G (Color F))
    (cell : Color F × G → Nat → Nat → Color F × G)
    (h : ∀ st u v, ((body st u v).val, (body st u v).rnd) = cell (st.val, st.rnd) u v)
    (vs : List Nat) :
    ∀ (us : List Nat) (st : Out F G (Color F)),
      ((us.foldl (fun st u => vs.foldl (fun st v => body st u v) st) st).val,
        (us.foldl (fun st u => vs.foldl (fun st v => body st u v) st) st).rnd) =
      us.foldl (fun p u => vs.foldl (fun p v => cell p u v) p) (st.val, st.rnd) := by
  have inner : ∀ (u : Nat) (ws : List Nat) (st : Out F G (Color F)),
      ((ws.foldl (fun st v => body st u v) st).val,
        (ws.foldl (fun st v => body st u v) st).rnd) =
      ws.foldl (fun p v => cell p u v) (st.val, st.rnd) := by
    intro u ws
    induction ws with
    | nil => exact fun _ => rfl
    | cons v rest ih =>
      intro st
      rw [List.foldl_cons, List.foldl_cons, ih, h]
  intro us
  induction us with
  | nil => exact fun _ => rfl
  | cons u rest ih =>
    intro st
    rw [List.foldl_cons, List.foldl_cons, ih, inner]

/-- The body of the loop of `Sample` at depth 0 acts on the sum and the generator as
`depthZeroCell`. -/
theorem SampleCell_depth_zero (E : Collab F V G M T) (s : Scene F V G M T) (r : Ray V)
    (hit : Hit F V G M) (color : Color F) (material : M) (n : Int)
    (st : Out F G (Color F)) (u v : Int) (fin : F → Prop) (hlaws : ZeroLaws fin)
    (hc : color.All fin) (ht : fin (E.Tint material)) :
    ((s.SampleCell E r hit color material n 0 st u v).val,
        (s.SampleCell E r hit color material n 0 st u v).rnd) =
      s.depthZeroCell E r hit color material n (st.val, st.rnd) u v := by
  have hneg : ∀ (ray : Ray V) (reflected : Bool) (g : G),
      s.RecursiveSample E ray reflected (0 - 1) g = ⟨Color.zero, g, []⟩ :=
    fun ray reflected g => RecursiveSample_neg E s ray reflected (0 - 1) g (by norm_num)
  unfold Scene.SampleCell Scene.depthZeroCell
  simp only [hneg]
  have hcz := fun reflected g =>
    Combine_zero_indirect E s 127 r hit color material reflected g fin hlaws hc ht
  simp only [hcz]
  split <;> simp_all

/-- C17, as stated, fails when the color at the hit has an infinite channel.  In the scene
whose mirror has the color `+Inf` and the tint 1/2, with `samples = 1` and the depth budget
0, the one stratum bounces as reflected and its indirect term is the zero color, yet it
contributes `c * (0 * t) + 0 * (1 - t)` with `Inf * 0`: `Sample` returns NaN in every
channel, not the zero color. -/
theorem reflected_stratum_is_NaN :
    (Line.infMirrorScene.IntersectShapes Line.world ⟨0, 1⟩).2 = true ∧
      gridSize XFloat 1 = 1 ∧
      (Line.infMirrorScene.nextBounce Line.world ⟨0, 1⟩ 0).1.2 = true ∧
      (∀ (ray : Ray Int) (reflected : Bool) (g : Nat),
        Line.infMirrorScene.RecursiveSample Line.world ray reflected (0 - 1) g =
          ⟨Color.zero, g, []⟩) ∧
      (Line.infMirrorScene.Sample Line.world ⟨0, 1⟩ 1 0 0).val =
        ⟨XFloat.nan, XFloat.nan, XFloat.nan⟩ := by
  have hg : gridSize XFloat 1 = 1 := by
    have h := XFloat_sqrtLaws.square 1 (by norm_num) (by norm_num)
    rw [one_mul] at h
    exact h
  refine ⟨by decide, hg, by decide,
    fun ray reflected g => RecursiveSample_neg _ _ ray reflected (0 - 1) g (by norm_num), ?_⟩
  rw [Sample_hit Line.world Line.infMirrorScene ⟨0, 1⟩ 1 0 0 (le_refl 0) (by decide), hg]
  have h1 : ∀ (hit : Hit XFloat Int Nat Line.Mat) (color : Color XFloat) (material : Line.Mat),
      Line.infMirrorScene.SampleLoop Line.world ⟨0, 1⟩ hit color material 1 0 0 =
        Line.infMirrorScene.SampleCell Line.world ⟨0, 1⟩ hit color material 1 0
          ⟨Color.zero, 0, []⟩ 0 0 := fun _ _ _ => rfl
  rw [h1]
  unfold Scene.SampleCell
  simp only [RecursiveSample_neg, Int.reduceSub, Int.reduceNeg, Int.reduceLT]
  have hw : wrapInt64 (1 * 1) = 1 := by decide
  rw [hw]
  simp [Scene.Combine, Scene.IntersectShapes, Line.infMirrorScene, Scene.Compile,
    Scene.AddShape, Scene.AddLight, Line.empty, Line.world, Line.intersect, Line.nearest,
    Line.point, Line.position, Line.glare, Float64.lt, Float64.zero, Float64.one, Float64.sub,
    Float64.div, Float64.ofInt, XFloat.lt, XFloat.neg, XFloat.div, XFloat.inf, Color.Add,
    Color.Mul, Color.MulColor, Color.Div, Color.zero, Float64.add, Float64.mul, XFloat.add,
    XFloat.mul]

/-- C17, amended. With the depth budget 0 and a primary hit, `n` being the grid size
`int(math.Sqrt(float64(samples)))`: every recursive call gets the budget -1 and returns the
zero color, whatever its ray.  With the laws of the combine step at a zero, when no channel
of the color at the hit is infinite or NaN and the tint is not either, each stratum whose
bounce is reported as reflected adds the zero color and each diffuse stratum adds
`color * DirectLight`, and `Sample` returns the sum of these divided by `float64(n * n)`,
the product taken in `int`. -/
theorem Sample_depth_zero (E : Collab F V G M T) (s : Scene F V G M T) (r : Ray V)
    (samples : Int) (rnd : G) (hhit : (s.IntersectShapes E r).2 = true)
    (fin : F → Prop) (hlaws : ZeroLaws fin)
    (hc : ((s.IntersectShapes E r).1.Shape.Color (s.IntersectShapes E r).1.Ray.Origin).All fin)
    (ht : fin (E.Tint ((s.IntersectShapes E r).1.Shape.Material
      (s.IntersectShapes E r).1.Ray.Origin))) :
    (∀ (ray : Ray V) (reflected : Bool) (g : G),
        s.RecursiveSample E ray reflected (0 - 1) g = ⟨Color.zero, g, []⟩) ∧
      (s.Sample E r samples 0 rnd).val =
        (s.depthZeroLoop E r (s.IntersectShapes E r).1
          ((s.IntersectShapes E r).1.Shape.Color (s.IntersectShapes E r).1.Ray.Origin)
          ((s.IntersectShapes E r).1.Shape.Material (s.IntersectShapes E r).1.Ray.Origin)
          (gridSize F samples) rnd).1.Div
          (Float64.ofInt (wrapInt64 (gridSize F samples * gridSize F samples))) ∧
      (s.Sample E r samples 0 rnd).rnd =
        (s.depthZeroLoop E r (s.IntersectShapes E r).1
          ((s.IntersectShapes E r).1.Shape.Color (s.IntersectShapes E r).1.Ray.Origin)
          ((s.IntersectShapes E r).1.Shape.Material (s.IntersectShapes E r).1.Ray.Origin)
          (gridSize F samples) rnd).2 := by
  have hp := loops_project
    (fun st u v => s.SampleCell E r (s.IntersectShapes E r).1
      ((s.IntersectShapes E r).1.Shape.Color (s.IntersectShapes E r).1.Ray.Origin)
      ((s.IntersectShapes E r).1.Shape.Material (s.IntersectShapes E r).1.Ray.Origin)
      (gridSize F samples) 0 st (u : Int) (v : Int))
    (fun p u v => s.depthZeroCell E r (s.IntersectShapes E r).1
      ((s.IntersectShapes E r).1.Shape.Color (s.IntersectShapes E r).1.Ray.Origin)
      ((s.IntersectShapes E r).1.Shape.Material (s.IntersectShapes E r).1.Ray.Origin)
      (gridSize F samples) p (u : Int) (v : Int))
    (fun st u v => SampleCell_depth_zero E s r _ _ _ _ st u v fin hlaws hc ht)
    (List.range (gridSize F samples).toNat) (List.range (gridSize F samples).toNat)
    ⟨Color.zero, rnd, []⟩
  have hp1 := congrArg Prod.fst hp
  have hp2 := congrArg Prod.snd hp
  simp only at hp1 hp2
  refine ⟨fun ray reflected g => RecursiveSample_neg E s ray reflected (0 - 1) g (by norm_num),
    ?_, ?_⟩
  · rw [Sample_hit E s r samples 0 rnd (le_refl 0) hhit]
    unfold Scene.SampleLoop Scene.depthZeroLoop
    simp only
    rw [hp1]
  · rw [Sample_hit E s r samples 0 rnd (le_refl 0) hhit]
    unfold Scene.SampleLoop Scene.depthZeroLoop
    simp only
    rw [hp2]

/-- Witness of C17 amended: the scene whose one shape, diffuse and of level 2, is also its
light; `samples = 4`; the concrete floats satisfy the laws with the rationals as the finite
numbers. -/
theorem Sample_depth_zero_witness :
    (Line.tieScene.IntersectShapes Line.world ⟨0, 1⟩).2 = true ∧
      ZeroLaws (fun x : XFloat => ∃ q : ℚ, x = XFloat.fin q) ∧
      ((Line.tieScene.IntersectShapes Line.world ⟨0, 1⟩).1.Shape.Color
        (Line.tieScene.IntersectShapes Line.world ⟨0, 1⟩).1.Ray.Origin).All
          (fun x : XFloat => ∃ q : ℚ, x = XFloat.fin q) ∧
      (∃ q : ℚ, Line.world.Tint
        ((Line.tieScene.IntersectShapes Line.world ⟨0, 1⟩).1.Shape.Material
          (Line.tieScene.IntersectShapes Line.world ⟨0, 1⟩).1.Ray.Origin) = XFloat.fin q) ∧
      (Line.tieScene.Sample Line.world ⟨0, 1⟩ 4 0 0).val =
        (Line.tieScene.depthZeroLoop Line.world ⟨0, 1⟩
          (Line.tieScene.IntersectShapes Line.world ⟨0, 1⟩).1
          ((Line.tieScene.IntersectShapes Line.world ⟨0, 1⟩).1.Shape.Color
            (Line.tieScene.IntersectShapes Line.world ⟨0, 1⟩).1.Ray.Origin)
          ((Line.tieScene.IntersectShapes Line.world ⟨0, 1⟩).1.Shape.Material
            (Line.tieScene.IntersectShapes Line.world ⟨0, 1⟩).1.Ray.Origin)
          (gridSize XFloat 4) 0).1.Div
          (Float64.ofInt (wrapInt64 (gridSize XFloat 4 * gridSize XFloat 4))) :=
  have hc : ((Line.tieScene.IntersectShapes Line.world ⟨0, 1⟩).1.Shape.Color
      (Line.tieScene.IntersectShapes Line.world ⟨0, 1⟩).1.Ray.Origin).All
        (fun x : XFloat => ∃ q : ℚ, x = XFloat.fin q) :=
    ⟨⟨2, rfl⟩, ⟨2, rfl⟩, ⟨2, rfl⟩⟩
  have ht : ∃ q : ℚ, Line.world.Tint
      ((Line.tieScene.IntersectShapes Line.world ⟨0, 1⟩).1.Shape.Material
        (Line.tieScene.IntersectShapes Line.world ⟨0, 1⟩).1.Ray.Origin) = XFloat.fin q :=
    ⟨0, rfl⟩
  ⟨by decide, XFloat_zeroLaws, hc, ht,
    (Sample_depth_zero Line.world Line.tieScene ⟨0, 1⟩ 4 0 (by decide) _ XFloat_zeroLaws
      hc ht).2.1⟩

/-- The zero color has no channel below zero. -/
theorem Color.notNeg_zero (hlaws : SignLaws F) : (Color.zero : Color F).All NotNeg :=
  ⟨hlaws.zero, hlaws.zero, hlaws.zero⟩

/-- The sum of two colors without a channel below zero has none. -/
theorem Color.notNeg_Add (hlaws : SignLaws F) (a b : Color F) (ha : a.All NotNeg)
    (hb : b.All NotNeg) : (a.Add b).All NotNeg :=
  ⟨hlaws.add _ _ ha.1 hb.1, hlaws.add _ _ ha.2.1 hb.2.1, hlaws.add _ _ ha.2.2 hb.2.2⟩

/-- A color without a channel below zero, scaled by a number that is not below zero, has
no channel below zero. -/
theorem Color.notNeg_Mul (hlaws : SignLaws F) (a : Color F) (x : F) (ha : a.All NotNeg)
    (hx : NotNeg x) : (a.Mul x).All NotNeg :=
  ⟨hlaws.mul _ _ ha.1 hx, hlaws.mul _ _ ha.2.1 hx, hlaws.mul _ _ ha.2.2 hx⟩

/-- The component-wise product of two colors without a channel below zero has none. -/
theorem Color.notNeg_MulColor (hlaws : SignLaws F) (a b : Color F) (ha : a.All NotNeg)
    (hb : b.All NotNeg) : (a.MulColor b).All NotNeg :=
  ⟨hlaws.mul _ _ ha.1 hb.1, hlaws.mul _ _ ha.2.1 hb.2.1, hlaws.mul _ _ ha.2.2 hb.2.2⟩

/-- A color without a channel below zero, divided by the conversion of an integer that is
not negative, has no channel below zero. -/
theorem Color.notNeg_Div (hlaws : SignLaws F) (a : Color F) (k : Int) (ha : a.All NotNeg)
    (hk : 0 ≤ k) : (a.Div (Float64.ofInt k)).All NotNeg :=
  ⟨hlaws.div _ k hk ha.1, hlaws.div _ k hk ha.2.1, hlaws.div _ k hk ha.2.2⟩

/-- `DirectLight` returns no channel below zero when no light color has one. -/
theorem DirectLight_notNeg (E : Collab F V G M T) (s : Scene F V G M T) (hlaws : SignLaws F)
    (hin : s.SignInputs E) (i n : Ray V) (rnd : G) :
    (s.DirectLight E i n rnd).val.All NotNeg := by
  have key : ∀ (lights : List (Shape F V G M)), (∀ light ∈ lights, light ∈ s.lights) →
      ∀ st : Out F G (Color F), st.val.All NotNeg →
        (lights.foldl (s.DirectLightStep E n) st).val.All NotNeg := by
    intro lights
    induction lights with
    | nil => exact fun _ _ h => h
    | cons light rest ih =>
      intro hmem st hst
      rw [List.foldl_cons]
      apply ih (fun l hl => hmem l (List.mem_cons_of_mem _ hl))
      unfold Scene.DirectLightStep
      simp only
      split
      · exact hst
      · exact Color.notNeg_Add hlaws _ _ hst
          (Color.notNeg_Mul hlaws _ _
            (hin.lightColor light (hmem light (List.mem_cons_self _ _)) _)
            (hlaws.max_zero _))
  have h0 := key s.lights (fun _ hl => hl) ⟨Color.zero, rnd, []⟩ (Color.notNeg_zero hlaws)
  exact Color.notNeg_Div hlaws _ _ h0 (Int.natCast_nonneg _)

/-- The combine step returns no channel below zero when the recursive value and the color
have none and the tint is neither below 0 nor above 1. -/
theorem Combine_notNeg (E : Collab F V G M T) (s : Scene F V G M T) (hlaws : SignLaws F)
    (hin : s.SignInputs E) (line : Nat) (r : Ray V) (hit : Hit F V G M) (color : Color F)
    (material : M) (reflected : Bool) (ind : Out F G (Color F)) (hc : color.All NotNeg)
    (ht : NotNeg (E.Tint material) ∧ Float64.lt Float64.one (E.Tint material) = false)
    (hi : ind.val.All NotNeg) :
    (s.Combine E line r hit color material reflected ind).val.All NotNeg := by
  unfold Scene.Combine
  cases reflected with
  | true =>
    by_cases hlt : Float64.lt Float64.zero (E.Tint material) = true
    · simp only [hlt, if_true]
      exact Color.notNeg_Add hlaws _ _
        (Color.notNeg_MulColor hlaws _ _ hc (Color.notNeg_Mul hlaws _ _ hi ht.1))
        (Color.notNeg_Mul hlaws _ _ hi (hlaws.one_sub _ ht.2))
    · simp only [hlt, if_true, Bool.false_eq_true, if_false]
      exact hi
  | false =>
    simp only [Bool.false_eq_true, if_false]
    exact Color.notNeg_MulColor hlaws _ _ hc
      (Color.notNeg_Add hlaws _ _ (DirectLight_notNeg E s hlaws hin _ _ _) hi)

/-- `RecursiveSample` returns no channel below zero, for every depth and flag. -/
theorem RecursiveSample_notNeg (E : Collab F V G M T) (s : Scene F V G M T)
    (hlaws : SignLaws F) (hin : s.SignInputs E) (depth : Int) :
    ∀ (r : Ray V) (reflected : Bool) (rnd : G),
      (s.RecursiveSample E r reflected depth rnd).val.All NotNeg := by
  induction depth using depth_induction with
  | hneg d hd =>
    intro r reflected rnd
    rw [RecursiveSample_neg E s r reflected d rnd hd]
    exact Color.notNeg_zero hlaws
  | hstep d hd ih =>
    intro r reflected rnd
    rw [RecursiveSample_nonneg E s r reflected d rnd hd]
    by_cases h1 : (reflected && (s.IntersectLights E r).2) = true
    · rw [if_pos h1]
      have h2 : (s.IntersectLights E r).2 = true := by
        cases reflected <;> simp_all
      exact hin.lightHit r h2
    · rw [if_neg h1]
      by_cases h2 : (!(s.IntersectShapes E r).2) = true
      · rw [if_pos h2]
        exact Color.notNeg_zero hlaws
      · rw [if_neg h2]
        have hhit : (s.IntersectShapes E r).2 = true := by simpa using h2
        exact Combine_notNeg E s hlaws hin 93 r _ _ _ _ _ (hin.shapeColor r hhit)
          (hin.tint r hhit) (ih _ _ _)

omit [Float64 F] in
/-- Two nested loops keep what their body keeps. -/
theorem loops_invariant (P : Out F G (Color F) → Prop)
    (body : Out F G (Color F) → Nat → Nat → Out F G (Color F))
    (hbody : ∀ st u v, P st → P (body st u v)) (vs : List Nat) :
    ∀ (us : List Nat) (st : Out F G (Color F)), P st →
      P (us.foldl (fun st u => vs.foldl (fun st v => body st u v) st) st) := by
  have inner : ∀ (u : Nat) (ws : List Nat) (st : Out F G (Color F)), P st →
      P (ws.foldl (fun st v => body st u v) st) := by
    intro u ws
    induction ws with
    | nil => exact fun _ h => h
    | cons v rest ih =>
      intro st h
      rw [List.foldl_cons]
      exact ih _ (hbody st u v h)
  intro us
  induction us with
  | nil => exact fun _ h => h
  | cons u rest ih =>
    intro st h
    rw [List.foldl_cons]
    exact ih _ (inner u vs st h)

/-- C16, as stated, fails when a light color is `+Inf`, which is not negative.  In the scene
of a black diffuse wall (color 0, tint 0) and one light of color `+Inf`, every color is
`>= 0` in each channel and the tint lies in `[0, 1]`; for the ray from 0 with depth 0 the
direct light at the wall is `+Inf`, and `RecursiveSample` returns `0 * (Inf + 0)`: NaN in
every channel, which is not `>= 0`. -/
theorem black_wall_radiance_is_NaN :
    Line.blackWallScene.lights.length = 1 ∧
      (∀ light ∈ Line.blackWallScene.lights, ∀ p, (light.Color p).All Nonneg) ∧
      (∀ shape ∈ Line.blackWallScene.shapes, ∀ p, (shape.Color p).All Nonneg ∧
        Nonneg (Line.world.Tint (shape.Material p)) ∧
        Float64.lt Float64.one (Line.world.Tint (shape.Material p)) = false) ∧
      (Line.blackWallScene.DirectLight Line.world ⟨0, 1⟩ ⟨5, -1⟩ 3).val = Line.glare ∧
      (Line.blackWallScene.RecursiveSample Line.world ⟨0, 1⟩ false 0 0).val =
        ⟨XFloat.nan, XFloat.nan, XFloat.nan⟩ ∧
      ¬ Nonneg XFloat.nan := by
  refine ⟨by decide, ?_, ?_, ?_, ?_, ?_⟩
  · intro light hl p
    have hl2 : light = Line.point (-3) Line.glare ⟨XFloat.fin 0, false⟩ := by
      simpa [Line.blackWallScene, Scene.Compile, Scene.AddLight, Scene.AddShape, Line.empty]
        using hl
    rw [hl2]
    exact ⟨Or.inl rfl, Or.inl rfl, Or.inl rfl⟩
  · intro shape hs p
    have hs2 : shape = Line.point 5 (Line.gray 0) ⟨XFloat.fin 0, false⟩ := by
      simpa [Line.blackWallScene, Scene.Compile, Scene.AddLight, Scene.AddShape, Line.empty]
        using hs
    rw [hs2]
    exact ⟨⟨Or.inr rfl, Or.inr rfl, Or.inr rfl⟩, Or.inr rfl, rfl⟩
  · simp [Scene.DirectLight, Scene.DirectLightStep, Line.blackWallScene, Scene.Compile,
      Scene.AddShape, Scene.AddLight, Line.empty, Line.world, Scene.Shadow, Line.shadow,
      Line.nearest, Line.point, Line.position, Line.glare, Float64.lt, Float64.max,
      Float64.zero, XFloat.lt, XFloat.max, XFloat.inf, Color.Add, Color.Mul, Color.Div,
      Color.zero, Float64.add, Float64.mul, Float64.div, Float64.ofInt, XFloat.add, XFloat.mul,
      XFloat.div]
  · simp [RecursiveSample_nonneg, RecursiveSample_neg, Scene.Combine, Scene.IntersectLights,
      Scene.IntersectShapes, Scene.DirectLight, Scene.DirectLightStep, Line.blackWallScene,
      Scene.Compile, Scene.AddShape, Scene.AddLight, Line.empty, Line.world, Scene.Shadow,
      Line.shadow, Line.intersect, Line.nearest, Line.point, Line.position, Line.glare,
      Line.gray, Float64.lt, Float64.max, Float64.zero, Float64.one, XFloat.lt, XFloat.max,
      XFloat.inf, Color.Add, Color.Mul, Color.MulColor, Color.Div, Color.zero, Float64.add,
      Float64.mul, Float64.div, Float64.ofInt, XFloat.add, XFloat.mul, XFloat.div]
  · intro h
    rcases h with h | h
    · exact Bool.noConfusion h
    · exact XFloat.noConfusion h

/-- C16, amended. With the laws of the sign: in a scene where no channel of a light color or
of a shape color is below zero and no tint is below 0 or above 1, `DirectLight` returns a
color with no channel below zero, `RecursiveSample` does for every depth and flag, and, with
the laws of the grid size, `Sample` does for every `samples >= 1` (an `int`, so below 2^63).
A channel that is not below zero can be NaN. -/
theorem radiance_not_negative (E : Collab F V G M T) (s : Scene F V G M T)
    (hlaws : SignLaws F) (hin : s.SignInputs E) :
    (∀ (i n : Ray V) (rnd : G), (s.DirectLight E i n rnd).val.All NotNeg) ∧
      (∀ (r : Ray V) (reflected : Bool) (depth : Int) (rnd : G),
        (s.RecursiveSample E r reflected depth rnd).val.All NotNeg) ∧
      (SqrtLaws F → ∀ (r : Ray V) (samples depth : Int) (rnd : G), 1 ≤ samples →
        samples < 2 ^ 63 → (s.Sample E r samples depth rnd).val.All NotNeg) := by
  refine ⟨DirectLight_notNeg E s hlaws hin,
    fun r reflected depth rnd => RecursiveSample_notNeg E s hlaws hin depth r reflected rnd,
    ?_⟩
  intro hgrid r samples depth rnd hs hmax
  by_cases hd : depth < 0
  · unfold Scene.Sample
    rw [if_pos hd]
    exact Color.notNeg_zero hlaws
  · by_cases h2 : (s.IntersectShapes E r).2 = true
    · rw [Sample_hit E s r samples depth rnd (not_lt.mp hd) h2]
      obtain ⟨h3, h4⟩ := gridSize_bounds hgrid samples hs hmax
      have hw : wrapInt64 (gridSize F samples * gridSize F samples) =
          gridSize F samples * gridSize F samples := by
        have h5 : 1 ≤ gridSize F samples * gridSize F samples := by nlinarith
        have h6 : gridSize F samples * gridSize F samples < 2 ^ 63 := by nlinarith
        unfold wrapInt64
        omega
      rw [hw]
      apply Color.notNeg_Div hlaws _ _ _ (by nlinarith)
      unfold Scene.SampleLoop
      apply loops_invariant (fun st => st.val.All NotNeg)
        (fun st u v => s.SampleCell E r (s.IntersectShapes E r).1
          ((s.IntersectShapes E r).1.Shape.Color (s.IntersectShapes E r).1.Ray.Origin)
          ((s.IntersectShapes E r).1.Shape.Material (s.IntersectShapes E r).1.Ray.Origin)
          (gridSize F samples) depth st (u : Int) (v : Int))
      · intro st u v hst
        unfold Scene.SampleCell
        exact Color.notNeg_Add hlaws _ _ hst
          (Combine_notNeg E s hlaws hin 127 r _ _ _ _ _ (hin.shapeColor r h2)
            (hin.tint r h2) (RecursiveSample_notNeg E s hlaws hin _ _ _ _))
      · exact Color.notNeg_zero hlaws
    · unfold Scene.Sample
      rw [if_neg hd]
      have h3 : (!(s.IntersectShapes E r).2) = true := by simpa using h2
      rw [if_pos h3]
      exact Color.notNeg_zero hlaws

/-- `IntersectLights` returns the hit of the light index, and finds it only when the light
index has a hit. -/
theorem IntersectLights_hit (E : Collab F V G M T) (s : Scene F V G M T) (r : Ray V) :
    (s.IntersectLights E r).1 = (E.Intersect s.lightTree r).1 ∧
      ((s.IntersectLights E r).2 = true → (E.Intersect s.lightTree r).2 = true) := by
  unfold Scene.IntersectLights
  cases h1 : (E.Intersect s.lightTree r).2 <;> cases h2 : (E.Intersect s.shapeTree r).2 <;>
    simp [h1, h2]

/-- In the line world a tree of one shape reports no other shape. -/
theorem intersect_singleton (sh : Line.Sh) (r : Ray Int)
    (h : (Line.intersect [sh] r).2 = true) : (Line.intersect [sh] r).1.Shape = sh := by
  unfold Line.intersect Line.nearest at h ⊢
  by_cases hc : 0 < (Line.position sh - r.Origin) * r.Direction
  · simp [hc, Line.nearest]
  · simp [hc, Line.nearest] at h

/-- The mirror scene has the inputs of the radiance sign property: the mirror has level 1
and tint 0, the light has level 4. -/
theorem mirrorScene_inputs : Line.mirrorScene.SignInputs Line.world where
  lightColor := by
    intro light hl p
    have hl2 : light = Line.point (-3) (Line.gray 4) ⟨XFloat.fin 0, false⟩ := by
      simpa [Line.mirrorScene, Scene.Compile, Scene.AddLight, Scene.AddShape, Line.empty]
        using hl
    rw [hl2]
    exact ⟨rfl, rfl, rfl⟩
  shapeColor := by
    intro r hr
    have h := intersect_singleton (Line.point 5 (Line.gray 1) ⟨XFloat.fin 0, true⟩) r hr
    have h2 : (Line.mirrorScene.IntersectShapes Line.world r).1.Shape =
        Line.point 5 (Line.gray 1) ⟨XFloat.fin 0, true⟩ := h
    rw [h2]
    exact ⟨rfl, rfl, rfl⟩
  tint := by
    intro r hr
    have h := intersect_singleton (Line.point 5 (Line.gray 1) ⟨XFloat.fin 0, true⟩) r hr
    have h2 : (Line.mirrorScene.IntersectShapes Line.world r).1.Shape =
        Line.point 5 (Line.gray 1) ⟨XFloat.fin 0, true⟩ := h
    rw [h2]
    exact ⟨rfl, rfl⟩
  lightHit := by
    intro r hr
    have h1 : (Line.world.Intersect Line.mirrorScene.lightTree r).2 = true :=
      (IntersectLights_hit Line.world Line.mirrorScene r).2 hr
    rw [(IntersectLights_hit Line.world Line.mirrorScene r).1]
    have h := intersect_singleton (Line.point (-3) (Line.gray 4) ⟨XFloat.fin 0, false⟩) r h1
    have h2 : (Line.world.Intersect Line.mirrorScene.lightTree r).1.Shape =
        Line.point (-3) (Line.gray 4) ⟨XFloat.fin 0, false⟩ := h
    rw [h2]
    exact ⟨rfl, rfl, rfl⟩

/-- Witness of C16 amended: the mirror scene, `samples = 4`, depth 2; the concrete floats
satisfy the laws of the sign and of the grid size. -/
theorem radiance_not_negative_witness :
    SignLaws XFloat ∧ Line.mirrorScene.SignInputs Line.world ∧ SqrtLaws XFloat ∧
      ((1 : Int) ≤ 4) ∧ ((4 : Int) < 2 ^ 63) ∧
      (Line.mirrorScene.Sample Line.world ⟨0, 1⟩ 4 2 0).val.All NotNeg :=
  ⟨XFloat_signLaws, mirrorScene_inputs, XFloat_sqrtLaws, by decide, by norm_num,
    (radiance_not_negative Line.world Line.mirrorScene XFloat_signLaws
      mirrorScene_inputs).2.2 XFloat_sqrtLaws ⟨0, 1⟩ 4 2 0 (by decide) (by norm_num)⟩

end Theorems

end pt
